import Mathlib

/-!
# Map streaming and sprite loading of `source/map/map.c`

A shallow embedding of the map module of the NES starter kit.  Machine
integers are natural numbers reduced explicitly: `unsigned char` values
modulo 256, `int` values (16 bits under cc65) modulo 65536 in their
two's-complement bit pattern.  Byte arrays that the module writes are
functions from index to stored value; every store truncates to a byte.
Read-only byte tables are typed so that each entry is a byte.
-/

namespace NesMap

/-- A writable byte array, as a map from index to the value stored there. -/
abbrev Mem := Nat → Nat

/-- A read-only array of `unsigned char`. -/
abbrev ByteTable := Nat → Fin 256

/-- Store into an `unsigned char` array element: the value is truncated to 8 bits. -/
def poke (m : Mem) (a v : Nat) : Mem := fun k => if k = a then v % 256 else m k

/-- The first `n` bytes of an array, as a list. -/
def bytes (n : Nat) (m : Mem) : List Nat := (List.range n).map m

/-- The neslib macro `MSB(x)`, which is `((x)>>8)`. -/
def MSB (x : Nat) : Nat := x >>> 8

/-- The neslib macro `LSB(x)`, which is `((x)&0xff)`. -/
def LSB (x : Nat) : Nat := x &&& 0xff

/-- Constants, macros and tables that `map.c` takes from headers and other
modules.  They are parameters of the embedding. -/
structure Consts where
  MAP_MAX_SPRITES : Nat
  MAP_DATA_TILE_LENGTH : Nat
  MAP_SPRITE_DATA_SHIFT : Nat
  MAP_SPRITE_DATA_POS_X : Nat
  MAP_SPRITE_DATA_POS_Y : Nat
  MAP_SPRITE_DATA_POS_TILE_ID : Nat
  MAP_SPRITE_DATA_POS_TYPE : Nat
  MAP_SPRITE_DATA_POS_SIZE_PALETTE : Nat
  MAP_SPRITE_DATA_POS_HEALTH : Nat
  MAP_SPRITE_DATA_POS_ANIMATION_TYPE : Nat
  MAP_SPRITE_DATA_POS_MOVEMENT_TYPE : Nat
  MAP_SPRITE_DATA_POS_MOVE_SPEED : Nat
  MAP_SPRITE_DATA_POS_DAMAGE : Nat
  SPRITE_DEF_SHIFT : Nat
  SPRITE_DEF_POSITION_TILE_ID : Nat
  SPRITE_DEF_POSITION_TYPE : Nat
  SPRITE_DEF_POSITION_SIZE_PALETTE : Nat
  SPRITE_DEF_POSITION_HEALTH : Nat
  SPRITE_DEF_POSITION_ANIMATION_TYPE : Nat
  SPRITE_DEF_POSITION_MOVEMENT_TYPE : Nat
  SPRITE_DEF_POSITION_MOVE_SPEED : Nat
  SPRITE_DEF_POSITION_DAMAGE : Nat
  SPRITE_TYPE_OFFSCREEN : Nat
  HUD_PIXEL_HEIGHT : Nat
  SPRITE_POSITION_SHIFT : Nat
  NAMETABLE_UPDATE_PREFIX_LENGTH : Nat
  NT_UPD_HORZ : Nat
  NT_UPD_EOF : Nat
  NAMETABLE_A : Nat
  NAMETABLE_A_ATTRS : Nat
  NAMETABLE_B : Nat
  NAMETABLE_B_ATTRS : Nat
  NAMETABLE_C : Nat
  NAMETABLE_C_ATTRS : Nat
  NAMETABLE_D : Nat
  NAMETABLE_D_ATTRS : Nat
  SCREEN_WIDTH_TILES : Nat
  SCREEN_SCROLL_LOOP_INCREMENT : Nat
  SCREEN_SCROLL_SPEED : Nat
  PLAYER_POSITION_SHIFT : Nat
  SPRITE_TYPE_WARP_DOOR : Nat
  SPRITE_TILE_ID_OFFSCREEN : Nat
  GAME_STATE_RUNNING : Nat
  GAME_STATE_SCREEN_SCROLL : Nat
  GAME_STATE_WORLD_TRANSITION : Nat
  SPRITE_DIRECTION_LEFT : Nat
  SPRITE_DIRECTION_RIGHT : Nat
  SPRITE_DIRECTION_UP : Nat
  SPRITE_DIRECTION_DOWN : Nat
  SCREEN_EDGE_LEFT : Nat
  SCREEN_EDGE_RIGHT : Nat
  SCREEN_EDGE_TOP : Nat
  SCREEN_EDGE_BOTTOM : Nat
  bitToByte : ByteTable
  spriteDefinitions : ByteTable

/-- The global variables `map.c` works on.  The temporaries carry the names
the module gives them with `#define`: `currentValue` is `tempInt1`,
`currentMemoryLocation` is `tempInt2`, `tempArrayIndex` is `tempInt3`,
`bufferIndex` is `tempChar1`, `otherLoopIndex` is `tempChar2`,
`spritePosition` is `tempChar3`, `spriteDefinitionIndex` is `tempChar4` and
`mapSpriteDataIndex` is `tempChar5`.  `vramUpdate` records whether neslib's
update pointer is `mapScreenBuffer` or `NULL`, and `flushed` lists the
contents `mapScreenBuffer` had at each vertical blank at which the pointer
was set, oldest first.  The player's position (two `int`s, kept as 16-bit patterns), the
player's direction and the game state belong to other modules and are read and written
here. -/
@[ext]
structure Globals where
  i : Nat
  j : Nat
  playerOverworldPosition : Nat
  xScrollPosition : Int
  currentMap : ByteTable
  assetTable : Mem
  currentMapSpriteData : Mem
  currentMapSpritePersistance : ByteTable
  mapScreenBuffer : Mem
  currentValue : Nat
  currentMemoryLocation : Nat
  tempArrayIndex : Nat
  bufferIndex : Nat
  otherLoopIndex : Nat
  spritePosition : Nat
  spriteDefinitionIndex : Nat
  mapSpriteDataIndex : Nat
  vramUpdate : Bool
  flushed : List Mem
  playerXPosition : Nat
  playerYPosition : Nat
  playerDirection : Nat
  gameState : Nat

/-- The neslib call `set_vram_update(buf)`: `true` for `mapScreenBuffer`, `false` for `NULL`. -/
def set_vram_update (enable : Bool) (g : Globals) : Globals := { g with vramUpdate := enable }

/-- The neslib call `ppu_wait_nmi()`: at the vertical blank the update list, when
one is set, is copied to video memory. -/
def ppu_wait_nmi (g : Globals) : Globals :=
  if g.vramUpdate then { g with flushed := g.flushed ++ [g.mapScreenBuffer] } else g

/-! ## load_sprites -/

/-- The body of the loop of `load_sprites`, for the slot `g.i`.  The statements are
taken in source order; each intermediate value is named after the variable it is
assigned to. -/
def load_sprite (c : Consts) (g : Globals) : Globals :=
  let spriteDefinitionIndex :=
    ((g.currentMap ((c.MAP_DATA_TILE_LENGTH + 1) + (g.i <<< 1))).val <<< c.SPRITE_DEF_SHIFT) % 256
  let mapSpriteDataIndex := (g.i <<< c.MAP_SPRITE_DATA_SHIFT) % 256
  let spritePosition := (g.currentMap (c.MAP_DATA_TILE_LENGTH + (g.i <<< 1))).val
  if spritePosition ≠ 255 ∧
      (g.currentMapSpritePersistance g.playerOverworldPosition).val &&& (c.bitToByte g.i).val = 0 then
    let currentValueX := ((spritePosition &&& 0x0f) <<< 8) % 65536
    let d := poke g.currentMapSpriteData (mapSpriteDataIndex + c.MAP_SPRITE_DATA_POS_X) (currentValueX &&& 0xff)
    let d := poke d (mapSpriteDataIndex + c.MAP_SPRITE_DATA_POS_X + 1) (currentValueX >>> 8)
    let currentValueY :=
      (((spritePosition &&& 0xf0) <<< 4) + ((c.HUD_PIXEL_HEIGHT - 1) <<< c.SPRITE_POSITION_SHIFT)) % 65536
    let d := poke d (mapSpriteDataIndex + c.MAP_SPRITE_DATA_POS_Y) (currentValueY &&& 0xff)
    let d := poke d (mapSpriteDataIndex + c.MAP_SPRITE_DATA_POS_Y + 1) (currentValueY >>> 8)
    let d := poke d (mapSpriteDataIndex + c.MAP_SPRITE_DATA_POS_TILE_ID)
      (c.spriteDefinitions (spriteDefinitionIndex + c.SPRITE_DEF_POSITION_TILE_ID)).val
    let d := poke d (mapSpriteDataIndex + c.MAP_SPRITE_DATA_POS_TYPE)
      (c.spriteDefinitions (spriteDefinitionIndex + c.SPRITE_DEF_POSITION_TYPE)).val
    let d := poke d (mapSpriteDataIndex + c.MAP_SPRITE_DATA_POS_SIZE_PALETTE)
      (c.spriteDefinitions (spriteDefinitionIndex + c.SPRITE_DEF_POSITION_SIZE_PALETTE)).val
    let d := poke d (mapSpriteDataIndex + c.MAP_SPRITE_DATA_POS_HEALTH)
      (c.spriteDefinitions (spriteDefinitionIndex + c.SPRITE_DEF_POSITION_HEALTH)).val
    let d := poke d (mapSpriteDataIndex + c.MAP_SPRITE_DATA_POS_ANIMATION_TYPE)
      (c.spriteDefinitions (spriteDefinitionIndex + c.SPRITE_DEF_POSITION_ANIMATION_TYPE)).val
    let d := poke d (mapSpriteDataIndex + c.MAP_SPRITE_DATA_POS_MOVEMENT_TYPE)
      (c.spriteDefinitions (spriteDefinitionIndex + c.SPRITE_DEF_POSITION_MOVEMENT_TYPE)).val
    let d := poke d (mapSpriteDataIndex + c.MAP_SPRITE_DATA_POS_MOVE_SPEED)
      (c.spriteDefinitions (spriteDefinitionIndex + c.SPRITE_DEF_POSITION_MOVE_SPEED)).val
    let d := poke d (mapSpriteDataIndex + c.MAP_SPRITE_DATA_POS_DAMAGE)
      (c.spriteDefinitions (spriteDefinitionIndex + c.SPRITE_DEF_POSITION_DAMAGE)).val
    { g with spriteDefinitionIndex := spriteDefinitionIndex, mapSpriteDataIndex := mapSpriteDataIndex,
             spritePosition := spritePosition, currentValue := currentValueY, currentMapSpriteData := d }
  else
    { g with spriteDefinitionIndex := spriteDefinitionIndex, mapSpriteDataIndex := mapSpriteDataIndex,
             spritePosition := spritePosition,
             currentMapSpriteData :=
               poke g.currentMapSpriteData (mapSpriteDataIndex + c.MAP_SPRITE_DATA_POS_TYPE)
                 c.SPRITE_TYPE_OFFSCREEN }

/-- The loop `for (i = 0; i != MAP_MAX_SPRITES; ++i)` of `load_sprites`, entered
with `i` already set; `i` is an `unsigned char`. -/
def load_sprites_loop (c : Consts) : Nat → Globals → Globals
  | 0, g => g
  | fuel + 1, g =>
    if g.i ≠ c.MAP_MAX_SPRITES then
      load_sprites_loop c fuel { load_sprite c g with i := (g.i + 1) % 256 }
    else g

/-- The function `load_sprites`.  An 8-bit counter takes at most 256 values
before it either meets the bound or repeats. -/
def load_sprites (c : Consts) (g : Globals) : Globals :=
  load_sprites_loop c 256 { g with i := 0 }

/-! ## clear_asset_table -/

/-- The first loop of `clear_asset_table`: `for (i = 0; i != sizeof(assetTable) - 8; ++i)`. -/
def clear_loop_map : Nat → Globals → Globals
  | 0, g => g
  | fuel + 1, g =>
    if g.i ≠ 0x38 - 8 then
      clear_loop_map fuel { g with assetTable := poke g.assetTable g.i 0x00, i := (g.i + 1) % 256 }
    else g

/-- The second loop of `clear_asset_table`: `for (; i != sizeof(assetTable); ++i)`. -/
def clear_loop_hud (containsHud : Nat) : Nat → Globals → Globals
  | 0, g => g
  | fuel + 1, g =>
    if g.i ≠ 0x38 then
      clear_loop_hud containsHud fuel
        { g with assetTable := poke g.assetTable g.i (if containsHud = 0 then 0x00 else 0xff),
                 i := (g.i + 1) % 256 }
    else g

/-- The function `clear_asset_table`. -/
def clear_asset_table (containsHud : Nat) (g : Globals) : Globals :=
  clear_loop_hud containsHud 256 (clear_loop_map 256 { g with i := 0 })

/-! ## draw_current_map_to_nametable -/

/-- The value `((id >> 3) << 5) + ((id % 8) << 1)` that the tile loop leaves in
`currentValue` (an `int`) for the tile byte `t`, with `id = t & 0x3f`. -/
def tileBase (t : Nat) : Nat :=
  let currentValue := t &&& 0x3f
  (((currentValue >>> 3) <<< 5) + ((currentValue % 8) <<< 1)) % 65536

/-- The two statements of the tile loop that move `j` (an `unsigned char`):
`if (i % 32 == (reverseAttributes ? 0 : 16)) j -= 8; if (i % 2 == 0) j++;`. -/
def nextJ (reverseAttributes i j : Nat) : Nat :=
  let j := if i % 32 = (if reverseAttributes ≠ 0 then 0 else 16) then (j + 248) % 256 else j
  if i % 2 = 0 then (j + 1) % 256 else j

/-- The palette bits of the tile byte `t` as the tile loop shifts them for tile `i`:
`currentValue = t & 0xc0`, then one of `>>= 6`, `>>= 2`, `>>= 4`, `>>= 0`. -/
def paletteBits (reverseAttributes i t : Nat) : Nat :=
  let currentValue := t &&& 0xc0
  if i % 2 = 0 then
    if (i / 16) % 2 = reverseAttributes then currentValue >>> 6 else currentValue >>> 2
  else
    if (i / 16) % 2 = reverseAttributes then currentValue >>> 4 else currentValue >>> 0

/-- The four stores of the tile loop into `mapScreenBuffer`. -/
def bufferTile (c : Consts) (bufferIndex currentValue : Nat) (b : Mem) : Mem :=
  let b := poke b (c.NAMETABLE_UPDATE_PREFIX_LENGTH + (bufferIndex <<< 1)) currentValue
  let b := poke b (c.NAMETABLE_UPDATE_PREFIX_LENGTH + (bufferIndex <<< 1) + 1) (currentValue + 1)
  let b := poke b (c.NAMETABLE_UPDATE_PREFIX_LENGTH + (bufferIndex <<< 1) + 32) (currentValue + 16)
  poke b (c.NAMETABLE_UPDATE_PREFIX_LENGTH + (bufferIndex <<< 1) + 33) (currentValue + 17)

/-- The header and end marker the tile loop writes before it hands the buffer over. -/
def tileHeader (c : Consts) (currentMemoryLocation : Nat) (b : Mem) : Mem :=
  let b := poke b 0 (MSB currentMemoryLocation ||| c.NT_UPD_HORZ)
  let b := poke b 1 (LSB currentMemoryLocation)
  let b := poke b 2 65
  poke b (64 + c.NAMETABLE_UPDATE_PREFIX_LENGTH + 1) c.NT_UPD_EOF

/-- The body of the tile loop of `draw_current_map_to_nametable`, for the tile `g.i`.
The calls of `scroll` and `split` at `bufferIndex == 8` and after a flush write
hardware scroll registers only and leave every variable of the module alone. -/
def draw_tile (c : Consts) (nametableAdr reverseAttributes : Nat) (g : Globals) : Globals :=
  let currentMemoryLocation :=
    if g.bufferIndex = 0 then (nametableAdr + ((g.i / 16) <<< 6) + ((g.i % 16) <<< 1)) % 65536
    else g.currentMemoryLocation
  let mapScreenBuffer := bufferTile c g.bufferIndex (tileBase (g.currentMap g.i).val) g.mapScreenBuffer
  let j := nextJ reverseAttributes g.i g.j
  let currentValue := paletteBits reverseAttributes g.i (g.currentMap g.i).val
  let assetTable := poke g.assetTable j (g.assetTable j + currentValue)
  let bufferIndex := (g.bufferIndex + 1) % 256
  if bufferIndex = 16 then
    set_vram_update false (ppu_wait_nmi (set_vram_update true
      { g with currentMemoryLocation := currentMemoryLocation, j := j, currentValue := currentValue,
               assetTable := assetTable, bufferIndex := 0,
               mapScreenBuffer := tileHeader c currentMemoryLocation mapScreenBuffer }))
  else
    { g with currentMemoryLocation := currentMemoryLocation, j := j, currentValue := currentValue,
             assetTable := assetTable, bufferIndex := bufferIndex, mapScreenBuffer := mapScreenBuffer }

/-- The loop `for (i = 0; i != 192; ++i)` of `draw_current_map_to_nametable`, entered
with `i` already set. -/
def draw_tiles_loop (c : Consts) (nametableAdr reverseAttributes : Nat) : Nat → Globals → Globals
  | 0, g => g
  | fuel + 1, g =>
    if g.i ≠ 192 then
      draw_tiles_loop c nametableAdr reverseAttributes fuel
        { draw_tile c nametableAdr reverseAttributes g with i := (g.i + 1) % 256 }
    else g

/-- The loop `for (i = 0; i != 0x38; ++i)` that copies `assetTable` into the buffer. -/
def copy_attributes_loop (c : Consts) : Nat → Globals → Globals
  | 0, g => g
  | fuel + 1, g =>
    if g.i ≠ 0x38 then
      copy_attributes_loop c fuel
        { g with
          mapScreenBuffer := poke g.mapScreenBuffer (c.NAMETABLE_UPDATE_PREFIX_LENGTH + g.i) (g.assetTable g.i),
          i := (g.i + 1) % 256 }
    else g

/-- The header and end marker of the attribute packet. -/
def attributeHeader (c : Consts) (attributeTableAdr : Nat) (b : Mem) : Mem :=
  let b := poke b 0 (MSB attributeTableAdr ||| c.NT_UPD_HORZ)
  let b := poke b 1 (LSB attributeTableAdr)
  let b := poke b 2 0x38
  poke b 0x3b c.NT_UPD_EOF

/-- The function `draw_current_map_to_nametable`.  The two address arguments are
`int`s, given here by their 16-bit patterns. -/
def draw_current_map_to_nametable (c : Consts) (nametableAdr attributeTableAdr reverseAttributes : Nat)
    (g : Globals) : Globals :=
  let g := set_vram_update false g
  let g := draw_tiles_loop c nametableAdr reverseAttributes 256
    { g with bufferIndex := 0, j := if reverseAttributes = 0 then 255 else 7, i := 0 }
  let g := copy_attributes_loop c 256 { g with i := 0 }
  let g := { g with mapScreenBuffer := attributeHeader c attributeTableAdr g.mapScreenBuffer }
  set_vram_update false (ppu_wait_nmi (set_vram_update true g))

/-! ## draw_individual_row -/

/-- The header of the tile packet and the attribute packet that `draw_individual_row` writes
behind it at a flush: `tempArrayIndex` starts at `64 + NAMETABLE_UPDATE_PREFIX_LENGTH + 1`
and is incremented after each of the twelve stores. -/
def rowPacket (c : Consts) (currentMemoryLocation attributeTableAdr j : Nat) (assetTable b : Mem) : Mem :=
  let b := poke b 0 (MSB currentMemoryLocation ||| c.NT_UPD_HORZ)
  let b := poke b 1 (LSB currentMemoryLocation)
  let b := poke b 2 65
  let tempArrayIndex := 64 + c.NAMETABLE_UPDATE_PREFIX_LENGTH + 1
  let b := poke b tempArrayIndex (MSB ((attributeTableAdr + j + 65536 - 7) % 65536) ||| c.NT_UPD_HORZ)
  let b := poke b (tempArrayIndex + 1) (LSB ((attributeTableAdr + j + 65536 - 7) % 65536))
  let b := poke b (tempArrayIndex + 2) 8
  let b := poke b (tempArrayIndex + 3) (assetTable (j - 7))
  let b := poke b (tempArrayIndex + 4) (assetTable (j - 6))
  let b := poke b (tempArrayIndex + 5) (assetTable (j - 5))
  let b := poke b (tempArrayIndex + 6) (assetTable (j - 4))
  let b := poke b (tempArrayIndex + 7) (assetTable (j - 3))
  let b := poke b (tempArrayIndex + 8) (assetTable (j - 2))
  let b := poke b (tempArrayIndex + 9) (assetTable (j - 1))
  let b := poke b (tempArrayIndex + 10) (assetTable j)
  poke b (tempArrayIndex + 11) c.NT_UPD_EOF

/-- One turn of the `while(1)` loop of `draw_individual_row`, up to and including `++i`.
The statements that move `j` and shift the palette bits are those of the tile loop with
`reverseAttributes` fixed to 0.  The argument `oliChange` is a `char`, given by its 8-bit
pattern.  The calls of `scroll` and `split_y` write hardware registers only. -/
def row_tile (c : Consts) (nametableAdr attributeTableAdr oliChange : Nat) (g : Globals) : Globals :=
  let currentMemoryLocation :=
    if g.bufferIndex = 0 then (nametableAdr + ((g.i / 16) <<< 6) + ((g.i % 16) <<< 1)) % 65536
    else g.currentMemoryLocation
  let mapScreenBuffer := bufferTile c g.bufferIndex (tileBase (g.currentMap g.i).val) g.mapScreenBuffer
  let j := nextJ 0 g.i g.j
  let currentValue := paletteBits 0 g.i (g.currentMap g.i).val
  let assetTable := poke g.assetTable j (g.assetTable j + currentValue)
  let bufferIndex := (g.bufferIndex + 1) % 256
  let g1 : Globals :=
    { g with currentMemoryLocation := currentMemoryLocation, j := j, currentValue := currentValue,
             assetTable := assetTable, bufferIndex := bufferIndex, mapScreenBuffer := mapScreenBuffer }
  let g2 : Globals :=
    if bufferIndex = 8 then
      if g1.xScrollPosition ≠ -1 then
        { ppu_wait_nmi g1 with otherLoopIndex := (g1.otherLoopIndex + oliChange) % 256 }
      else ppu_wait_nmi g1
    else g1
  let g3 : Globals :=
    if bufferIndex = 16 then
      set_vram_update false (ppu_wait_nmi (set_vram_update true
        { g2 with
          bufferIndex := 0
          mapScreenBuffer := rowPacket c currentMemoryLocation attributeTableAdr j assetTable mapScreenBuffer
          tempArrayIndex := 64 + c.NAMETABLE_UPDATE_PREFIX_LENGTH + 1 + 12 }))
    else g2
  { g3 with i := (g.i + 1) % 256 }

/-- The loop `while(1) { ...; ++i; if (i % 32 == 0) break; }` of `draw_individual_row`. -/
def draw_individual_row_loop (c : Consts) (nametableAdr attributeTableAdr oliChange : Nat) :
    Nat → Globals → Globals
  | 0, g => g
  | fuel + 1, g =>
    if (row_tile c nametableAdr attributeTableAdr oliChange g).i % 32 = 0 then
      row_tile c nametableAdr attributeTableAdr oliChange g
    else
      draw_individual_row_loop c nametableAdr attributeTableAdr oliChange fuel
        (row_tile c nametableAdr attributeTableAdr oliChange g)

/-- The function `draw_individual_row`.  An 8-bit `i` reaches a multiple of 32 within 32
increments. -/
def draw_individual_row (c : Consts) (nametableAdr attributeTableAdr oliChange : Nat) (g : Globals) :
    Globals :=
  draw_individual_row_loop c nametableAdr attributeTableAdr oliChange 256 g

/-! ## The four full-bank entry points -/

/-- The function `draw_current_map_to_a`. -/
def draw_current_map_to_a (c : Consts) (g : Globals) : Globals :=
  draw_current_map_to_nametable c c.NAMETABLE_A c.NAMETABLE_A_ATTRS 0
    { clear_asset_table 1 g with xScrollPosition := -1 }

/-- The function `draw_current_map_to_b`. -/
def draw_current_map_to_b (c : Consts) (g : Globals) : Globals :=
  draw_current_map_to_nametable c c.NAMETABLE_B c.NAMETABLE_B_ATTRS 0
    { clear_asset_table 0 g with xScrollPosition := -1 }

/-- The function `draw_current_map_to_c`. -/
def draw_current_map_to_c (c : Consts) (g : Globals) : Globals :=
  draw_current_map_to_nametable c c.NAMETABLE_C c.NAMETABLE_C_ATTRS 0
    { clear_asset_table 0 g with xScrollPosition := -1 }

/-- The function `draw_current_map_to_d`. -/
def draw_current_map_to_d (c : Consts) (g : Globals) : Globals :=
  draw_current_map_to_nametable c c.NAMETABLE_D c.NAMETABLE_D_ATTRS 0
    { clear_asset_table 0 g with xScrollPosition := -1 }

/-- A configuration with the values the starter kit uses: twelve sprite slots of
sixteen bytes, eight-byte sprite definitions, a 48-pixel HUD. -/
def kit : Consts where
  MAP_MAX_SPRITES := 12
  MAP_DATA_TILE_LENGTH := 192
  MAP_SPRITE_DATA_SHIFT := 4
  MAP_SPRITE_DATA_POS_X := 0
  MAP_SPRITE_DATA_POS_Y := 2
  MAP_SPRITE_DATA_POS_TILE_ID := 4
  MAP_SPRITE_DATA_POS_TYPE := 5
  MAP_SPRITE_DATA_POS_SIZE_PALETTE := 6
  MAP_SPRITE_DATA_POS_HEALTH := 7
  MAP_SPRITE_DATA_POS_ANIMATION_TYPE := 8
  MAP_SPRITE_DATA_POS_MOVEMENT_TYPE := 9
  MAP_SPRITE_DATA_POS_MOVE_SPEED := 10
  MAP_SPRITE_DATA_POS_DAMAGE := 11
  SPRITE_DEF_SHIFT := 3
  SPRITE_DEF_POSITION_TILE_ID := 0
  SPRITE_DEF_POSITION_TYPE := 1
  SPRITE_DEF_POSITION_SIZE_PALETTE := 2
  SPRITE_DEF_POSITION_HEALTH := 3
  SPRITE_DEF_POSITION_ANIMATION_TYPE := 4
  SPRITE_DEF_POSITION_MOVEMENT_TYPE := 5
  SPRITE_DEF_POSITION_MOVE_SPEED := 6
  SPRITE_DEF_POSITION_DAMAGE := 7
  SPRITE_TYPE_OFFSCREEN := 0x7f
  HUD_PIXEL_HEIGHT := 48
  SPRITE_POSITION_SHIFT := 4
  NAMETABLE_UPDATE_PREFIX_LENGTH := 3
  NT_UPD_HORZ := 0x40
  NT_UPD_EOF := 0xff
  NAMETABLE_A := 0x2000
  NAMETABLE_A_ATTRS := 0x23c0
  NAMETABLE_B := 0x2400
  NAMETABLE_B_ATTRS := 0x27c0
  NAMETABLE_C := 0x2800
  NAMETABLE_C_ATTRS := 0x2bc0
  NAMETABLE_D := 0x2c00
  NAMETABLE_D_ATTRS := 0x2fc0
  SCREEN_WIDTH_TILES := 32
  SCREEN_SCROLL_LOOP_INCREMENT := 2
  SCREEN_SCROLL_SPEED := 12
  PLAYER_POSITION_SHIFT := 4
  SPRITE_TYPE_WARP_DOOR := 3
  SPRITE_TILE_ID_OFFSCREEN := 0xff
  GAME_STATE_RUNNING := 1
  GAME_STATE_SCREEN_SCROLL := 2
  GAME_STATE_WORLD_TRANSITION := 3
  SPRITE_DIRECTION_LEFT := 0x24
  SPRITE_DIRECTION_RIGHT := 0x20
  SPRITE_DIRECTION_UP := 0x28
  SPRITE_DIRECTION_DOWN := 0x2c
  SCREEN_EDGE_LEFT := 0
  SCREEN_EDGE_RIGHT := 240
  SCREEN_EDGE_TOP := 48
  SCREEN_EDGE_BOTTOM := 224
  bitToByte := fun k => ⟨2 ^ (k % 8), by
    have h : k % 8 < 8 := Nat.mod_lt _ (by decide)
    interval_cases (k % 8) <;> decide⟩
  spriteDefinitions := fun k => ⟨(k / 8 + 40 * (k % 8)) % 256, Nat.mod_lt _ (by decide)⟩

/-- A starting state with every variable zero and an empty flush log. -/
def zeroGlobals : Globals where
  i := 0
  j := 0
  playerOverworldPosition := 0
  xScrollPosition := 0
  currentMap := fun _ => 0
  assetTable := fun _ => 0
  currentMapSpriteData := fun _ => 0
  currentMapSpritePersistance := fun _ => 0
  mapScreenBuffer := fun _ => 0
  currentValue := 0
  currentMemoryLocation := 0
  tempArrayIndex := 0
  bufferIndex := 0
  otherLoopIndex := 0
  spritePosition := 0
  spriteDefinitionIndex := 0
  mapSpriteDataIndex := 0
  vramUpdate := false
  flushed := []
  playerXPosition := 0
  playerYPosition := 0
  playerDirection := 0
  gameState := 0

/-! ## Vocabulary of the statements -/

/-- The twelve byte offsets inside a slot that `load_sprites` writes when it populates it. -/
def slotOffsets (c : Consts) : List Nat :=
  [c.MAP_SPRITE_DATA_POS_X, c.MAP_SPRITE_DATA_POS_X + 1,
   c.MAP_SPRITE_DATA_POS_Y, c.MAP_SPRITE_DATA_POS_Y + 1,
   c.MAP_SPRITE_DATA_POS_TILE_ID, c.MAP_SPRITE_DATA_POS_TYPE,
   c.MAP_SPRITE_DATA_POS_SIZE_PALETTE, c.MAP_SPRITE_DATA_POS_HEALTH,
   c.MAP_SPRITE_DATA_POS_ANIMATION_TYPE, c.MAP_SPRITE_DATA_POS_MOVEMENT_TYPE,
   c.MAP_SPRITE_DATA_POS_MOVE_SPEED, c.MAP_SPRITE_DATA_POS_DAMAGE]

/-- The layout that the declaration `currentMapSpriteData[(16 * MAP_MAX_SPRITES)]` and the
8-bit slot index stand for: sixteen-byte slots, at most sixteen of them, the twelve written
offsets distinct and inside a slot, and an off-screen type that is a byte. -/
def SpriteLayout (c : Consts) : Prop :=
  c.MAP_SPRITE_DATA_SHIFT = 4 ∧ c.MAP_MAX_SPRITES ≤ 16 ∧ c.SPRITE_TYPE_OFFSCREEN < 256 ∧
    (∀ o ∈ slotOffsets c, o < 16) ∧ (slotOffsets c).Nodup

instance (c : Consts) : Decidable (SpriteLayout c) := by
  unfold SpriteLayout; infer_instance

/-- What `load_sprites` reads: the two states hold the same map, persistence table and screen. -/
def SameInputs (g g' : Globals) : Prop :=
  g.currentMap = g'.currentMap ∧ g.currentMapSpritePersistance = g'.currentMapSpritePersistance ∧
    g.playerOverworldPosition = g'.playerOverworldPosition

/-- The position byte of the placement record of slot `s`, as `load_sprites` reads it. -/
def recordPosition (c : Consts) (m : ByteTable) (s : Nat) : Nat :=
  (m (c.MAP_DATA_TILE_LENGTH + (s <<< 1))).val

/-- The template index of the placement record of slot `s`, as `load_sprites` reads it. -/
def recordTemplate (c : Consts) (m : ByteTable) (s : Nat) : Nat :=
  (m ((c.MAP_DATA_TILE_LENGTH + 1) + (s <<< 1))).val

/-- The masked persistence byte that `load_sprites` tests for slot `s`. -/
def persistenceBit (c : Consts) (g : Globals) (s : Nat) : Nat :=
  (g.currentMapSpritePersistance g.playerOverworldPosition).val &&& (c.bitToByte s).val

/-- Byte `o` of the sixteen-byte slot `s` of `currentMapSpriteData`. -/
def slotByte (d : Mem) (s o : Nat) : Nat := d (16 * s + o)

/-- The constant `(HUD_PIXEL_HEIGHT-1) << SPRITE_POSITION_SHIFT` added to a sprite's Y position. -/
def verticalOffset (c : Consts) : Nat := (c.HUD_PIXEL_HEIGHT - 1) <<< c.SPRITE_POSITION_SHIFT

/-- The vertical offset leaves room for every position byte in a 16-bit value. -/
def PositionFits (c : Consts) : Prop :=
  0 < c.HUD_PIXEL_HEIGHT ∧ 0xF00 + verticalOffset c ≤ 0xFFFF

instance (c : Consts) : Decidable (PositionFits c) := by
  unfold PositionFits; infer_instance

/-- A map whose slot 0 holds the record `(position = 0x23, template = 2)`, slot 2 holds
`(position = 0x45, template = 32)`, slot 3 holds `(position = 0x67, template = 1)` and
whose other slots are empty. -/
def sampleSpriteMap : ByteTable :=
  fun k => if k = 192 then 0x23 else if k = 193 then 2 else if k = 196 then 0x45
    else if k = 197 then 32 else if k = 198 then 0x67 else if k = 199 then 1 else 255

/-- A state on `sampleSpriteMap` in which the persistence byte of the screen has bit 3 set. -/
def sampleGlobals : Globals :=
  { zeroGlobals with
    currentMap := sampleSpriteMap
    currentMapSpritePersistance := fun _ => 8
    currentMapSpriteData := fun k => k + 100 }

/-! ## The tile loop, variable by variable

Each function below gives one variable of `draw_current_map_to_nametable` after `n` turns
of the tile loop, by the statements of the loop body that assign it. -/

/-- The attribute cursor `j` after `n` turns of the tile loop, from the value `j` it had
on entry. -/
def jAfter (reverseAttributes : Nat) : Nat → Nat → Nat
  | 0, j => j
  | n + 1, j => nextJ reverseAttributes n (jAfter reverseAttributes n j)

/-- The table `assetTable` after `n` turns of the tile loop: turn `n` adds the shifted
palette bits of tile `n` to the entry under the cursor. -/
def assetAfter (reverseAttributes : Nat) (m : ByteTable) (j : Nat) : Nat → Mem → Mem
  | 0, a => a
  | n + 1, a =>
    poke (assetAfter reverseAttributes m j n a) (jAfter reverseAttributes (n + 1) j)
      (assetAfter reverseAttributes m j n a (jAfter reverseAttributes (n + 1) j) +
        paletteBits reverseAttributes n (m n).val)

/-- The variable `currentValue` after `n` turns of the tile loop. -/
def valueAfter (reverseAttributes : Nat) (m : ByteTable) : Nat → Nat → Nat
  | 0, v => v
  | n + 1, _ => paletteBits reverseAttributes n (m n).val

/-- The variable `currentMemoryLocation` after `n` turns of the tile loop: it is assigned
in the turns that find `bufferIndex == 0`. -/
def locationAfter (nametableAdr : Nat) : Nat → Nat → Nat
  | 0, l => l
  | n + 1, l =>
    if n % 16 = 0 then (nametableAdr + ((n / 16) <<< 6) + ((n % 16) <<< 1)) % 65536
    else locationAfter nametableAdr n l

/-- The array `mapScreenBuffer` after `n` turns of the tile loop. -/
def bufferAfter (c : Consts) (nametableAdr : Nat) (m : ByteTable) (l : Nat) : Nat → Mem → Mem
  | 0, b => b
  | n + 1, b =>
    if (n % 16 + 1) % 256 = 16 then
      tileHeader c (locationAfter nametableAdr (n + 1) l)
        (bufferTile c (n % 16) (tileBase (m n).val) (bufferAfter c nametableAdr m l n b))
    else bufferTile c (n % 16) (tileBase (m n).val) (bufferAfter c nametableAdr m l n b)

/-- The buffers handed to the vertical blank during the first `n` turns of the tile loop. -/
def flushedAfter (c : Consts) (nametableAdr : Nat) (m : ByteTable) (l : Nat) : Nat → Mem → List Mem
  | 0, _ => []
  | n + 1, b =>
    if (n % 16 + 1) % 256 = 16 then
      flushedAfter c nametableAdr m l n b ++ [bufferAfter c nametableAdr m l (n + 1) b]
    else flushedAfter c nametableAdr m l n b

/-- The state after `n` turns of the tile loop entered in state `g`. -/
def tilesAfter (c : Consts) (nametableAdr reverseAttributes n : Nat) (g : Globals) : Globals :=
  { g with
    i := n
    j := jAfter reverseAttributes n g.j
    currentValue := valueAfter reverseAttributes g.currentMap n g.currentValue
    currentMemoryLocation := locationAfter nametableAdr n g.currentMemoryLocation
    assetTable := assetAfter reverseAttributes g.currentMap g.j n g.assetTable
    mapScreenBuffer := bufferAfter c nametableAdr g.currentMap g.currentMemoryLocation n g.mapScreenBuffer
    bufferIndex := n % 16
    vramUpdate := if n < 16 then g.vramUpdate else false
    flushed := g.flushed ++
      flushedAfter c nametableAdr g.currentMap g.currentMemoryLocation n g.mapScreenBuffer }

/-- The table `assetTable` as `clear_asset_table` leaves it. -/
def clearedTable (containsHud : Nat) (a : Mem) : Mem :=
  fun k => if k < 48 then 0 else if k < 56 then (if containsHud = 0 then 0 else 255) else a k

/-- The buffer as the copy loop and the attribute header leave it: header, the 56 bytes of
the table `a`, the end marker, and the bytes of `b` everywhere else. -/
def attributePacket (c : Consts) (attributeTableAdr : Nat) (a b : Mem) : Mem :=
  attributeHeader c attributeTableAdr (fun k =>
    if c.NAMETABLE_UPDATE_PREFIX_LENGTH ≤ k ∧ k < c.NAMETABLE_UPDATE_PREFIX_LENGTH + 56 then a (k - c.NAMETABLE_UPDATE_PREFIX_LENGTH) % 256
    else b k)

/-- The tile packet of chunk `k` in closed form (three-byte header): the address bytes of
`nametableAdr + 64 * k`, the length byte 65, the 64 tile bytes of the tiles `16 * k` to
`16 * k + 15`, the end marker at index 68, and the bytes of `b` everywhere else. -/
def tilePacket (c : Consts) (nametableAdr : Nat) (m : ByteTable) (b : Mem) (k : Nat) : Mem :=
  fun idx =>
    if idx = 0 then (MSB ((nametableAdr + 64 * k) % 65536) ||| c.NT_UPD_HORZ) % 256
    else if idx = 1 then LSB ((nametableAdr + 64 * k) % 65536) % 256
    else if idx = 2 then 65
    else if idx = 68 then c.NT_UPD_EOF % 256
    else if 3 ≤ idx ∧ idx < 67 then
      (tileBase (m (16 * k + (idx - 3) % 32 / 2)).val + ((idx - 3) % 2 + 16 * ((idx - 3) / 32))) % 256
    else b idx

/-- The state in which `draw_current_map_to_nametable` enters its tile loop. -/
def drawEntry (reverseAttributes : Nat) (g : Globals) : Globals :=
  { set_vram_update false g with
    bufferIndex := 0, j := if reverseAttributes = 0 then 255 else 7, i := 0 }

/-- The state in which `draw_current_map_to_nametable` returns, variable by variable. -/
def drawn (c : Consts) (nametableAdr attributeTableAdr reverseAttributes : Nat) (g : Globals) : Globals :=
  { tilesAfter c nametableAdr reverseAttributes 192 (drawEntry reverseAttributes g) with
    i := 56
    vramUpdate := false
    mapScreenBuffer := attributePacket c attributeTableAdr
      (assetAfter reverseAttributes g.currentMap (if reverseAttributes = 0 then 255 else 7) 192 g.assetTable)
      (bufferAfter c nametableAdr g.currentMap g.currentMemoryLocation 192 g.mapScreenBuffer)
    flushed := g.flushed ++
      flushedAfter c nametableAdr g.currentMap g.currentMemoryLocation 192 g.mapScreenBuffer ++
      [attributePacket c attributeTableAdr
        (assetAfter reverseAttributes g.currentMap (if reverseAttributes = 0 then 255 else 7) 192 g.assetTable)
        (bufferAfter c nametableAdr g.currentMap g.currentMemoryLocation 192 g.mapScreenBuffer)] }

/-- The 2-bit palette selector of tile `t`: the tile byte shifted right by 6. -/
def palette (m : ByteTable) (t : Nat) : Nat := (m t).val >>> 6

/-- The accumulated value of attribute byte `b` after the first `n` tiles of a normal
pass over a cleared table: the selectors of those of its four tiles already visited. -/
def packedSoFar (m : ByteTable) (n b : Nat) : Nat :=
  (if 32 * (b / 8) + 2 * (b % 8) < n then palette m (32 * (b / 8) + 2 * (b % 8)) else 0) +
  (if 32 * (b / 8) + 2 * (b % 8) + 1 < n then 4 * palette m (32 * (b / 8) + 2 * (b % 8) + 1) else 0) +
  (if 32 * (b / 8) + 2 * (b % 8) + 16 < n then 16 * palette m (32 * (b / 8) + 2 * (b % 8) + 16) else 0) +
  (if 32 * (b / 8) + 2 * (b % 8) + 17 < n then 64 * palette m (32 * (b / 8) + 2 * (b % 8) + 17) else 0)

/-- One clear-then-pass cycle on the map `m`: the external `load_map` leaves `m` in
`currentMap`, then `clear_asset_table(containsHud)` and `draw_current_map_to_nametable`
run as in `draw_current_map_to_a` and its siblings. -/
def redraw (c : Consts) (nametableAdr attributeTableAdr reverseAttributes containsHud : Nat)
    (m : ByteTable) (g : Globals) : Globals :=
  draw_current_map_to_nametable c nametableAdr attributeTableAdr reverseAttributes
    (clear_asset_table containsHud { g with currentMap := m })

/-- A map whose tile bytes run through all 256 values. -/
def sampleTileMap : ByteTable := fun k => ⟨(k * 37 + 11) % 256, Nat.mod_lt _ (by decide)⟩

/-- A second map, for redrawing. -/
def otherTileMap : ByteTable := fun k => ⟨(k * 5 + 3) % 256, Nat.mod_lt _ (by decide)⟩

/-- A state on `sampleTileMap` whose buffer and attribute table hold earlier contents. -/
def sampleDrawGlobals : Globals :=
  { zeroGlobals with
    currentMap := sampleTileMap
    mapScreenBuffer := fun k => if k = 67 then 0xAB else k
    assetTable := fun _ => 0x77 }

/-- The state after `n` turns of the tile loop: the loop body, then `++i`, `n` times. -/
def tileTurns (c : Consts) (nametableAdr reverseAttributes : Nat) : Nat → Globals → Globals
  | 0, g => g
  | n + 1, g =>
    { draw_tile c nametableAdr reverseAttributes (tileTurns c nametableAdr reverseAttributes n g) with
      i := ((tileTurns c nametableAdr reverseAttributes n g).i + 1) % 256 }

/-- The attribute index under which the tile loop accumulates tile `i`: the value of `j`
after the turn of tile `i`. -/
def cursor (reverseAttributes i : Nat) : Nat :=
  jAfter reverseAttributes (i + 1) (if reverseAttributes = 0 then 255 else 7)

/-- The sum of the shifted palette bits that the first `n` turns of the tile loop add to
the attribute byte `b`. -/
def accumulated (reverseAttributes : Nat) (m : ByteTable) : Nat → Nat → Nat
  | 0, _ => 0
  | n + 1, b =>
    accumulated reverseAttributes m n b +
      (if b = cursor reverseAttributes n then paletteBits reverseAttributes n (m n).val else 0)

/-- The factor by which the shift of tile `i` scales its 2-bit selector. -/
def fieldWeight (reverseAttributes i : Nat) : Nat :=
  if i % 2 = 0 then (if i / 16 % 2 = reverseAttributes then 1 else 16)
  else (if i / 16 % 2 = reverseAttributes then 4 else 64)

/-- The attribute index of tile `i` in closed form, for the two polarities. -/
def attributeSlot (reverseAttributes i : Nat) : Nat :=
  if reverseAttributes = 0 then 8 * (i / 32) + i % 16 / 2 else 8 * ((i / 16 + 1) / 2) + i % 16 / 2

/-- The sum of the field weights of the first `n` tiles that fall into the attribute byte `b`. -/
def weightSum (reverseAttributes : Nat) : Nat → Nat → Nat
  | 0, _ => 0
  | n + 1, b =>
    weightSum reverseAttributes n b +
      (if b = attributeSlot reverseAttributes n then fieldWeight reverseAttributes n else 0)

/-! ## One call of the row streamer, variable by variable -/

/-- The map seen from tile `i0` on. -/
def shiftMap (m : ByteTable) (i0 : Nat) : ByteTable := fun k => m (i0 + k)

/-- The array `mapScreenBuffer` after `n` turns of a call of `draw_individual_row` that was
entered at tile `i0` with cursor `j`, table `a` and location `l`. -/
def rowBufferAfter (c : Consts) (nametableAdr attributeTableAdr : Nat) (m : ByteTable)
    (i0 j : Nat) (a : Mem) (l : Nat) : Nat → Mem → Mem
  | 0, b => b
  | n + 1, b =>
    if (n % 16 + 1) % 256 = 16 then
      rowPacket c (locationAfter (nametableAdr + 64 * (i0 / 16)) (n + 1) l) attributeTableAdr
        (jAfter 0 (n + 1) j) (assetAfter 0 (shiftMap m i0) j (n + 1) a)
        (bufferTile c (n % 16) (tileBase (m (i0 + n)).val)
          (rowBufferAfter c nametableAdr attributeTableAdr m i0 j a l n b))
    else
      bufferTile c (n % 16) (tileBase (m (i0 + n)).val)
        (rowBufferAfter c nametableAdr attributeTableAdr m i0 j a l n b)

/-- The buffers handed to the vertical blank during the first `n` turns of such a call, when
no update list was pending on entry. -/
def rowFlushedAfter (c : Consts) (nametableAdr attributeTableAdr : Nat) (m : ByteTable)
    (i0 j : Nat) (a : Mem) (l : Nat) : Nat → Mem → List Mem
  | 0, _ => []
  | n + 1, b =>
    if (n % 16 + 1) % 256 = 16 then
      rowFlushedAfter c nametableAdr attributeTableAdr m i0 j a l n b ++
        [rowBufferAfter c nametableAdr attributeTableAdr m i0 j a l (n + 1) b]
    else rowFlushedAfter c nametableAdr attributeTableAdr m i0 j a l n b

/-- The state after `n` turns of a call of `draw_individual_row` entered in state `g`. -/
def rowAfter (c : Consts) (nametableAdr attributeTableAdr oliChange n : Nat) (g : Globals) : Globals :=
  { g with
    i := g.i + n
    j := jAfter 0 n g.j
    currentValue := valueAfter 0 (shiftMap g.currentMap g.i) n g.currentValue
    currentMemoryLocation := locationAfter (nametableAdr + 64 * (g.i / 16)) n g.currentMemoryLocation
    assetTable := assetAfter 0 (shiftMap g.currentMap g.i) g.j n g.assetTable
    mapScreenBuffer := rowBufferAfter c nametableAdr attributeTableAdr g.currentMap g.i g.j
      g.assetTable g.currentMemoryLocation n g.mapScreenBuffer
    bufferIndex := n % 16
    otherLoopIndex :=
      if g.xScrollPosition ≠ -1 ∧ 8 ≤ n then (g.otherLoopIndex + (n + 8) / 16 * oliChange) % 256
      else g.otherLoopIndex
    tempArrayIndex :=
      if n < 16 then g.tempArrayIndex else 64 + c.NAMETABLE_UPDATE_PREFIX_LENGTH + 1 + 12
    flushed := g.flushed ++ rowFlushedAfter c nametableAdr attributeTableAdr g.currentMap g.i g.j
      g.assetTable g.currentMemoryLocation n g.mapScreenBuffer }

/-- Consecutive calls of `draw_individual_row` with the same arguments. -/
def rowCalls (c : Consts) (nametableAdr attributeTableAdr oliChange : Nat) : Nat → Globals → Globals
  | 0, g => g
  | k + 1, g =>
    draw_individual_row c nametableAdr attributeTableAdr oliChange
      (rowCalls c nametableAdr attributeTableAdr oliChange k g)

/-- A state in the middle of a pass of the row streamer: two calls done, the cursors at the
third row pair. -/
def sampleRowGlobals : Globals :=
  { sampleDrawGlobals with
    i := 64
    j := 15
    assetTable := fun k => if k < 16 then 0x2A else 0 }

/-- The first `n` turns of the loop of `draw_individual_row`. -/
def rowTurns (c : Consts) (nametableAdr attributeTableAdr oliChange : Nat) : Nat → Globals → Globals
  | 0, g => g
  | n + 1, g =>
    row_tile c nametableAdr attributeTableAdr oliChange
      (rowTurns c nametableAdr attributeTableAdr oliChange n g)

/-! ## The screen transitions -/

/-- Modelled from the spec: the external `load_map()` produces the 256-byte tile map buffer.
Its code belongs to another module; the map it leaves in `currentMap` is a parameter. -/
def load_map (newMap : ByteTable) (g : Globals) : Globals := { g with currentMap := newMap }

/-- The body of the warp-door loop of `do_fade_screen_transition`, for the slot `g.i`. -/
def warp_door_step (c : Consts) (g : Globals) : Globals :=
  let mapSpriteDataIndex := (g.i <<< c.MAP_SPRITE_DATA_SHIFT) % 256
  if g.currentMapSpriteData (mapSpriteDataIndex + c.MAP_SPRITE_DATA_POS_TYPE) = c.SPRITE_TYPE_WARP_DOOR then
    { g with
      mapSpriteDataIndex := mapSpriteDataIndex
      playerXPosition := (g.currentMapSpriteData (mapSpriteDataIndex + c.MAP_SPRITE_DATA_POS_X) +
        ((g.currentMapSpriteData (mapSpriteDataIndex + c.MAP_SPRITE_DATA_POS_X + 1)) <<< 8)) % 65536
      playerYPosition := (g.currentMapSpriteData (mapSpriteDataIndex + c.MAP_SPRITE_DATA_POS_Y) +
        ((g.currentMapSpriteData (mapSpriteDataIndex + c.MAP_SPRITE_DATA_POS_Y + 1)) <<< 8)) % 65536
      currentMapSpriteData := poke g.currentMapSpriteData
        (mapSpriteDataIndex + c.MAP_SPRITE_DATA_POS_TILE_ID) c.SPRITE_TILE_ID_OFFSCREEN }
  else { g with mapSpriteDataIndex := mapSpriteDataIndex }

/-- The loop `for (i = 0; i != MAP_MAX_SPRITES; ++i)` of `do_fade_screen_transition`, entered
with `i` already set. -/
def warp_door_loop (c : Consts) : Nat → Globals → Globals
  | 0, g => g
  | fuel + 1, g =>
    if g.i ≠ c.MAP_MAX_SPRITES then
      warp_door_loop c fuel { warp_door_step c g with i := (g.i + 1) % 256 }
    else g

/-- The branch of `do_fade_screen_transition` on `gameState`: the player is moved to the
opposite screen edge, or onto the warp door. -/
def fade_reposition (c : Consts) (g : Globals) : Globals :=
  if g.gameState = c.GAME_STATE_SCREEN_SCROLL then
    if g.playerDirection = c.SPRITE_DIRECTION_LEFT then
      { g with playerXPosition := (c.SCREEN_EDGE_RIGHT <<< c.PLAYER_POSITION_SHIFT) % 65536 }
    else if g.playerDirection = c.SPRITE_DIRECTION_RIGHT then
      { g with playerXPosition := (c.SCREEN_EDGE_LEFT <<< c.PLAYER_POSITION_SHIFT) % 65536 }
    else if g.playerDirection = c.SPRITE_DIRECTION_UP then
      { g with playerYPosition := (c.SCREEN_EDGE_BOTTOM <<< c.PLAYER_POSITION_SHIFT) % 65536 }
    else if g.playerDirection = c.SPRITE_DIRECTION_DOWN then
      { g with playerYPosition := (c.SCREEN_EDGE_TOP <<< c.PLAYER_POSITION_SHIFT) % 65536 }
    else g
  else if g.gameState = c.GAME_STATE_WORLD_TRANSITION then
    warp_door_loop c 256 { g with i := 0 }
  else g

/-- The function `do_fade_screen_transition`.  The fades and the two sprite refreshes are
external and leave the variables of this module alone. -/
def do_fade_screen_transition (c : Consts) (newMap : ByteTable) (g : Globals) : Globals :=
  { draw_current_map_to_nametable c c.NAMETABLE_A c.NAMETABLE_A_ATTRS 0
      (fade_reposition c (clear_asset_table 1 (load_sprites c (load_map newMap g)))) with
    gameState := c.GAME_STATE_RUNNING }

/-- A 16-bit pattern read as a signed `int`. -/
def toInt16 (x : Nat) : Int :=
  if x % 65536 < 32768 then ((x % 65536 : Nat) : Int) else ((x % 65536 : Nat) : Int) - 65536

/-- The body of the loop of the right branch of `do_scroll_screen_transition`, with the
increment of `i`.  The call of `split` writes a hardware register only. -/
def scroll_right_turn (c : Consts) (g : Globals) : Globals :=
  let g1 : Globals :=
    { g with
      playerXPosition := (g.playerXPosition + 65536 -
        (c.SCREEN_SCROLL_LOOP_INCREMENT <<< c.PLAYER_POSITION_SHIFT) % 65536) % 65536 }
  let g2 : Globals := if g1.i % c.SCREEN_SCROLL_SPEED = 0 then ppu_wait_nmi g1 else g1
  { g2 with i := (g2.i + c.SCREEN_SCROLL_LOOP_INCREMENT) % 256 }

/-- The loop `for (i = 0; i != 254; i += SCREEN_SCROLL_LOOP_INCREMENT)` of the right branch,
entered with `i` already set; `none` when the fuel runs out. -/
def scroll_right_loop (c : Consts) : Nat → Globals → Option Globals
  | 0, _ => none
  | fuel + 1, g => if g.i ≠ 254 then scroll_right_loop c fuel (scroll_right_turn c g) else some g

/-- The body of the loop of the left branch, with the increment of `i`. -/
def scroll_left_turn (c : Consts) (g : Globals) : Globals :=
  let g1 : Globals :=
    { g with
      playerXPosition := (g.playerXPosition +
        (c.SCREEN_SCROLL_LOOP_INCREMENT <<< c.PLAYER_POSITION_SHIFT)) % 65536 }
  let g2 : Globals := if g1.i % c.SCREEN_SCROLL_SPEED = 0 then ppu_wait_nmi g1 else g1
  { g2 with i := (g2.i + c.SCREEN_SCROLL_LOOP_INCREMENT) % 256 }

/-- The loop of the left branch; `none` when the fuel runs out. -/
def scroll_left_loop (c : Consts) : Nat → Globals → Option Globals
  | 0, _ => none
  | fuel + 1, g => if g.i ≠ 254 then scroll_left_loop c fuel (scroll_left_turn c g) else some g

/-- The body of the loop of the down branch, with the increment of `otherLoopIndex`. -/
def scroll_down_turn (c : Consts) (g : Globals) : Globals :=
  let g1 : Globals :=
    { g with
      playerYPosition := (g.playerYPosition + 65536 -
        (c.SCREEN_SCROLL_LOOP_INCREMENT <<< c.PLAYER_POSITION_SHIFT) % 65536) % 65536 }
  let g2 : Globals :=
    if g1.otherLoopIndex % 32 = 0 ∧ g1.otherLoopIndex < 224 then
      draw_individual_row c c.NAMETABLE_B c.NAMETABLE_B_ATTRS (c.SCREEN_SCROLL_LOOP_INCREMENT % 256)
        (ppu_wait_nmi g1)
    else if g1.i % (c.SCREEN_SCROLL_SPEED * 4) = 0 then ppu_wait_nmi g1
    else g1
  { g2 with otherLoopIndex := (g2.otherLoopIndex + c.SCREEN_SCROLL_LOOP_INCREMENT) % 256 }

/-- The loop `for (...; otherLoopIndex < 240 - HUD_PIXEL_HEIGHT; otherLoopIndex +=
SCREEN_SCROLL_LOOP_INCREMENT)` of the down branch, entered with `otherLoopIndex` already set.
The list `calls` collects the value `otherLoopIndex` has at each call of
`draw_individual_row`; the result is `none` when the fuel runs out. -/
def scroll_down_loop (c : Consts) : Nat → Globals → List Nat → Option (Globals × List Nat)
  | 0, _, _ => none
  | fuel + 1, g, calls =>
    if g.otherLoopIndex < 240 - c.HUD_PIXEL_HEIGHT then
      scroll_down_loop c fuel (scroll_down_turn c g)
        (if g.otherLoopIndex % 32 = 0 ∧ g.otherLoopIndex < 224 then calls ++ [g.otherLoopIndex]
         else calls)
    else some (g, calls)

/-- The body of the loop of the up branch, with the decrement of `otherLoopIndex`; the
argument `-SCREEN_SCROLL_LOOP_INCREMENT` is passed as its 8-bit pattern. -/
def scroll_up_turn (c : Consts) (g : Globals) : Globals :=
  let g1 : Globals :=
    { g with
      playerYPosition := (g.playerYPosition +
        (c.SCREEN_SCROLL_LOOP_INCREMENT <<< c.PLAYER_POSITION_SHIFT)) % 65536 }
  let g2 : Globals :=
    if g1.otherLoopIndex % 32 = 0 ∧ g1.otherLoopIndex ≠ 0 then
      draw_individual_row c c.NAMETABLE_B c.NAMETABLE_B_ATTRS
        ((256 - c.SCREEN_SCROLL_LOOP_INCREMENT % 256) % 256) (ppu_wait_nmi g1)
    else if g1.i % (c.SCREEN_SCROLL_SPEED <<< 1) = 0 then ppu_wait_nmi g1
    else g1
  { g2 with otherLoopIndex := (g2.otherLoopIndex + 256 - c.SCREEN_SCROLL_LOOP_INCREMENT % 256) % 256 }

/-- The loop of the up branch; `none` when the fuel runs out. -/
def scroll_up_loop (c : Consts) : Nat → Globals → Option Globals
  | 0, _ => none
  | fuel + 1, g =>
    if g.otherLoopIndex < 242 then scroll_up_loop c fuel (scroll_up_turn c g) else some g

/-- The state in which the right and left branches enter their loop: the new map drawn to
bank B, `i = 0`. -/
def scroll_side_entry (c : Consts) (newMap : ByteTable) (g : Globals) : Globals :=
  { draw_current_map_to_nametable c c.NAMETABLE_B c.NAMETABLE_B_ATTRS 0
      (clear_asset_table 1 (load_map newMap g)) with
    i := 0 }

/-- The state in which the down and up branches enter their loop, up to `otherLoopIndex`:
the old map drawn six rows down in bank B with reversed polarity, the new map loaded, the
table cleared, `i = 0`, `j = -1`, `xScrollPosition = 256`. -/
def scroll_vertical_entry (c : Consts) (newMap : ByteTable) (g : Globals) : Globals :=
  { clear_asset_table 0
      (load_map newMap
        (draw_current_map_to_nametable c ((c.NAMETABLE_B + c.SCREEN_WIDTH_TILES * 6) % 65536)
          ((c.NAMETABLE_B_ATTRS + 8) % 65536) 1 (clear_asset_table 0 g))) with
    i := 0
    j := 255
    xScrollPosition := 256 }

/-- The state in which the down branch enters its loop: `otherLoopIndex = 0`. -/
def scroll_down_entry (c : Consts) (newMap : ByteTable) (g : Globals) : Globals :=
  { scroll_vertical_entry c newMap g with otherLoopIndex := 0 }

/-- The part of `do_scroll_screen_transition` before the final redraw: the prologue and the
branch on `playerDirection`.  The calls of `scroll`, `oam_spr`, `split` and `split_y` write
hardware registers and sprite memory only; `update_player_sprite` is external. -/
def scroll_branch (c : Consts) (newMap : ByteTable) (fuel : Nat) (g : Globals) : Option Globals :=
  let g0 : Globals := ppu_wait_nmi { g with xScrollPosition := -1 }
  if g0.playerDirection = c.SPRITE_DIRECTION_RIGHT then
    (scroll_right_loop c fuel (scroll_side_entry c newMap g0)).map
      (fun s => { s with xScrollPosition := 256 })
  else if g0.playerDirection = c.SPRITE_DIRECTION_LEFT then
    (scroll_left_loop c fuel (scroll_side_entry c newMap g0)).map
      (fun s => { s with xScrollPosition := 256 })
  else if g0.playerDirection = c.SPRITE_DIRECTION_DOWN then
    (scroll_down_loop c fuel (scroll_down_entry c newMap g0) []).map
      (fun r => { r.1 with xScrollPosition := 256 })
  else if g0.playerDirection = c.SPRITE_DIRECTION_UP then
    (scroll_up_loop c fuel
      { scroll_vertical_entry c newMap g0 with
        otherLoopIndex := (242 + 256 - c.HUD_PIXEL_HEIGHT % 256) % 256 }).map
      (fun s => { s with xScrollPosition := 256 })
  else some g0

/-- The end of `do_scroll_screen_transition`: the redraw of bank A and the two resets. -/
def scroll_epilogue (c : Consts) (g : Globals) : Globals :=
  { draw_current_map_to_nametable c c.NAMETABLE_A c.NAMETABLE_A_ATTRS 0 (clear_asset_table 1 g) with
    xScrollPosition := -1
    gameState := c.GAME_STATE_RUNNING }

/-- The function `do_scroll_screen_transition`, with `fuel` turns allowed to each loop. -/
def do_scroll_screen_transition (c : Consts) (newMap : ByteTable) (fuel : Nat) (g : Globals) :
    Option Globals :=
  (scroll_branch c newMap fuel g).map (scroll_epilogue c)

/-- The first `n` turns of the loop of the right branch. -/
def scrollRightTurns (c : Consts) : Nat → Globals → Globals
  | 0, g => g
  | n + 1, g => scroll_right_turn c (scrollRightTurns c n g)

/-- Slot `k` of the sprite data `d` holds a warp door. -/
def doorAt (c : Consts) (d : Mem) (k : Nat) : Prop :=
  slotByte d k c.MAP_SPRITE_DATA_POS_TYPE = c.SPRITE_TYPE_WARP_DOOR

instance (c : Consts) (d : Mem) (k : Nat) : Decidable (doorAt c d k) := by
  unfold doorAt; infer_instance

/-- The X position stored in slot `k`, read back little-endian into an `int`. -/
def slotX (c : Consts) (d : Mem) (k : Nat) : Nat :=
  (slotByte d k c.MAP_SPRITE_DATA_POS_X + (slotByte d k (c.MAP_SPRITE_DATA_POS_X + 1) <<< 8)) % 65536

/-- The Y position stored in slot `k`, read back little-endian into an `int`. -/
def slotY (c : Consts) (d : Mem) (k : Nat) : Nat :=
  (slotByte d k c.MAP_SPRITE_DATA_POS_Y + (slotByte d k (c.MAP_SPRITE_DATA_POS_Y + 1) <<< 8)) % 65536

/-- The kit with a template table in which every template is a warp door. -/
def doorKit : Consts :=
  { kit with spriteDefinitions := fun k => if k % 8 = 1 then 3 else ⟨k % 256, Nat.mod_lt _ (by decide)⟩ }

/-- A state on `sampleSpriteMap` in the middle of a world transition. -/
def sampleDoorGlobals : Globals :=
  { sampleGlobals with
    gameState := 3
    playerXPosition := 120
    playerYPosition := 1600 }

/-- A state about to scroll right with the player at x = 120. -/
def sampleScrollGlobals : Globals :=
  { sampleDrawGlobals with
    playerXPosition := 120
    playerYPosition := 1600
    playerDirection := 0x20 }

/-! ## Update lists -/

/-- The buffers handed to the vertical blank during the first `n` turns of a call of
`draw_individual_row`, for any entry state: `pending` tells whether an update list was set
on entry, in which case the blank awaited after the eighth tile transfers the buffer once
more. -/
def rowFlushedAny (c : Consts) (nametableAdr attributeTableAdr : Nat) (m : ByteTable)
    (i0 j : Nat) (a : Mem) (l : Nat) (pending : Bool) : Nat → Mem → List Mem
  | 0, _ => []
  | n + 1, b =>
    if (n % 16 + 1) % 256 = 16 then
      rowFlushedAny c nametableAdr attributeTableAdr m i0 j a l pending n b ++
        [rowBufferAfter c nametableAdr attributeTableAdr m i0 j a l (n + 1) b]
    else if pending = true ∧ n = 7 then
      rowFlushedAny c nametableAdr attributeTableAdr m i0 j a l pending n b ++
        [rowBufferAfter c nametableAdr attributeTableAdr m i0 j a l (n + 1) b]
    else rowFlushedAny c nametableAdr attributeTableAdr m i0 j a l pending n b

/-- The state after `n` turns of a call of `draw_individual_row` entered in any state `g`. -/
def rowAfterAny (c : Consts) (nametableAdr attributeTableAdr oliChange n : Nat) (g : Globals) :
    Globals :=
  { rowAfter c nametableAdr attributeTableAdr oliChange n g with
    vramUpdate := if n < 16 then g.vramUpdate else false
    flushed := g.flushed ++ rowFlushedAny c nametableAdr attributeTableAdr g.currentMap g.i g.j
      g.assetTable g.currentMemoryLocation g.vramUpdate n g.mapScreenBuffer }

/-- The state of `sampleRowGlobals` with an update list still pending. -/
def samplePendingGlobals : Globals :=
  { sampleRowGlobals with vramUpdate := true }

/-! ## The sprite loader -/

@[simp] theorem poke_apply (m : Mem) (a v k : Nat) :
    poke m a v k = if k = a then v % 256 else m k := rfl
theorem SpriteLayout.bounds {c : Consts} (h : SpriteLayout c) :
    c.MAP_SPRITE_DATA_POS_X + 1 < 16 ∧ c.MAP_SPRITE_DATA_POS_Y + 1 < 16 ∧
    c.MAP_SPRITE_DATA_POS_TILE_ID < 16 ∧ c.MAP_SPRITE_DATA_POS_TYPE < 16 ∧
    c.MAP_SPRITE_DATA_POS_SIZE_PALETTE < 16 ∧ c.MAP_SPRITE_DATA_POS_HEALTH < 16 ∧
    c.MAP_SPRITE_DATA_POS_ANIMATION_TYPE < 16 ∧ c.MAP_SPRITE_DATA_POS_MOVEMENT_TYPE < 16 ∧
    c.MAP_SPRITE_DATA_POS_MOVE_SPEED < 16 ∧ c.MAP_SPRITE_DATA_POS_DAMAGE < 16 := by
  obtain ⟨_, _, _, hb, _⟩ := h
  simp only [slotOffsets, List.mem_cons, List.mem_singleton, forall_eq_or_imp, forall_eq,
    List.not_mem_nil, false_imp_iff, implies_true, and_true, IsEmpty.forall_iff] at hb
  omega
theorem load_sprite_data_other (c : Consts) (h : SpriteLayout c) (g : Globals) (a : Nat)
    (hi : g.i < 16) (ha : a / 16 ≠ g.i) :
    (load_sprite c g).currentMapSpriteData a = g.currentMapSpriteData a := by
  have hb := h.bounds
  have h4 : c.MAP_SPRITE_DATA_SHIFT = 4 := h.1
  have e : (g.i <<< c.MAP_SPRITE_DATA_SHIFT) % 256 = 16 * g.i := by
    rw [h4, Nat.shiftLeft_eq]; omega
  unfold load_sprite
  simp only [e]
  split
  · simp only [poke_apply]
    repeat' rw [if_neg (by omega)]
  · simp only [poke_apply]
    rw [if_neg (by omega)]

theorem load_sprite_sameInputs (c : Consts) (g : Globals) : SameInputs (load_sprite c g) g := by
  unfold load_sprite SameInputs
  dsimp only
  split <;> exact ⟨rfl, rfl, rfl⟩

theorem load_sprite_i (c : Consts) (g : Globals) : (load_sprite c g).i = g.i := by
  unfold load_sprite
  dsimp only
  split <;> rfl

theorem load_sprite_data_congr (c : Consts) (g g' : Globals) (a : Nat) (hi : g.i = g'.i)
    (hs : SameInputs g g') (hd : g.currentMapSpriteData a = g'.currentMapSpriteData a) :
    (load_sprite c g).currentMapSpriteData a = (load_sprite c g').currentMapSpriteData a := by
  obtain ⟨hm, hp, ho⟩ := hs
  unfold load_sprite
  simp only [hi, hm, hp, ho]
  split <;> simp only [poke_apply, hd]

/-- The sprite loop, characterised slot by slot: it stops with `i = MAP_MAX_SPRITES`, and
each byte of a slot it still had to visit is what the loop body alone, run for that slot on
the starting state, leaves there. -/
theorem load_sprites_loop_spec (c : Consts) (h : SpriteLayout c) :
    ∀ (fuel : Nat) (g : Globals), g.i ≤ c.MAP_MAX_SPRITES → c.MAP_MAX_SPRITES - g.i ≤ fuel →
      (load_sprites_loop c fuel g).i = c.MAP_MAX_SPRITES ∧
      SameInputs (load_sprites_loop c fuel g) g ∧
      ∀ a, (load_sprites_loop c fuel g).currentMapSpriteData a =
        if g.i ≤ a / 16 ∧ a / 16 < c.MAP_MAX_SPRITES then
          (load_sprite c { g with i := a / 16 }).currentMapSpriteData a
        else g.currentMapSpriteData a := by
  have hmax : c.MAP_MAX_SPRITES ≤ 16 := h.2.1
  intro fuel
  induction fuel with
  | zero =>
    intro g h1 h2
    have e : g.i = c.MAP_MAX_SPRITES := by omega
    refine ⟨e, ⟨rfl, rfl, rfl⟩, fun a => ?_⟩
    simp only [load_sprites_loop]
    rw [if_neg (by omega)]
  | succ fuel ih =>
    intro g h1 h2
    by_cases e : g.i = c.MAP_MAX_SPRITES
    · refine ⟨by simp [load_sprites_loop, e], by simp [load_sprites_loop, e, SameInputs], fun a => ?_⟩
      simp only [load_sprites_loop, e, ne_eq, not_true_eq_false, if_false]
      rw [if_neg (by omega)]
    · have hlt : g.i < c.MAP_MAX_SPRITES := by omega
      have hmod : (g.i + 1) % 256 = g.i + 1 := by omega
      simp only [load_sprites_loop, ne_eq, e, not_false_eq_true, if_true]
      obtain ⟨r1, r2, r3⟩ := ih { load_sprite c g with i := (g.i + 1) % 256 }
        (by simp only [hmod]; omega) (by simp only [hmod]; omega)
      have hin : SameInputs { load_sprite c g with i := (g.i + 1) % 256 } g :=
        load_sprite_sameInputs c g
      refine ⟨r1, ⟨r2.1.trans hin.1, r2.2.1.trans hin.2.1, r2.2.2.trans hin.2.2⟩, fun a => ?_⟩
      rw [r3 a]
      simp only [hmod]
      by_cases hcur : a / 16 = g.i
      · rw [if_neg (by omega), if_pos (by omega)]
        exact load_sprite_data_congr c _ _ a hcur.symm ⟨rfl, rfl, rfl⟩ rfl
      · have hfr := load_sprite_data_other c h g a (by omega) hcur
        by_cases hin2 : g.i + 1 ≤ a / 16 ∧ a / 16 < c.MAP_MAX_SPRITES
        · rw [if_pos hin2, if_pos (by omega)]
          exact load_sprite_data_congr c _ _ a rfl hin hfr
        · rw [if_neg hin2, if_neg (by omega)]
          exact hfr

/-- After `load_sprites`, each byte of slot `s` is what the loop body alone leaves there. -/
theorem load_sprites_slot (c : Consts) (h : SpriteLayout c) (g : Globals) (a : Nat)
    (ha : a / 16 < c.MAP_MAX_SPRITES) :
    (load_sprites c g).currentMapSpriteData a =
      (load_sprite c { g with i := a / 16 }).currentMapSpriteData a := by
  have hs := (load_sprites_loop_spec c h 256 { g with i := 0 } (Nat.zero_le _)
    (by have := h.2.1; simp only; omega)).2.2 a
  rw [load_sprites, hs, if_pos ⟨Nat.zero_le _, ha⟩]

theorem load_sprites_outside (c : Consts) (h : SpriteLayout c) (g : Globals) (a : Nat)
    (ha : c.MAP_MAX_SPRITES ≤ a / 16) :
    (load_sprites c g).currentMapSpriteData a = g.currentMapSpriteData a := by
  have hs := (load_sprites_loop_spec c h 256 { g with i := 0 } (Nat.zero_le _)
    (by have := h.2.1; simp only; omega)).2.2 a
  rw [load_sprites, hs, if_neg (by omega)]

theorem load_sprites_terminates (c : Consts) (h : SpriteLayout c) (g : Globals) :
    (load_sprites c g).i = c.MAP_MAX_SPRITES :=
  (load_sprites_loop_spec c h 256 { g with i := 0 } (Nat.zero_le _)
    (by have := h.2.1; simp only; omega)).1


theorem slot_index (c : Consts) (h : SpriteLayout c) (s : Nat) (hs : s < c.MAP_MAX_SPRITES) :
    (s <<< c.MAP_SPRITE_DATA_SHIFT) % 256 = 16 * s := by
  have h4 : c.MAP_SPRITE_DATA_SHIFT = 4 := h.1
  have := h.2.1
  rw [h4, Nat.shiftLeft_eq]; omega

/-- A slot whose record carries the sentinel or whose persistence bit is set: the loop
body stores the off-screen type and nothing else. -/
theorem load_sprites_inactive_data (c : Consts) (h : SpriteLayout c) (g : Globals) (s : Nat)
    (hs : s < c.MAP_MAX_SPRITES)
    (hin : recordPosition c g.currentMap s = 255 ∨ persistenceBit c g s ≠ 0) (o : Nat) (ho : o < 16) :
    slotByte (load_sprites c g).currentMapSpriteData s o =
      if o = c.MAP_SPRITE_DATA_POS_TYPE then c.SPRITE_TYPE_OFFSCREEN
      else slotByte g.currentMapSpriteData s o := by
  have e := slot_index c h s hs
  have hoff : c.SPRITE_TYPE_OFFSCREEN < 256 := h.2.2.1
  unfold slotByte
  rw [load_sprites_slot c h g _ (by omega)]
  have hq : (16 * s + o) / 16 = s := by omega
  rw [hq]
  unfold load_sprite
  dsimp only
  rw [if_neg (by
    unfold recordPosition persistenceBit at hin
    intro hc
    rcases hin with h1 | h1
    · exact hc.1 h1
    · exact h1 hc.2)]
  simp only [poke_apply, e, Nat.mod_eq_of_lt hoff]
  by_cases ht : o = c.MAP_SPRITE_DATA_POS_TYPE
  · rw [if_pos (by omega), if_pos ht]
  · rw [if_neg (by omega), if_neg ht]

/-- A slot with a real position and a clear persistence bit: the twelve stores of the
loop body, each read back. -/
theorem load_sprites_active_data (c : Consts) (h : SpriteLayout c) (g : Globals) (s : Nat)
    (hs : s < c.MAP_MAX_SPRITES)
    (hpos : recordPosition c g.currentMap s ≠ 255) (hbit : persistenceBit c g s = 0) :
    let d := (load_sprites c g).currentMapSpriteData
    let x := ((recordPosition c g.currentMap s &&& 0x0f) <<< 8) % 65536
    let y := (((recordPosition c g.currentMap s &&& 0xf0) <<< 4) + verticalOffset c) % 65536
    let t := (recordTemplate c g.currentMap s <<< c.SPRITE_DEF_SHIFT) % 256
    slotByte d s c.MAP_SPRITE_DATA_POS_X = (x &&& 0xff) % 256 ∧
    slotByte d s (c.MAP_SPRITE_DATA_POS_X + 1) = (x >>> 8) % 256 ∧
    slotByte d s c.MAP_SPRITE_DATA_POS_Y = (y &&& 0xff) % 256 ∧
    slotByte d s (c.MAP_SPRITE_DATA_POS_Y + 1) = (y >>> 8) % 256 ∧
    slotByte d s c.MAP_SPRITE_DATA_POS_TILE_ID =
      (c.spriteDefinitions (t + c.SPRITE_DEF_POSITION_TILE_ID)).val ∧
    slotByte d s c.MAP_SPRITE_DATA_POS_TYPE =
      (c.spriteDefinitions (t + c.SPRITE_DEF_POSITION_TYPE)).val ∧
    slotByte d s c.MAP_SPRITE_DATA_POS_SIZE_PALETTE =
      (c.spriteDefinitions (t + c.SPRITE_DEF_POSITION_SIZE_PALETTE)).val ∧
    slotByte d s c.MAP_SPRITE_DATA_POS_HEALTH =
      (c.spriteDefinitions (t + c.SPRITE_DEF_POSITION_HEALTH)).val ∧
    slotByte d s c.MAP_SPRITE_DATA_POS_ANIMATION_TYPE =
      (c.spriteDefinitions (t + c.SPRITE_DEF_POSITION_ANIMATION_TYPE)).val ∧
    slotByte d s c.MAP_SPRITE_DATA_POS_MOVEMENT_TYPE =
      (c.spriteDefinitions (t + c.SPRITE_DEF_POSITION_MOVEMENT_TYPE)).val ∧
    slotByte d s c.MAP_SPRITE_DATA_POS_MOVE_SPEED =
      (c.spriteDefinitions (t + c.SPRITE_DEF_POSITION_MOVE_SPEED)).val ∧
    slotByte d s c.MAP_SPRITE_DATA_POS_DAMAGE =
      (c.spriteDefinitions (t + c.SPRITE_DEF_POSITION_DAMAGE)).val := by
  have e := slot_index c h s hs
  have hb := h.bounds
  have hn := h.2.2.2.2
  have hr := List.nodup_reverse.mpr hn
  simp only [slotOffsets, List.nodup_cons, List.mem_cons, List.mem_singleton, not_or,
    List.not_mem_nil, not_false_eq_true, List.nodup_nil, and_true] at hn
  simp only [slotOffsets, List.reverse_cons, List.reverse_nil, List.nil_append, List.cons_append,
    List.nodup_cons, List.mem_cons, List.mem_singleton, not_or,
    List.not_mem_nil, not_false_eq_true, List.nodup_nil, and_true] at hr
  have hcond : recordPosition c g.currentMap s ≠ 255 ∧ persistenceBit c g s = 0 := ⟨hpos, hbit⟩
  unfold recordPosition persistenceBit at hcond
  have key : ∀ o, o < 16 → slotByte (load_sprites c g).currentMapSpriteData s o =
      (load_sprite c { g with i := s }).currentMapSpriteData (16 * s + o) := by
    intro o ho
    unfold slotByte
    rw [load_sprites_slot c h g _ (by omega)]
    have hq : (16 * s + o) / 16 = s := by omega
    rw [hq]
  have hbyte : ∀ k, ((c.spriteDefinitions k).val) % 256 = (c.spriteDefinitions k).val :=
    fun k => Nat.mod_eq_of_lt (c.spriteDefinitions k).isLt
  dsimp only
  refine ⟨?_, ?_, ?_, ?_, ?_, ?_, ?_, ?_, ?_, ?_, ?_, ?_⟩ <;>
  · rw [key _ (by omega)]
    unfold load_sprite
    dsimp only
    rw [if_pos hcond]
    simp only [poke_apply, e, hbyte, recordPosition, recordTemplate, verticalOffset, Nat.add_assoc,
      Nat.add_left_cancel_iff, hn, hr, if_true, if_false]


theorem le16_decode (x : Nat) (hx : x < 65536) :
    (x &&& 0xff) % 256 + 256 * ((x >>> 8) % 256) = x := by
  have h1 : x &&& 0xff = x % 256 := Nat.and_pow_two_sub_one_eq_mod x 8
  rw [h1, Nat.shiftRight_eq_div_pow]
  omega

theorem nibble_bounds (p : Nat) : (p &&& 0x0f) <<< 8 ≤ 0xF00 ∧ (p &&& 0xf0) <<< 4 ≤ 0xF00 := by
  have h1 : p &&& 0x0f ≤ 0x0f := Nat.and_le_right
  have h2 : p &&& 0xf0 ≤ 0xf0 := Nat.and_le_right
  rw [Nat.shiftLeft_eq, Nat.shiftLeft_eq]
  omega

/-- C5: the two little-endian bytes at the X and Y offsets of a populated slot decode to
`(pos & 0x0F) << 8` and `((pos & 0xF0) << 4) + verticalOffset`, neither of which overflows
16 bits; for `pos = 0x23` they are `0x300` and `0x20 * 16 + verticalOffset`. -/
theorem load_sprites_position (c : Consts) (h : SpriteLayout c) (hv : PositionFits c) (g : Globals)
    (s : Nat) (hs : s < c.MAP_MAX_SPRITES)
    (hpos : recordPosition c g.currentMap s ≠ 255) (hbit : persistenceBit c g s = 0) :
    let d := (load_sprites c g).currentMapSpriteData
    let pos := recordPosition c g.currentMap s
    let x := slotByte d s c.MAP_SPRITE_DATA_POS_X + 256 * slotByte d s (c.MAP_SPRITE_DATA_POS_X + 1)
    let y := slotByte d s c.MAP_SPRITE_DATA_POS_Y + 256 * slotByte d s (c.MAP_SPRITE_DATA_POS_Y + 1)
    x = (pos &&& 0x0F) <<< 8 ∧ y = ((pos &&& 0xF0) <<< 4) + verticalOffset c ∧
    (pos &&& 0x0F) <<< 8 < 65536 ∧ ((pos &&& 0xF0) <<< 4) + verticalOffset c < 65536 ∧
    (pos = 0x23 → x = 0x300 ∧ y = 0x20 * 16 + verticalOffset c) := by
  obtain ⟨a1, a2, a3, a4, _⟩ := load_sprites_active_data c h g s hs hpos hbit
  have hb := nibble_bounds (recordPosition c g.currentMap s)
  have hfit := hv.2
  have hx : (recordPosition c g.currentMap s &&& 0x0f) <<< 8 < 65536 := by omega
  have hy : ((recordPosition c g.currentMap s &&& 0xf0) <<< 4) + verticalOffset c < 65536 := by omega
  dsimp only at a1 a2 a3 a4 ⊢
  rw [a1, a2, a3, a4, le16_decode _ (Nat.mod_lt _ (by decide)),
    le16_decode _ (Nat.mod_lt _ (by decide)), Nat.mod_eq_of_lt hx, Nat.mod_eq_of_lt hy]
  refine ⟨rfl, rfl, hx, hy, fun hp => ?_⟩
  rw [hp]
  exact ⟨by decide, by rw [show (0x23 &&& 0xF0) <<< 4 = 0x20 * 16 from by decide]⟩

theorem load_sprites_position_witness :
    SpriteLayout kit ∧ PositionFits kit ∧ 0 < kit.MAP_MAX_SPRITES ∧
    recordPosition kit sampleGlobals.currentMap 0 ≠ 255 ∧ persistenceBit kit sampleGlobals 0 = 0 ∧
    slotByte (load_sprites kit sampleGlobals).currentMapSpriteData 0 kit.MAP_SPRITE_DATA_POS_X +
      256 * slotByte (load_sprites kit sampleGlobals).currentMapSpriteData 0 (kit.MAP_SPRITE_DATA_POS_X + 1) =
      (recordPosition kit sampleGlobals.currentMap 0 &&& 0x0F) <<< 8 :=
  ⟨by decide, by decide, by decide, by decide, by decide,
    (load_sprites_position kit (by decide) (by decide) sampleGlobals 0 (by decide) (by decide)
      (by decide)).1⟩

/-- C6 fails for a template index whose record offset does not fit 8 bits: the record of
slot 2 names template 32, and the tile id stored is not the one of template 32. -/
theorem template_index_wraps :
    recordPosition kit sampleGlobals.currentMap 2 ≠ 255 ∧ persistenceBit kit sampleGlobals 2 = 0 ∧
    recordTemplate kit sampleGlobals.currentMap 2 = 32 ∧
    slotByte (load_sprites kit sampleGlobals).currentMapSpriteData 2 kit.MAP_SPRITE_DATA_POS_TILE_ID ≠
      (kit.spriteDefinitions ((32 <<< kit.SPRITE_DEF_SHIFT) + kit.SPRITE_DEF_POSITION_TILE_ID)).val := by
  decide

/-- C6, amended: when the record offset `t << SPRITE_DEF_SHIFT` of the template index `t`
fits 8 bits, the eight fields of a populated slot are the fields of the template record that
starts at that offset of `spriteDefinitions`. -/
theorem load_sprites_template (c : Consts) (h : SpriteLayout c) (g : Globals) (s : Nat)
    (hs : s < c.MAP_MAX_SPRITES)
    (hpos : recordPosition c g.currentMap s ≠ 255) (hbit : persistenceBit c g s = 0)
    (ht : recordTemplate c g.currentMap s <<< c.SPRITE_DEF_SHIFT < 256) :
    let d := (load_sprites c g).currentMapSpriteData
    let t := recordTemplate c g.currentMap s <<< c.SPRITE_DEF_SHIFT
    slotByte d s c.MAP_SPRITE_DATA_POS_TILE_ID =
      (c.spriteDefinitions (t + c.SPRITE_DEF_POSITION_TILE_ID)).val ∧
    slotByte d s c.MAP_SPRITE_DATA_POS_TYPE =
      (c.spriteDefinitions (t + c.SPRITE_DEF_POSITION_TYPE)).val ∧
    slotByte d s c.MAP_SPRITE_DATA_POS_SIZE_PALETTE =
      (c.spriteDefinitions (t + c.SPRITE_DEF_POSITION_SIZE_PALETTE)).val ∧
    slotByte d s c.MAP_SPRITE_DATA_POS_HEALTH =
      (c.spriteDefinitions (t + c.SPRITE_DEF_POSITION_HEALTH)).val ∧
    slotByte d s c.MAP_SPRITE_DATA_POS_ANIMATION_TYPE =
      (c.spriteDefinitions (t + c.SPRITE_DEF_POSITION_ANIMATION_TYPE)).val ∧
    slotByte d s c.MAP_SPRITE_DATA_POS_MOVEMENT_TYPE =
      (c.spriteDefinitions (t + c.SPRITE_DEF_POSITION_MOVEMENT_TYPE)).val ∧
    slotByte d s c.MAP_SPRITE_DATA_POS_MOVE_SPEED =
      (c.spriteDefinitions (t + c.SPRITE_DEF_POSITION_MOVE_SPEED)).val ∧
    slotByte d s c.MAP_SPRITE_DATA_POS_DAMAGE =
      (c.spriteDefinitions (t + c.SPRITE_DEF_POSITION_DAMAGE)).val := by
  obtain ⟨_, _, _, _, a5, a6, a7, a8, a9, a10, a11, a12⟩ := load_sprites_active_data c h g s hs hpos hbit
  rw [Nat.mod_eq_of_lt ht] at a5 a6 a7 a8 a9 a10 a11 a12
  exact ⟨a5, a6, a7, a8, a9, a10, a11, a12⟩

theorem load_sprites_template_witness :
    SpriteLayout kit ∧ 0 < kit.MAP_MAX_SPRITES ∧
    recordPosition kit sampleGlobals.currentMap 0 ≠ 255 ∧ persistenceBit kit sampleGlobals 0 = 0 ∧
    recordTemplate kit sampleGlobals.currentMap 0 <<< kit.SPRITE_DEF_SHIFT < 256 ∧
    slotByte (load_sprites kit sampleGlobals).currentMapSpriteData 0 kit.MAP_SPRITE_DATA_POS_TILE_ID =
      (kit.spriteDefinitions ((2 <<< kit.SPRITE_DEF_SHIFT) + kit.SPRITE_DEF_POSITION_TILE_ID)).val :=
  ⟨by decide, by decide, by decide, by decide, by decide,
    (load_sprites_template kit (by decide) sampleGlobals 0 (by decide) (by decide) (by decide)
      (by decide)).1⟩

theorem load_sprite_map_congr (c : Consts) (g : Globals) (m : ByteTable)
    (h1 : m (c.MAP_DATA_TILE_LENGTH + (g.i <<< 1)) = g.currentMap (c.MAP_DATA_TILE_LENGTH + (g.i <<< 1)))
    (h2 : m ((c.MAP_DATA_TILE_LENGTH + 1) + (g.i <<< 1)) =
      g.currentMap ((c.MAP_DATA_TILE_LENGTH + 1) + (g.i <<< 1))) :
    (load_sprite c { g with currentMap := m }).currentMapSpriteData =
      (load_sprite c g).currentMapSpriteData := by
  unfold load_sprite
  dsimp only
  rw [h1, h2]
  split <;> rfl

/-- C7: a slot that `load_sprites` marks inactive has its type byte set to the off-screen
type and its other fifteen bytes left as they were, and no byte outside the slot depends on
the slot's placement record. -/
theorem load_sprites_inactive_frame (c : Consts) (h : SpriteLayout c) (g : Globals) (s : Nat)
    (hs : s < c.MAP_MAX_SPRITES)
    (hin : recordPosition c g.currentMap s = 255 ∨ persistenceBit c g s ≠ 0) :
    let d := (load_sprites c g).currentMapSpriteData
    slotByte d s c.MAP_SPRITE_DATA_POS_TYPE = c.SPRITE_TYPE_OFFSCREEN ∧
    (∀ o, o < 16 → o ≠ c.MAP_SPRITE_DATA_POS_TYPE → slotByte d s o = slotByte g.currentMapSpriteData s o) ∧
    (∀ m : ByteTable,
      (∀ k, k ≠ c.MAP_DATA_TILE_LENGTH + (s <<< 1) → k ≠ (c.MAP_DATA_TILE_LENGTH + 1) + (s <<< 1) →
        m k = g.currentMap k) →
      ∀ a, a / 16 ≠ s →
        (load_sprites c { g with currentMap := m }).currentMapSpriteData a = d a) := by
  have hty : c.MAP_SPRITE_DATA_POS_TYPE < 16 := h.bounds.2.2.2.1
  refine ⟨?_, fun o ho hne => ?_, fun m hm a ha => ?_⟩
  · rw [load_sprites_inactive_data c h g s hs hin _ hty, if_pos rfl]
  · rw [load_sprites_inactive_data c h g s hs hin _ ho, if_neg hne]
  · by_cases hlt : a / 16 < c.MAP_MAX_SPRITES
    · rw [load_sprites_slot c h _ a hlt, load_sprites_slot c h g a hlt]
      have e := load_sprite_map_congr c { g with i := a / 16 } m
        (hm _ (by simp only [Nat.shiftLeft_eq]; omega) (by simp only [Nat.shiftLeft_eq]; omega))
        (hm _ (by simp only [Nat.shiftLeft_eq]; omega) (by simp only [Nat.shiftLeft_eq]; omega))
      exact congrFun e a
    · rw [load_sprites_outside c h _ a (by omega), load_sprites_outside c h g a (by omega)]

theorem load_sprites_inactive_frame_witness :
    SpriteLayout kit ∧ 3 < kit.MAP_MAX_SPRITES ∧
    (recordPosition kit sampleGlobals.currentMap 3 = 255 ∨ persistenceBit kit sampleGlobals 3 ≠ 0) ∧
    slotByte (load_sprites kit sampleGlobals).currentMapSpriteData 3 kit.MAP_SPRITE_DATA_POS_TILE_ID =
      slotByte sampleGlobals.currentMapSpriteData 3 kit.MAP_SPRITE_DATA_POS_TILE_ID :=
  ⟨by decide, by decide, by decide,
    (load_sprites_inactive_frame kit (by decide) sampleGlobals 3 (by decide) (by decide)).2.1
      kit.MAP_SPRITE_DATA_POS_TILE_ID (by decide) (by decide)⟩

/-- C8 fails: two runs that differ only in the prior sprite state leave different X and Y
position bytes in a slot that both mark inactive. -/
theorem inactive_slot_keeps_stale_position :
    recordPosition kit sampleGlobals.currentMap 1 = 255 ∧
    slotByte (load_sprites kit sampleGlobals).currentMapSpriteData 1 kit.MAP_SPRITE_DATA_POS_X ≠
      slotByte (load_sprites kit { sampleGlobals with currentMapSpriteData := fun _ => 0 }).currentMapSpriteData
        1 kit.MAP_SPRITE_DATA_POS_X ∧
    slotByte (load_sprites kit sampleGlobals).currentMapSpriteData 1 kit.MAP_SPRITE_DATA_POS_Y ≠
      slotByte (load_sprites kit { sampleGlobals with currentMapSpriteData := fun _ => 0 }).currentMapSpriteData
        1 kit.MAP_SPRITE_DATA_POS_Y := by
  decide

/-- C8, amended: a slot that `load_sprites` marks inactive keeps its four X and Y position
bytes exactly as they were before the call, and its type byte after the call is the
off-screen type whatever the prior sprite state was. -/
theorem load_sprites_inactive_position (c : Consts) (h : SpriteLayout c) (g : Globals) (s : Nat)
    (hs : s < c.MAP_MAX_SPRITES)
    (hin : recordPosition c g.currentMap s = 255 ∨ persistenceBit c g s ≠ 0) (prior : Mem) :
    let d := (load_sprites c { g with currentMapSpriteData := prior }).currentMapSpriteData
    slotByte d s c.MAP_SPRITE_DATA_POS_X = slotByte prior s c.MAP_SPRITE_DATA_POS_X ∧
    slotByte d s (c.MAP_SPRITE_DATA_POS_X + 1) = slotByte prior s (c.MAP_SPRITE_DATA_POS_X + 1) ∧
    slotByte d s c.MAP_SPRITE_DATA_POS_Y = slotByte prior s c.MAP_SPRITE_DATA_POS_Y ∧
    slotByte d s (c.MAP_SPRITE_DATA_POS_Y + 1) = slotByte prior s (c.MAP_SPRITE_DATA_POS_Y + 1) ∧
    slotByte d s c.MAP_SPRITE_DATA_POS_TYPE =
      slotByte (load_sprites c g).currentMapSpriteData s c.MAP_SPRITE_DATA_POS_TYPE := by
  have hb := h.bounds
  have hn := h.2.2.2.2
  simp only [slotOffsets, List.nodup_cons, List.mem_cons, List.mem_singleton, not_or,
    List.not_mem_nil, not_false_eq_true, List.nodup_nil, and_true] at hn
  have key := load_sprites_inactive_data c h { g with currentMapSpriteData := prior } s hs hin
  dsimp only at key ⊢
  rw [key _ (by omega), key _ (by omega), key _ (by omega), key _ (by omega), key _ (by omega),
    load_sprites_inactive_data c h g s hs hin _ (by omega)]
  simp only [hn, if_false, if_true, and_self]

theorem load_sprites_inactive_position_witness :
    SpriteLayout kit ∧ 1 < kit.MAP_MAX_SPRITES ∧
    (recordPosition kit sampleGlobals.currentMap 1 = 255 ∨ persistenceBit kit sampleGlobals 1 ≠ 0) ∧
    slotByte (load_sprites kit { sampleGlobals with currentMapSpriteData := fun _ => 9 }).currentMapSpriteData
      1 kit.MAP_SPRITE_DATA_POS_X = 9 :=
  ⟨by decide, by decide, by decide,
    (load_sprites_inactive_position kit (by decide) sampleGlobals 1 (by decide) (by decide)
      (fun _ => 9)).1⟩

/-! ## Clearing the attribute table -/

theorem clear_loop_map_spec : ∀ (fuel : Nat) (g : Globals), g.i ≤ 48 → 48 - g.i ≤ fuel →
    clear_loop_map fuel g =
      { g with i := 48, assetTable := fun k => if g.i ≤ k ∧ k < 48 then 0 else g.assetTable k } := by
  intro fuel
  induction fuel with
  | zero =>
    intro g h1 h2
    have e : g.i = 48 := by omega
    apply Globals.ext <;> simp only [clear_loop_map, e]
    funext k
    rw [if_neg (by omega)]
  | succ fuel ih =>
    intro g h1 h2
    by_cases e : g.i = 48
    · apply Globals.ext <;> simp only [clear_loop_map, e, ne_eq, not_true_eq_false, if_false]
      funext k
      rw [if_neg (by omega)]
    · have hmod : (g.i + 1) % 256 = g.i + 1 := by omega
      have e' : ¬ g.i = 0x38 - 8 := e
      simp only [clear_loop_map, ne_eq, e', not_false_eq_true, if_true]
      rw [ih _ (by simp only [hmod]; omega) (by simp only [hmod]; omega)]
      apply Globals.ext <;> simp only [hmod]
      funext k
      simp only [poke_apply]
      split_ifs <;> first | rfl | omega

theorem clear_loop_hud_spec (containsHud : Nat) : ∀ (fuel : Nat) (g : Globals), g.i ≤ 56 →
    56 - g.i ≤ fuel →
    clear_loop_hud containsHud fuel g =
      { g with i := 56, assetTable := fun k =>
          if g.i ≤ k ∧ k < 56 then (if containsHud = 0 then 0 else 255) else g.assetTable k } := by
  intro fuel
  induction fuel with
  | zero =>
    intro g h1 h2
    have e : g.i = 56 := by omega
    apply Globals.ext <;> simp only [clear_loop_hud, e]
    funext k
    rw [if_neg (by omega)]
  | succ fuel ih =>
    intro g h1 h2
    by_cases e : g.i = 56
    · apply Globals.ext <;> simp only [clear_loop_hud, e, ne_eq, not_true_eq_false, if_false]
      funext k
      rw [if_neg (by omega)]
    · have hmod : (g.i + 1) % 256 = g.i + 1 := by omega
      have e' : ¬ g.i = 0x38 := e
      simp only [clear_loop_hud, ne_eq, e', not_false_eq_true, if_true]
      rw [ih _ (by simp only [hmod]; omega) (by simp only [hmod]; omega)]
      apply Globals.ext <;> simp only [hmod]
      funext k
      simp only [poke_apply]
      split_ifs <;> first | rfl | omega

/-- The function `clear_asset_table` in closed form: it returns, with `i = 56`. -/
theorem clear_asset_table_eq (containsHud : Nat) (g : Globals) :
    clear_asset_table containsHud g =
      { g with i := 56, assetTable := clearedTable containsHud g.assetTable } := by
  unfold clear_asset_table
  rw [clear_loop_map_spec 256 _ (by simp) (by simp),
    clear_loop_hud_spec containsHud 256 _ (by simp) (by simp)]
  apply Globals.ext <;> simp only []
  funext k
  simp only [clearedTable]
  split_ifs <;> first | rfl | omega

/-! ## The tile loop -/

theorem tilesAfter_zero (c : Consts) (nt rev : Nat) (g : Globals) (hi : g.i = 0)
    (hb : g.bufferIndex = 0) : tilesAfter c nt rev 0 g = g := by
  apply Globals.ext <;> simp [tilesAfter, jAfter, valueAfter, locationAfter, assetAfter, bufferAfter,
    flushedAfter, hi, hb]

/-- One turn of the tile loop takes the state after `n` turns to the state after `n + 1`. -/
theorem draw_tile_step (c : Consts) (nt rev n : Nat) (g : Globals) (hn : n < 192) :
    { draw_tile c nt rev (tilesAfter c nt rev n g) with i := (n + 1) % 256 } =
      tilesAfter c nt rev (n + 1) g := by
  have hmod : (n + 1) % 256 = n + 1 := by omega
  by_cases hf : (n % 16 + 1) % 256 = 16
  · have h0 : ¬ n % 16 = 0 := by omega
    have h1 : (n + 1) % 16 = 0 := by omega
    have h2 : ¬ n + 1 < 16 := by omega
    apply Globals.ext <;>
      simp [tilesAfter, draw_tile, jAfter, valueAfter, locationAfter, assetAfter, bufferAfter,
        flushedAfter, set_vram_update, ppu_wait_nmi, hf, h0, h1, h2, hmod]
  · have h1 : (n + 1) % 16 = (n % 16 + 1) % 256 := by omega
    have h2 : (n + 1 < 16) = (n < 16) := by
      apply propext; constructor <;> intro h <;> omega
    apply Globals.ext <;>
      simp [tilesAfter, draw_tile, jAfter, valueAfter, locationAfter, assetAfter, bufferAfter,
        flushedAfter, hf, h1, h2, hmod]

/-- The tile loop returns: entered after `n` turns with enough fuel it stops after turn 192. -/
theorem draw_tiles_loop_spec (c : Consts) (nt rev : Nat) (g : Globals) :
    ∀ (fuel n : Nat), n ≤ 192 → 192 - n ≤ fuel →
      draw_tiles_loop c nt rev fuel (tilesAfter c nt rev n g) = tilesAfter c nt rev 192 g := by
  intro fuel
  induction fuel with
  | zero =>
    intro n h1 h2
    have e : n = 192 := by omega
    subst e
    rfl
  | succ fuel ih =>
    intro n h1 h2
    by_cases e : n = 192
    · subst e
      simp [draw_tiles_loop, tilesAfter]
    · have hi : (tilesAfter c nt rev n g).i = n := rfl
      rw [draw_tiles_loop, hi, if_pos e, draw_tile_step c nt rev n g (by omega)]
      exact ih (n + 1) (by omega) (by omega)

theorem copy_attributes_loop_spec (c : Consts) : ∀ (fuel : Nat) (g : Globals), g.i ≤ 56 →
    56 - g.i ≤ fuel →
    copy_attributes_loop c fuel g =
      { g with i := 56, mapScreenBuffer := fun k =>
          if c.NAMETABLE_UPDATE_PREFIX_LENGTH + g.i ≤ k ∧ k < c.NAMETABLE_UPDATE_PREFIX_LENGTH + 56 then
            g.assetTable (k - c.NAMETABLE_UPDATE_PREFIX_LENGTH) % 256
          else g.mapScreenBuffer k } := by
  intro fuel
  induction fuel with
  | zero =>
    intro g h1 h2
    have e : g.i = 56 := by omega
    apply Globals.ext <;> simp only [copy_attributes_loop, e]
    funext k
    rw [if_neg (by omega)]
  | succ fuel ih =>
    intro g h1 h2
    by_cases e : g.i = 56
    · apply Globals.ext <;> simp only [copy_attributes_loop, e, ne_eq, not_true_eq_false, if_false]
      funext k
      rw [if_neg (by omega)]
    · have hmod : (g.i + 1) % 256 = g.i + 1 := by omega
      have e' : ¬ g.i = 0x38 := e
      simp only [copy_attributes_loop, ne_eq, e', not_false_eq_true, if_true]
      rw [ih _ (by simp only [hmod]; omega) (by simp only [hmod]; omega)]
      apply Globals.ext <;> simp only [hmod]
      funext k
      simp only [poke_apply]
      by_cases hk : k = c.NAMETABLE_UPDATE_PREFIX_LENGTH + g.i
      · have hki : k - c.NAMETABLE_UPDATE_PREFIX_LENGTH = g.i := by omega
        rw [if_neg (by omega), if_pos hk, if_pos (by omega), hki]
      · rw [if_neg hk]
        by_cases h3 : c.NAMETABLE_UPDATE_PREFIX_LENGTH + (g.i + 1) ≤ k ∧ k < c.NAMETABLE_UPDATE_PREFIX_LENGTH + 56
        · rw [if_pos h3, if_pos (by omega)]
        · rw [if_neg h3, if_neg (by omega)]

theorem copy_attributes_loop_eq (c : Consts) (s : Globals) (hi : s.i = 0) :
    copy_attributes_loop c 256 s =
      { s with i := 56, mapScreenBuffer := fun k =>
          if c.NAMETABLE_UPDATE_PREFIX_LENGTH ≤ k ∧ k < c.NAMETABLE_UPDATE_PREFIX_LENGTH + 56 then
            s.assetTable (k - c.NAMETABLE_UPDATE_PREFIX_LENGTH) % 256
          else s.mapScreenBuffer k } := by
  have h := copy_attributes_loop_spec c 256 s (by omega) (by omega)
  rw [h, hi]
  rfl

theorem draw_tiles_loop_eq (c : Consts) (nt rev : Nat) (g : Globals) :
    draw_tiles_loop c nt rev 256 (drawEntry rev g) = tilesAfter c nt rev 192 (drawEntry rev g) := by
  have h0 := tilesAfter_zero c nt rev (drawEntry rev g) rfl rfl
  have h1 := draw_tiles_loop_spec c nt rev (drawEntry rev g) 256 0 (by omega) (by omega)
  rw [h0] at h1
  exact h1

theorem draw_unfold (c : Consts) (nt att rev : Nat) (g : Globals) :
    draw_current_map_to_nametable c nt att rev g =
      set_vram_update false (ppu_wait_nmi (set_vram_update true
        { copy_attributes_loop c 256 { draw_tiles_loop c nt rev 256 (drawEntry rev g) with i := 0 } with
          mapScreenBuffer := attributeHeader c att
            (copy_attributes_loop c 256
              { draw_tiles_loop c nt rev 256 (drawEntry rev g) with i := 0 }).mapScreenBuffer })) :=
  rfl

/-- The function `draw_current_map_to_nametable` returns, in the state `drawn`: after the
192 turns of the tile loop and the 56 turns of the copy loop it flushes the attribute
packet last. -/
theorem draw_current_map_to_nametable_eq (c : Consts) (nt att rev : Nat) (g : Globals) :
    draw_current_map_to_nametable c nt att rev g = drawn c nt att rev g := by
  rw [draw_unfold, draw_tiles_loop_eq, copy_attributes_loop_eq c _ rfl]
  apply Globals.ext <;>
    simp [ppu_wait_nmi, attributePacket, set_vram_update, drawn, tilesAfter, drawEntry]

theorem locationAfter_succ (nt l : Nat) : ∀ n, locationAfter nt (n + 1) l = (nt + 64 * (n / 16)) % 65536 := by
  intro n
  induction n with
  | zero => simp [locationAfter]
  | succ n ih =>
    rw [locationAfter]
    by_cases h : (n + 1) % 16 = 0
    · rw [if_pos h, h, Nat.shiftLeft_eq, Nat.shiftLeft_eq]
      congr 1
      omega
    · rw [if_neg h, ih]
      have : (n + 1) / 16 = n / 16 := by omega
      rw [this]

theorem flushedAfter_eq (c : Consts) (nt : Nat) (m : ByteTable) (l : Nat) (b : Mem) :
    ∀ n, flushedAfter c nt m l n b =
      (List.range (n / 16)).map (fun k => bufferAfter c nt m l (16 * (k + 1)) b) := by
  intro n
  induction n with
  | zero => rfl
  | succ n ih =>
    rw [flushedAfter]
    by_cases h : (n % 16 + 1) % 256 = 16
    · have e1 : (n + 1) / 16 = n / 16 + 1 := by omega
      have e2 : n + 1 = 16 * (n / 16 + 1) := by omega
      rw [if_pos h, ih, e1, List.range_succ, List.map_append, List.map_singleton, ← e2]
    · have e1 : (n + 1) / 16 = n / 16 := by omega
      rw [if_neg h, ih, e1]

/-- What the buffer holds after `n` turns of the tile loop, with a three-byte header: the
four bytes of every tile of the chunk being filled, the header and end marker of a chunk
just completed, and the prior contents at the indices the loop never writes. -/
theorem bufferAfter_inv (c : Consts) (hP : c.NAMETABLE_UPDATE_PREFIX_LENGTH = 3) (nt : Nat)
    (m : ByteTable) (l : Nat) (b : Mem) : ∀ n,
    (∀ t, t < n → t / 16 = (n - 1) / 16 →
      bufferAfter c nt m l n b (3 + 2 * (t % 16)) = tileBase (m t).val % 256 ∧
      bufferAfter c nt m l n b (3 + 2 * (t % 16) + 1) = (tileBase (m t).val + 1) % 256 ∧
      bufferAfter c nt m l n b (3 + 2 * (t % 16) + 32) = (tileBase (m t).val + 16) % 256 ∧
      bufferAfter c nt m l n b (3 + 2 * (t % 16) + 33) = (tileBase (m t).val + 17) % 256) ∧
    (0 < n → n % 16 = 0 →
      bufferAfter c nt m l n b 0 = (MSB ((nt + 64 * (n / 16 - 1)) % 65536) ||| c.NT_UPD_HORZ) % 256 ∧
      bufferAfter c nt m l n b 1 = LSB ((nt + 64 * (n / 16 - 1)) % 65536) % 256 ∧
      bufferAfter c nt m l n b 2 = 65 ∧
      bufferAfter c nt m l n b 68 = c.NT_UPD_EOF % 256) ∧
    (∀ idx, idx = 67 ∨ 69 ≤ idx → bufferAfter c nt m l n b idx = b idx) := by
  intro n
  induction n with
  | zero =>
    refine ⟨fun t ht => absurd ht (Nat.not_lt_zero t), fun h => absurd h (Nat.lt_irrefl 0), fun _ _ => rfl⟩
  | succ n ih =>
    obtain ⟨ih1, _, ih3⟩ := ih
    have hstep : ∀ idx, bufferAfter c nt m l (n + 1) b idx =
        if (n % 16 + 1) % 256 = 16 ∧ idx = 68 then c.NT_UPD_EOF % 256
        else if (n % 16 + 1) % 256 = 16 ∧ idx = 2 then 65
        else if (n % 16 + 1) % 256 = 16 ∧ idx = 1 then LSB ((nt + 64 * (n / 16)) % 65536) % 256
        else if (n % 16 + 1) % 256 = 16 ∧ idx = 0 then
          (MSB ((nt + 64 * (n / 16)) % 65536) ||| c.NT_UPD_HORZ) % 256
        else if idx = 3 + 2 * (n % 16) + 33 then (tileBase (m n).val + 17) % 256
        else if idx = 3 + 2 * (n % 16) + 32 then (tileBase (m n).val + 16) % 256
        else if idx = 3 + 2 * (n % 16) + 1 then (tileBase (m n).val + 1) % 256
        else if idx = 3 + 2 * (n % 16) then tileBase (m n).val % 256
        else bufferAfter c nt m l n b idx := by
      intro idx
      have e2 : (n % 16) <<< 1 = 2 * (n % 16) := by rw [Nat.shiftLeft_eq]; omega
      rw [bufferAfter]
      by_cases hf : (n % 16 + 1) % 256 = 16
      · simp only [hf, if_true, true_and, tileHeader, bufferTile, poke_apply, hP, e2,
          locationAfter_succ, Nat.reduceAdd, Nat.reduceMod]
      · simp only [hf, if_false, false_and, bufferTile, poke_apply, hP, e2]
    refine ⟨fun t ht hq => ?_, fun _ h0 => ?_, fun idx hidx => ?_⟩
    · have hq' : t / 16 = n / 16 := hq
      by_cases htn : t = n
      · subst htn
        refine ⟨?_, ?_, ?_, ?_⟩ <;>
        · rw [hstep]
          repeat' (first | rw [if_neg (by omega)] | rw [if_pos (by omega)])
      · have hlt : t < n := by omega
        obtain ⟨a1, a2, a3, a4⟩ := ih1 t hlt (by omega)
        refine ⟨?_, ?_, ?_, ?_⟩ <;>
        · rw [hstep]
          repeat' rw [if_neg (by omega)]
          assumption
    · have hf : (n % 16 + 1) % 256 = 16 := by omega
      have e : (n + 1) / 16 - 1 = n / 16 := by omega
      rw [e]
      refine ⟨?_, ?_, ?_, ?_⟩ <;>
      · rw [hstep]
        repeat' (first | rw [if_neg (by omega)] | rw [if_pos (by omega)])
    · rw [hstep]
      repeat' rw [if_neg (by omega)]
      exact ih3 idx hidx

/-- The buffer at the flush that ends chunk `k` is the tile packet of chunk `k`. -/
theorem bufferAfter_chunk (c : Consts) (hP : c.NAMETABLE_UPDATE_PREFIX_LENGTH = 3) (nt : Nat)
    (m : ByteTable) (l : Nat) (b : Mem) (k : Nat) :
    bufferAfter c nt m l (16 * (k + 1)) b = tilePacket c nt m b k := by
  obtain ⟨h1, h2, h3⟩ := bufferAfter_inv c hP nt m l b (16 * (k + 1))
  obtain ⟨b0, b1, b2, b68⟩ := h2 (by omega) (by omega)
  have ek : 16 * (k + 1) / 16 - 1 = k := by omega
  rw [ek] at b0 b1
  funext idx
  unfold tilePacket
  by_cases e0 : idx = 0
  · rw [if_pos e0, e0, b0]
  rw [if_neg e0]
  by_cases e1 : idx = 1
  · rw [if_pos e1, e1, b1]
  rw [if_neg e1]
  by_cases e2 : idx = 2
  · rw [if_pos e2, e2, b2]
  rw [if_neg e2]
  by_cases e68 : idx = 68
  · rw [if_pos e68, e68, b68]
  rw [if_neg e68]
  by_cases hp : 3 ≤ idx ∧ idx < 67
  · rw [if_pos hp]
    obtain ⟨a1, a2, a3, a4⟩ := h1 (16 * k + (idx - 3) % 32 / 2) (by omega) (by omega)
    have ht : (16 * k + (idx - 3) % 32 / 2) % 16 = (idx - 3) % 32 / 2 := by omega
    rw [ht] at a1 a2 a3 a4
    have hcase : ((idx - 3) % 2 = 0 ∨ (idx - 3) % 2 = 1) ∧ ((idx - 3) / 32 = 0 ∨ (idx - 3) / 32 = 1) := by
      omega
    obtain ⟨hx | hx, hy | hy⟩ := hcase
    · have e : 3 + 2 * ((idx - 3) % 32 / 2) = idx := by omega
      rw [e] at a1
      rw [a1, hx, hy]
      rfl
    · have e : 3 + 2 * ((idx - 3) % 32 / 2) + 32 = idx := by omega
      rw [e] at a3
      rw [a3, hx, hy]
    · have e : 3 + 2 * ((idx - 3) % 32 / 2) + 1 = idx := by omega
      rw [e] at a2
      rw [a2, hx, hy]
    · have e : 3 + 2 * ((idx - 3) % 32 / 2) + 33 = idx := by omega
      rw [e] at a4
      rw [a4, hx, hy]
  · rw [if_neg hp]
    exact h3 idx (by omega)

/-- The buffers the tile loop flushes in its first `n` turns are the tile packets of the
chunks completed so far, in order. -/
theorem flushedAfter_packets (c : Consts) (hP : c.NAMETABLE_UPDATE_PREFIX_LENGTH = 3) (nt : Nat)
    (m : ByteTable) (l : Nat) (b : Mem) (n : Nat) :
    flushedAfter c nt m l n b = (List.range (n / 16)).map (tilePacket c nt m b) := by
  rw [flushedAfter_eq]
  apply List.map_congr_left
  intro k _
  exact bufferAfter_chunk c hP nt m l b k

/-- What `draw_current_map_to_nametable` flushes: the twelve tile packets, then the
attribute packet. -/
theorem draw_flushed (c : Consts) (hP : c.NAMETABLE_UPDATE_PREFIX_LENGTH = 3) (nt att rev : Nat)
    (g : Globals) :
    (draw_current_map_to_nametable c nt att rev g).flushed =
      g.flushed ++ (List.range 12).map (tilePacket c nt g.currentMap g.mapScreenBuffer) ++
        [attributePacket c att
          (assetAfter rev g.currentMap (if rev = 0 then 255 else 7) 192 g.assetTable)
          (tilePacket c nt g.currentMap g.mapScreenBuffer 11)] := by
  rw [draw_current_map_to_nametable_eq]
  have e1 := flushedAfter_packets c hP nt g.currentMap g.currentMemoryLocation g.mapScreenBuffer 192
  have e2 := bufferAfter_chunk c hP nt g.currentMap g.currentMemoryLocation g.mapScreenBuffer 11
  have e3 : (192 : Nat) / 16 = 12 := by decide
  have e4 : 16 * (11 + 1) = 192 := by decide
  rw [e3] at e1
  rw [e4] at e2
  show g.flushed ++ flushedAfter c nt g.currentMap g.currentMemoryLocation 192 g.mapScreenBuffer ++ _ = _
  rw [e1, e2]

theorem draw_assetTable (c : Consts) (nt att rev : Nat) (g : Globals) :
    (draw_current_map_to_nametable c nt att rev g).assetTable =
      assetAfter rev g.currentMap (if rev = 0 then 255 else 7) 192 g.assetTable := by
  rw [draw_current_map_to_nametable_eq]
  rfl

theorem draw_mapScreenBuffer (c : Consts) (hP : c.NAMETABLE_UPDATE_PREFIX_LENGTH = 3)
    (nt att rev : Nat) (g : Globals) :
    (draw_current_map_to_nametable c nt att rev g).mapScreenBuffer =
      attributePacket c att
        (assetAfter rev g.currentMap (if rev = 0 then 255 else 7) 192 g.assetTable)
        (tilePacket c nt g.currentMap g.mapScreenBuffer 11) := by
  rw [draw_current_map_to_nametable_eq]
  have e2 := bufferAfter_chunk c hP nt g.currentMap g.currentMemoryLocation g.mapScreenBuffer 11
  have e4 : 16 * (11 + 1) = 192 := by decide
  rw [e4] at e2
  show attributePacket c att _ (bufferAfter c nt g.currentMap g.currentMemoryLocation 192 g.mapScreenBuffer) = _
  rw [e2]

theorem draw_currentMap (c : Consts) (nt att rev : Nat) (g : Globals) :
    (draw_current_map_to_nametable c nt att rev g).currentMap = g.currentMap := by
  rw [draw_current_map_to_nametable_eq]
  rfl

/-! ## Attribute accumulation -/

set_option maxRecDepth 100000 in
theorem jAfter_normal : ∀ n, n < 192 → jAfter 0 (n + 1) 255 = 8 * (n / 32) + n % 16 / 2 := by
  decide

set_option maxRecDepth 100000 in
theorem palette_shifts : ∀ t : Fin 256,
    (t.val &&& 0xc0) >>> 6 = t.val >>> 6 ∧ (t.val &&& 0xc0) >>> 4 = 4 * (t.val >>> 6) ∧
    (t.val &&& 0xc0) >>> 2 = 16 * (t.val >>> 6) ∧ (t.val &&& 0xc0) >>> 0 = 64 * (t.val >>> 6) ∧
    t.val >>> 6 < 4 := by
  decide

theorem paletteBits_normal (m : ByteTable) (n : Nat) :
    paletteBits 0 n (m n).val =
      (if n % 2 = 0 then (if n / 16 % 2 = 0 then 1 else 16) else (if n / 16 % 2 = 0 then 4 else 64)) *
        palette m n := by
  obtain ⟨h6, h4, h2, h0, _⟩ := palette_shifts (m n)
  unfold paletteBits palette
  simp only [h6, h4, h2, h0]
  split_ifs <;> omega

theorem palette_lt (m : ByteTable) (t : Nat) : palette m t < 4 := (palette_shifts (m t)).2.2.2.2


theorem assetAfter_succ_apply (rev : Nat) (m : ByteTable) (j n : Nat) (a : Mem) (b : Nat) :
    assetAfter rev m j (n + 1) a b =
      if b = jAfter rev (n + 1) j then
        (assetAfter rev m j n a b + paletteBits rev n (m n).val) % 256
      else assetAfter rev m j n a b := by
  rw [assetAfter, poke_apply]
  by_cases h : b = jAfter rev (n + 1) j
  · rw [if_pos h, if_pos h, ← h]
  · rw [if_neg h, if_neg h]

/-- A normal pass over a table whose first 48 bytes are zero: after `n` tiles each of those
bytes holds the selectors of the tiles visited so far, each in its own bit field. -/
theorem assetAfter_normal (m : ByteTable) (a : Mem) (ha : ∀ b, b < 48 → a b = 0) :
    ∀ n, n ≤ 192 → ∀ b, b < 48 → assetAfter 0 m 255 n a b = packedSoFar m n b := by
  intro n
  induction n with
  | zero =>
    intro _ b hb
    rw [assetAfter, ha b hb]
    unfold packedSoFar
    simp
  | succ n ih =>
    intro hn b hb
    have hJ := jAfter_normal n (by omega)
    rw [assetAfter_succ_apply, hJ, ih (by omega) b hb, paletteBits_normal]
    have p0 := palette_lt m (32 * (b / 8) + 2 * (b % 8))
    have p1 := palette_lt m (32 * (b / 8) + 2 * (b % 8) + 1)
    have p2 := palette_lt m (32 * (b / 8) + 2 * (b % 8) + 16)
    have p3 := palette_lt m (32 * (b / 8) + 2 * (b % 8) + 17)
    by_cases hbj : b = 8 * (n / 32) + n % 16 / 2
    · rw [if_pos hbj]
      have hcase : n = 32 * (b / 8) + 2 * (b % 8) ∨ n = 32 * (b / 8) + 2 * (b % 8) + 1 ∨
          n = 32 * (b / 8) + 2 * (b % 8) + 16 ∨ n = 32 * (b / 8) + 2 * (b % 8) + 17 := by omega
      clear ih hJ
      rcases hcase with h | h | h | h
      all_goals
        unfold packedSoFar
        rw [h] at hbj hn ⊢
        repeat' (first | rw [if_pos (by omega)] | rw [if_neg (by omega)])
        omega
    · rw [if_neg hbj]
      unfold packedSoFar
      have g0 : (32 * (b / 8) + 2 * (b % 8) < n + 1) = (32 * (b / 8) + 2 * (b % 8) < n) := by
        apply propext; constructor <;> intro h <;> omega
      have g1 : (32 * (b / 8) + 2 * (b % 8) + 1 < n + 1) = (32 * (b / 8) + 2 * (b % 8) + 1 < n) := by
        apply propext; constructor <;> intro h <;> omega
      have g2 : (32 * (b / 8) + 2 * (b % 8) + 16 < n + 1) = (32 * (b / 8) + 2 * (b % 8) + 16 < n) := by
        apply propext; constructor <;> intro h <;> omega
      have g3 : (32 * (b / 8) + 2 * (b % 8) + 17 < n + 1) = (32 * (b / 8) + 2 * (b % 8) + 17 < n) := by
        apply propext; constructor <;> intro h <;> omega
      simp only [g0, g1, g2, g3]

/-! ## The packets of one call -/

theorem tileBase_eq (t : Nat) :
    tileBase t = (((t &&& 0x3f) >>> 3) <<< 5) + (((t &&& 0x3f) % 8) <<< 1) ∧
    (((t &&& 0x3f) >>> 3) <<< 5) + (((t &&& 0x3f) % 8) <<< 1) + 17 ≤ 255 := by
  have h1 : t &&& 0x3f = t % 64 := Nat.and_pow_two_sub_one_eq_mod t 6
  unfold tileBase
  simp only [h1, Nat.shiftLeft_eq, Nat.shiftRight_eq_div_pow]
  omega

theorem tilePacket_tile (c : Consts) (nt : Nat) (m : ByteTable) (b : Mem) (i : Nat) :
    tilePacket c nt m b (i / 16) (3 + 2 * (i % 16)) = tileBase (m i).val % 256 ∧
    tilePacket c nt m b (i / 16) (3 + 2 * (i % 16) + 1) = (tileBase (m i).val + 1) % 256 ∧
    tilePacket c nt m b (i / 16) (3 + 2 * (i % 16) + 32) = (tileBase (m i).val + 16) % 256 ∧
    tilePacket c nt m b (i / 16) (3 + 2 * (i % 16) + 33) = (tileBase (m i).val + 17) % 256 := by
  unfold tilePacket
  refine ⟨?_, ?_, ?_, ?_⟩
  · rw [if_neg (by omega), if_neg (by omega), if_neg (by omega), if_neg (by omega), if_pos (by omega)]
    have e1 : 16 * (i / 16) + (3 + 2 * (i % 16) - 3) % 32 / 2 = i := by omega
    have e2 : (3 + 2 * (i % 16) - 3) % 2 + 16 * ((3 + 2 * (i % 16) - 3) / 32) = 0 := by omega
    rw [e1, e2]
    rfl
  · rw [if_neg (by omega), if_neg (by omega), if_neg (by omega), if_neg (by omega), if_pos (by omega)]
    have e1 : 16 * (i / 16) + (3 + 2 * (i % 16) + 1 - 3) % 32 / 2 = i := by omega
    have e2 : (3 + 2 * (i % 16) + 1 - 3) % 2 + 16 * ((3 + 2 * (i % 16) + 1 - 3) / 32) = 1 := by omega
    rw [e1, e2]
  · rw [if_neg (by omega), if_neg (by omega), if_neg (by omega), if_neg (by omega), if_pos (by omega)]
    have e1 : 16 * (i / 16) + (3 + 2 * (i % 16) + 32 - 3) % 32 / 2 = i := by omega
    have e2 : (3 + 2 * (i % 16) + 32 - 3) % 2 + 16 * ((3 + 2 * (i % 16) + 32 - 3) / 32) = 16 := by omega
    rw [e1, e2]
  · rw [if_neg (by omega), if_neg (by omega), if_neg (by omega), if_neg (by omega), if_pos (by omega)]
    have e1 : 16 * (i / 16) + (3 + 2 * (i % 16) + 33 - 3) % 32 / 2 = i := by omega
    have e2 : (3 + 2 * (i % 16) + 33 - 3) % 2 + 16 * ((3 + 2 * (i % 16) + 33 - 3) / 32) = 17 := by omega
    rw [e1, e2]

/-- The buffers one call flushes, in order: entry `k < 12` is the tile packet of chunk `k`,
entry 12 is the attribute packet, and there are thirteen. -/
theorem draw_flushed_get (c : Consts) (hP : c.NAMETABLE_UPDATE_PREFIX_LENGTH = 3) (nt att rev : Nat)
    (g : Globals) :
    ((draw_current_map_to_nametable c nt att rev g).flushed.drop g.flushed.length).length = 13 ∧
    (∀ k, k < 12 →
      ((draw_current_map_to_nametable c nt att rev g).flushed.drop g.flushed.length)[k]? =
        some (tilePacket c nt g.currentMap g.mapScreenBuffer k)) ∧
    ((draw_current_map_to_nametable c nt att rev g).flushed.drop g.flushed.length)[12]? =
      some (attributePacket c att (draw_current_map_to_nametable c nt att rev g).assetTable
        (tilePacket c nt g.currentMap g.mapScreenBuffer 11)) := by
  rw [draw_flushed c hP, draw_assetTable, List.append_assoc, List.drop_left]
  refine ⟨by simp, fun k hk => ?_, ?_⟩
  · rw [List.getElem?_append_left (by simpa using hk)]
    simp [List.getElem?_range hk]
  · rw [List.getElem?_append_right (by simp)]
    simp

/-- C1: for every tile `i < 192` the tile packet flushed for chunk `i / 16` holds the four
bytes `f(id)`, `f(id) + 1`, `f(id) + 16`, `f(id) + 17` at the payload offsets `2k`, `2k + 1`,
`2k + 32`, `2k + 33` with `k = i mod 16`, and none of them is truncated. -/
theorem draw_tile_bytes (c : Consts) (hP : c.NAMETABLE_UPDATE_PREFIX_LENGTH = 3) (nt att rev : Nat)
    (g : Globals) (i : Nat) (hi : i < 192) :
    let id := (g.currentMap i).val &&& 0x3f
    let f := ((id >>> 3) <<< 5) + ((id % 8) <<< 1)
    let k := i % 16
    ∃ packet,
      ((draw_current_map_to_nametable c nt att rev g).flushed.drop g.flushed.length)[i / 16]? =
        some packet ∧
      packet (c.NAMETABLE_UPDATE_PREFIX_LENGTH + 2 * k) = f ∧
      packet (c.NAMETABLE_UPDATE_PREFIX_LENGTH + 2 * k + 1) = f + 1 ∧
      packet (c.NAMETABLE_UPDATE_PREFIX_LENGTH + 2 * k + 32) = f + 16 ∧
      packet (c.NAMETABLE_UPDATE_PREFIX_LENGTH + 2 * k + 33) = f + 17 ∧
      f + 17 ≤ 255 := by
  obtain ⟨e, hle⟩ := tileBase_eq (g.currentMap i).val
  obtain ⟨a1, a2, a3, a4⟩ := tilePacket_tile c nt g.currentMap g.mapScreenBuffer i
  rw [e] at a1 a2 a3 a4
  refine ⟨tilePacket c nt g.currentMap g.mapScreenBuffer (i / 16),
    (draw_flushed_get c hP nt att rev g).2.1 (i / 16) (by omega), ?_, ?_, ?_, ?_, hle⟩
  · rw [hP, a1]; exact Nat.mod_eq_of_lt (by omega)
  · rw [hP, a2]; exact Nat.mod_eq_of_lt (by omega)
  · rw [hP, a3]; exact Nat.mod_eq_of_lt (by omega)
  · rw [hP, a4]; exact Nat.mod_eq_of_lt (by omega)

theorem draw_tile_bytes_witness :
    kit.NAMETABLE_UPDATE_PREFIX_LENGTH = 3 ∧ 37 < 192 ∧
    ∃ packet,
      ((draw_current_map_to_nametable kit 0x2000 0x23C0 0 sampleDrawGlobals).flushed.drop
        sampleDrawGlobals.flushed.length)[37 / 16]? = some packet ∧
      packet (kit.NAMETABLE_UPDATE_PREFIX_LENGTH + 2 * (37 % 16)) =
        ((((sampleDrawGlobals.currentMap 37).val &&& 0x3f) >>> 3) <<< 5) +
          ((((sampleDrawGlobals.currentMap 37).val &&& 0x3f) % 8) <<< 1) :=
  ⟨rfl, by decide,
    let ⟨p, h1, h2, _⟩ := draw_tile_bytes kit rfl 0x2000 0x23C0 0 sampleDrawGlobals 37 (by decide)
    ⟨p, h1, h2⟩⟩

theorem tileTurns_eq (c : Consts) (nt rev : Nat) (g : Globals) (hi : g.i = 0) (hb : g.bufferIndex = 0) :
    ∀ n, n ≤ 192 → tileTurns c nt rev n g = tilesAfter c nt rev n g := by
  intro n
  induction n with
  | zero => intro _; rw [tilesAfter_zero c nt rev g hi hb]; rfl
  | succ n ih =>
    intro hn
    rw [tileTurns, ih (by omega)]
    exact draw_tile_step c nt rev n g (by omega)

theorem tileTurns_flushed (c : Consts) (hP : c.NAMETABLE_UPDATE_PREFIX_LENGTH = 3) (nt rev : Nat)
    (g : Globals) (n : Nat) (hn : n ≤ 192) :
    (tileTurns c nt rev n (drawEntry rev g)).flushed =
      g.flushed ++ (List.range (n / 16)).map (tilePacket c nt g.currentMap g.mapScreenBuffer) := by
  rw [tileTurns_eq c nt rev _ rfl rfl n hn]
  show g.flushed ++ flushedAfter c nt g.currentMap g.currentMemoryLocation n g.mapScreenBuffer = _
  rw [flushedAfter_packets c hP]

theorem take_packets {α : Type} (f : Nat → α) (x : α) (k : Nat) (hk : k ≤ 12) :
    ((List.range 12).map f ++ [x]).take k = (List.range k).map f := by
  rw [List.take_append_of_le_length (by simpa using hk), ← List.map_take, List.take_range]
  congr 2
  omega

theorem attributePacket_apply (c : Consts) (hP : c.NAMETABLE_UPDATE_PREFIX_LENGTH = 3) (att : Nat)
    (a b : Mem) (idx : Nat) :
    attributePacket c att a b idx =
      if idx = 0 then (MSB att ||| c.NT_UPD_HORZ) % 256
      else if idx = 1 then LSB att % 256
      else if idx = 2 then 0x38
      else if idx = 0x3b then c.NT_UPD_EOF % 256
      else if 3 ≤ idx ∧ idx < 59 then a (idx - 3) % 256
      else b idx := by
  unfold attributePacket attributeHeader
  simp only [poke_apply, hP]
  split_ifs <;> first | rfl | omega

/-- C9: one call flushes exactly thirteen buffers, in order: for `k < 12` a tile packet whose
address bytes encode `nametableAdr + 64 * k`, flushed in the turn of tile `16 * k + 15`; then,
after all 192 tiles, one packet of declared length `0x38` addressed to `attributeTableAdr`
whose payload is the 56 bytes of `assetTable`. -/
theorem draw_flush_order (c : Consts) (hP : c.NAMETABLE_UPDATE_PREFIX_LENGTH = 3) (nt att rev : Nat)
    (g : Globals) :
    let r := draw_current_map_to_nametable c nt att rev g
    let out := r.flushed.drop g.flushed.length
    out.length = 13 ∧
    (∀ k, k < 12 → ∃ p, out[k]? = some p ∧
      p 0 = (MSB ((nt + 64 * k) % 65536) ||| c.NT_UPD_HORZ) % 256 ∧
      p 1 = LSB ((nt + 64 * k) % 65536) % 256 ∧
      (tileTurns c nt rev (16 * k + 15) (drawEntry rev g)).flushed = g.flushed ++ out.take k ∧
      (tileTurns c nt rev (16 * k + 16) (drawEntry rev g)).flushed = g.flushed ++ out.take (k + 1)) ∧
    ∃ p, out[12]? = some p ∧
      (tileTurns c nt rev 192 (drawEntry rev g)).flushed = g.flushed ++ out.take 12 ∧
      p 0 = (MSB att ||| c.NT_UPD_HORZ) % 256 ∧ p 1 = LSB att % 256 ∧ p 2 = 0x38 ∧
      p 0x3b = c.NT_UPD_EOF % 256 ∧
      ∀ b, b < 56 → p (c.NAMETABLE_UPDATE_PREFIX_LENGTH + b) = r.assetTable b % 256 := by
  obtain ⟨h13, htile, hattr⟩ := draw_flushed_get c hP nt att rev g
  have hout : (draw_current_map_to_nametable c nt att rev g).flushed.drop g.flushed.length =
      (List.range 12).map (tilePacket c nt g.currentMap g.mapScreenBuffer) ++
        [attributePacket c att (assetAfter rev g.currentMap (if rev = 0 then 255 else 7) 192 g.assetTable)
          (tilePacket c nt g.currentMap g.mapScreenBuffer 11)] := by
    rw [draw_flushed c hP, List.append_assoc, List.drop_left]
  dsimp only
  refine ⟨h13, fun k hk => ?_, ?_⟩
  · refine ⟨_, htile k hk, ?_, ?_, ?_, ?_⟩
    · unfold tilePacket; rw [if_pos rfl]
    · unfold tilePacket; rw [if_neg (by omega), if_pos rfl]
    · rw [tileTurns_flushed c hP nt rev g _ (by omega), hout, take_packets _ _ k (by omega)]
      have e : (16 * k + 15) / 16 = k := by omega
      rw [e]
    · rw [tileTurns_flushed c hP nt rev g _ (by omega), hout, take_packets _ _ (k + 1) (by omega)]
      have e : (16 * k + 16) / 16 = k + 1 := by omega
      rw [e]
  · refine ⟨_, hattr, ?_, ?_, ?_, ?_, ?_, fun b hb => ?_⟩
    · rw [tileTurns_flushed c hP nt rev g _ (by omega), hout, take_packets _ _ 12 (by omega)]
    · rw [attributePacket_apply c hP, if_pos rfl]
    · rw [attributePacket_apply c hP, if_neg (by omega), if_pos rfl]
    · rw [attributePacket_apply c hP, if_neg (by omega), if_neg (by omega), if_pos rfl]
    · rw [attributePacket_apply c hP, if_neg (by omega), if_neg (by omega), if_neg (by omega),
        if_pos rfl]
    · rw [attributePacket_apply c hP, hP, if_neg (by omega), if_neg (by omega), if_neg (by omega),
        if_neg (by omega), if_pos (by omega)]
      have e : 3 + b - 3 = b := by omega
      rw [e]

theorem draw_flush_order_witness :
    kit.NAMETABLE_UPDATE_PREFIX_LENGTH = 3 ∧
    ((draw_current_map_to_nametable kit 0x2000 0x23C0 1 sampleDrawGlobals).flushed.drop
      sampleDrawGlobals.flushed.length).length = 13 :=
  ⟨rfl, (draw_flush_order kit rfl 0x2000 0x23C0 1 sampleDrawGlobals).1⟩

/-- C10 fails on the code: the tile packet of the first chunk declares 65 payload bytes, and
the byte at payload offset 64 (buffer index 67) is the stale byte the buffer held before the
call; the end marker follows at index 68. -/
theorem tile_packet_declares_65 :
    ∃ p, (draw_current_map_to_nametable kit 0x2000 0x23C0 0 sampleDrawGlobals).flushed[0]? = some p ∧
      p 2 = 65 ∧ p 67 = 0xAB ∧ p 68 = kit.NT_UPD_EOF :=
  ⟨_, (draw_flushed_get kit rfl 0x2000 0x23C0 0 sampleDrawGlobals).2.1 0 (by decide),
    by decide, by decide, by decide⟩

set_option maxRecDepth 100000 in
theorem selectors_disjoint : ∀ x0 x1 x2 x3 : Fin 4,
    x0.val ||| (x1.val <<< 2) ||| (x2.val <<< 4) ||| (x3.val <<< 6) =
      x0.val + 4 * x1.val + 16 * x2.val + 64 * x3.val := by
  decide

theorem clearedTable_zero (hud : Nat) (a : Mem) (b : Nat) (hb : b < 48) : clearedTable hud a b = 0 := by
  unfold clearedTable
  rw [if_pos hb]

theorem redraw_assetTable (c : Consts) (nt att rev hud : Nat) (m : ByteTable) (g : Globals) :
    (redraw c nt att rev hud m g).assetTable =
      assetAfter rev m (if rev = 0 then 255 else 7) 192 (clearedTable hud g.assetTable) := by
  unfold redraw
  rw [draw_assetTable, clear_asset_table_eq]

/-- C2: after `clear_asset_table` and one normal pass every attribute byte `b < 48` holds the
four 2-bit selectors of its tiles in disjoint bit fields: the sum the code accumulates is the
bitwise OR of the shifted selectors, it stays below 256, and each shifted selector is the
masked tile byte `tile & 0xC0` shifted right by 6, 4, 2 or 0. -/
theorem attribute_byte_packed (c : Consts) (nt att hud : Nat) (g : Globals) (b : Nat) (hb : b < 48) :
    let table := (draw_current_map_to_nametable c nt att 0 (clear_asset_table hud g)).assetTable
    let p := fun t => (g.currentMap t).val >>> 6
    let r := b / 8
    let q := b % 8
    table b = p (32 * r + 2 * q) ||| (p (32 * r + 2 * q + 1) <<< 2) |||
      (p (32 * r + 16 + 2 * q) <<< 4) ||| (p (32 * r + 16 + 2 * q + 1) <<< 6) ∧
    table b = p (32 * r + 2 * q) + (p (32 * r + 2 * q + 1) <<< 2) +
      (p (32 * r + 16 + 2 * q) <<< 4) + (p (32 * r + 16 + 2 * q + 1) <<< 6) ∧
    table b < 256 ∧
    p (32 * r + 2 * q) = ((g.currentMap (32 * r + 2 * q)).val &&& 0xC0) >>> 6 ∧
    p (32 * r + 2 * q + 1) <<< 2 = ((g.currentMap (32 * r + 2 * q + 1)).val &&& 0xC0) >>> 4 ∧
    p (32 * r + 16 + 2 * q) <<< 4 = ((g.currentMap (32 * r + 16 + 2 * q)).val &&& 0xC0) >>> 2 ∧
    p (32 * r + 16 + 2 * q + 1) <<< 6 = ((g.currentMap (32 * r + 16 + 2 * q + 1)).val &&& 0xC0) >>> 0 := by
  have htab : (draw_current_map_to_nametable c nt att 0 (clear_asset_table hud g)).assetTable b =
      packedSoFar g.currentMap 192 b := by
    have h := redraw_assetTable c nt att 0 hud g.currentMap g
    unfold redraw at h
    have hg : ({ g with currentMap := g.currentMap } : Globals) = g := rfl
    rw [hg] at h
    rw [h]
    exact assetAfter_normal g.currentMap _ (fun k hk => clearedTable_zero hud _ k hk) 192
      (Nat.le_refl _) b hb
  have e2 : 32 * (b / 8) + 16 + 2 * (b % 8) = 32 * (b / 8) + 2 * (b % 8) + 16 := by omega
  have e3 : 32 * (b / 8) + 2 * (b % 8) + 16 + 1 = 32 * (b / 8) + 2 * (b % 8) + 17 := by omega
  have s0 := palette_shifts (g.currentMap (32 * (b / 8) + 2 * (b % 8)))
  have s1 := palette_shifts (g.currentMap (32 * (b / 8) + 2 * (b % 8) + 1))
  have s2 := palette_shifts (g.currentMap (32 * (b / 8) + 2 * (b % 8) + 16))
  have s3 := palette_shifts (g.currentMap (32 * (b / 8) + 2 * (b % 8) + 17))
  have hd := selectors_disjoint ⟨_, s0.2.2.2.2⟩ ⟨_, s1.2.2.2.2⟩ ⟨_, s2.2.2.2.2⟩ ⟨_, s3.2.2.2.2⟩
  dsimp only at hd ⊢
  rw [htab, e2, e3, hd]
  unfold packedSoFar palette
  rw [if_pos (by omega), if_pos (by omega), if_pos (by omega), if_pos (by omega)]
  simp only [Nat.shiftLeft_eq]
  have b0 := s0.2.2.2.2
  have b1 := s1.2.2.2.2
  have b2 := s2.2.2.2.2
  have b3 := s3.2.2.2.2
  have f0 := s0.1
  have f1 := s1.2.1
  have f2 := s2.2.2.1
  have f3 := s3.2.2.2.1
  clear s0 s1 s2 s3 hd htab
  refine ⟨trivial, by omega, by omega, f0.symm, ?_, ?_, ?_⟩
  · rw [f1]; omega
  · rw [f2]; omega
  · rw [f3]; omega

theorem attribute_byte_packed_witness :
    21 < 48 ∧
    (draw_current_map_to_nametable kit 0x2000 0x23C0 0 (clear_asset_table 1 sampleDrawGlobals)).assetTable 21 =
      (sampleDrawGlobals.currentMap (32 * (21 / 8) + 2 * (21 % 8))).val >>> 6 |||
      (((sampleDrawGlobals.currentMap (32 * (21 / 8) + 2 * (21 % 8) + 1)).val >>> 6) <<< 2) |||
      (((sampleDrawGlobals.currentMap (32 * (21 / 8) + 16 + 2 * (21 % 8))).val >>> 6) <<< 4) |||
      (((sampleDrawGlobals.currentMap (32 * (21 / 8) + 16 + 2 * (21 % 8) + 1)).val >>> 6) <<< 6) :=
  ⟨by decide, (attribute_byte_packed kit 0x2000 0x23C0 1 sampleDrawGlobals 21 (by decide)).1⟩

/-! ## Redrawing -/

theorem assetAfter_congr (rev : Nat) (m : ByteTable) (j : Nat) (a a' : Mem) (k : Nat)
    (h : a k = a' k) : ∀ n, assetAfter rev m j n a k = assetAfter rev m j n a' k := by
  intro n
  induction n with
  | zero => exact h
  | succ n ih => rw [assetAfter_succ_apply, assetAfter_succ_apply, ih]

theorem tilePacket_stale (c : Consts) (nt : Nat) (m : ByteTable) (b : Mem) (k idx : Nat)
    (h : idx = 67 ∨ 69 ≤ idx) : tilePacket c nt m b k idx = b idx := by
  unfold tilePacket
  rw [if_neg (by omega), if_neg (by omega), if_neg (by omega), if_neg (by omega), if_neg (by omega)]

theorem tilePacket_congr (c : Consts) (nt : Nat) (m : ByteTable) (b b' : Mem) (k : Nat)
    (h : ∀ idx, idx = 67 ∨ 69 ≤ idx → b idx = b' idx) :
    tilePacket c nt m b k = tilePacket c nt m b' k := by
  funext idx
  by_cases hs : idx = 67 ∨ 69 ≤ idx
  · rw [tilePacket_stale c nt m b k idx hs, tilePacket_stale c nt m b' k idx hs]
    exact h idx hs
  · unfold tilePacket
    split_ifs <;> first | rfl | omega

theorem attributePacket_stale (c : Consts) (hP : c.NAMETABLE_UPDATE_PREFIX_LENGTH = 3) (att : Nat)
    (a b : Mem) (idx : Nat) (h : idx = 67 ∨ 69 ≤ idx) : attributePacket c att a b idx = b idx := by
  rw [attributePacket_apply c hP, if_neg (by omega), if_neg (by omega), if_neg (by omega),
    if_neg (by omega), if_neg (by omega)]

theorem attributePacket_congr (c : Consts) (hP : c.NAMETABLE_UPDATE_PREFIX_LENGTH = 3) (att : Nat)
    (a a' b : Mem) (h : ∀ k, k < 56 → a k = a' k) :
    attributePacket c att a b = attributePacket c att a' b := by
  funext idx
  rw [attributePacket_apply c hP, attributePacket_apply c hP]
  by_cases hp : 3 ≤ idx ∧ idx < 59
  · rw [if_neg (by omega), if_neg (by omega), if_neg (by omega), if_neg (by omega), if_pos hp,
      if_neg (by omega), if_neg (by omega), if_neg (by omega), if_neg (by omega), if_pos hp,
      h _ (by omega)]
  · simp only [hp, if_false]

theorem redraw_flushed (c : Consts) (hP : c.NAMETABLE_UPDATE_PREFIX_LENGTH = 3)
    (nt att rev hud : Nat) (m : ByteTable) (g : Globals) :
    (redraw c nt att rev hud m g).flushed.drop g.flushed.length =
      (List.range 12).map (tilePacket c nt m g.mapScreenBuffer) ++
        [attributePacket c att (redraw c nt att rev hud m g).assetTable
          (tilePacket c nt m g.mapScreenBuffer 11)] := by
  have h := draw_flushed c hP nt att rev (clear_asset_table hud { g with currentMap := m })
  rw [redraw_assetTable]
  unfold redraw
  rw [h, clear_asset_table_eq, List.append_assoc]
  exact List.drop_left _ _

theorem redraw_mapScreenBuffer (c : Consts) (hP : c.NAMETABLE_UPDATE_PREFIX_LENGTH = 3)
    (nt att rev hud : Nat) (m : ByteTable) (g : Globals) :
    (redraw c nt att rev hud m g).mapScreenBuffer =
      attributePacket c att (redraw c nt att rev hud m g).assetTable
        (tilePacket c nt m g.mapScreenBuffer 11) := by
  have h := draw_mapScreenBuffer c hP nt att rev (clear_asset_table hud { g with currentMap := m })
  rw [redraw_assetTable]
  unfold redraw
  rw [h, clear_asset_table_eq]

theorem redraw_stale (c : Consts) (hP : c.NAMETABLE_UPDATE_PREFIX_LENGTH = 3)
    (nt att rev hud : Nat) (m : ByteTable) (g : Globals) (idx : Nat) (h : idx = 67 ∨ 69 ≤ idx) :
    (redraw c nt att rev hud m g).mapScreenBuffer idx = g.mapScreenBuffer idx := by
  rw [redraw_mapScreenBuffer c hP, attributePacket_stale c hP _ _ _ idx h, tilePacket_stale _ _ _ _ _ idx h]

theorem redraw_table_congr (c : Consts) (nt att rev hud : Nat) (m : ByteTable) (g g' : Globals)
    (k : Nat) (hk : k < 56) :
    (redraw c nt att rev hud m g).assetTable k = (redraw c nt att rev hud m g').assetTable k := by
  rw [redraw_assetTable, redraw_assetTable]
  apply assetAfter_congr
  unfold clearedTable
  by_cases h48 : k < 48
  · rw [if_pos h48, if_pos h48]
  · rw [if_neg h48, if_neg h48, if_pos hk, if_pos hk]

/-- C3: clearing and drawing `M1`, then clearing and drawing `M2`, then clearing and drawing
`M1` again gives a 56-byte attribute table and a sequence of flushed buffers byte-identical
to those of the first pass; the attribute table of a clear-then-pass cycle does not depend on
what the table held before the clear. -/
theorem redraw_round_trip (c : Consts) (hP : c.NAMETABLE_UPDATE_PREFIX_LENGTH = 3)
    (nt att rev hud nt2 att2 rev2 hud2 : Nat) (M1 M2 : ByteTable) (g : Globals) :
    let s1 := redraw c nt att rev hud M1 g
    let s2 := redraw c nt2 att2 rev2 hud2 M2 s1
    let s3 := redraw c nt att rev hud M1 s2
    bytes 0x38 s3.assetTable = bytes 0x38 s1.assetTable ∧
    (s3.flushed.drop s2.flushed.length).map (bytes 0x55) =
      (s1.flushed.drop g.flushed.length).map (bytes 0x55) ∧
    ∀ prior : Mem,
      bytes 0x38 (redraw c nt att rev hud M1 { g with assetTable := prior }).assetTable =
        bytes 0x38 s1.assetTable := by
  intro s1 s2 s3
  have hstale : ∀ idx, idx = 67 ∨ 69 ≤ idx → s2.mapScreenBuffer idx = g.mapScreenBuffer idx := by
    intro idx h
    exact (redraw_stale c hP _ _ _ _ _ _ idx h).trans (redraw_stale c hP _ _ _ _ _ _ idx h)
  have htp := fun k => tilePacket_congr c nt M1 _ _ k hstale
  have htab : ∀ k, k < 56 → s3.assetTable k = s1.assetTable k :=
    fun k hk => redraw_table_congr c nt att rev hud M1 _ _ k hk
  have hpri : ∀ prior : Mem, ∀ k, k < 56 →
      (redraw c nt att rev hud M1 { g with assetTable := prior }).assetTable k = s1.assetTable k :=
    fun prior k hk => redraw_table_congr c nt att rev hud M1 _ _ k hk
  have hf3 : s3.flushed.drop s2.flushed.length = _ := redraw_flushed c hP nt att rev hud M1 s2
  have hf1 : s1.flushed.drop g.flushed.length = _ := redraw_flushed c hP nt att rev hud M1 g
  have e1 : (List.range 12).map (tilePacket c nt M1 s2.mapScreenBuffer) =
      (List.range 12).map (tilePacket c nt M1 g.mapScreenBuffer) :=
    List.map_congr_left (fun k _ => htp k)
  have e2 : attributePacket c att s3.assetTable (tilePacket c nt M1 g.mapScreenBuffer 11) =
      attributePacket c att s1.assetTable (tilePacket c nt M1 g.mapScreenBuffer 11) :=
    attributePacket_congr c hP att _ _ _ htab
  rw [e1, htp 11, e2, ← hf1] at hf3
  refine ⟨?_, ?_, fun prior => ?_⟩
  · exact List.map_congr_left (fun k hk => htab k (by simpa using hk))
  · rw [hf3]
  · exact List.map_congr_left (fun k hk => hpri prior k (by simpa using hk))

theorem redraw_round_trip_witness :
    kit.NAMETABLE_UPDATE_PREFIX_LENGTH = 3 ∧
    bytes 0x38 (redraw kit 0x2000 0x23C0 1 0 sampleTileMap
      (redraw kit 0x2400 0x27C0 0 1 otherTileMap
        (redraw kit 0x2000 0x23C0 1 0 sampleTileMap sampleDrawGlobals))).assetTable =
      bytes 0x38 (redraw kit 0x2000 0x23C0 1 0 sampleTileMap sampleDrawGlobals).assetTable :=
  ⟨rfl, (redraw_round_trip kit rfl 0x2000 0x23C0 1 0 0x2400 0x27C0 0 1 sampleTileMap otherTileMap
    sampleDrawGlobals).1⟩

/-! ## The attribute table across passes -/

/-- C15: for every prior content, `clear_asset_table(containsHud)` resets all 56 bytes: to
zero for `containsHud = 0`; otherwise the first 48 to `0x00` and the final 8 to `0xFF`; a
second call with the same argument changes nothing. -/
theorem clear_asset_table_resets (containsHud : Nat) (g : Globals) :
    (containsHud = 0 → ∀ k, k < 56 → (clear_asset_table containsHud g).assetTable k = 0x00) ∧
    (containsHud ≠ 0 →
      (∀ k, k < 48 → (clear_asset_table containsHud g).assetTable k = 0x00) ∧
      (∀ k, 48 ≤ k → k < 56 → (clear_asset_table containsHud g).assetTable k = 0xFF)) ∧
    clear_asset_table containsHud (clear_asset_table containsHud g) =
      clear_asset_table containsHud g := by
  rw [clear_asset_table_eq, clear_asset_table_eq]
  refine ⟨fun h k hk => ?_, fun h => ⟨fun k hk => ?_, fun k h1 h2 => ?_⟩, ?_⟩
  · show clearedTable containsHud g.assetTable k = 0
    unfold clearedTable
    by_cases h48 : k < 48
    · rw [if_pos h48]
    · rw [if_neg h48, if_pos hk, if_pos h]
  · show clearedTable containsHud g.assetTable k = 0
    unfold clearedTable
    rw [if_pos hk]
  · show clearedTable containsHud g.assetTable k = 255
    unfold clearedTable
    rw [if_neg (by omega), if_pos h2, if_neg h]
  · apply Globals.ext <;> try rfl
    show clearedTable containsHud (clearedTable containsHud g.assetTable) = clearedTable containsHud g.assetTable
    funext k
    unfold clearedTable
    split_ifs <;> rfl

theorem clear_asset_table_resets_witness :
    (1 ≠ 0) ∧ (clear_asset_table 1 sampleDrawGlobals).assetTable 50 = 0xFF :=
  ⟨by decide, ((clear_asset_table_resets 1 sampleDrawGlobals).2.1 (by decide)).2 50 (by decide)
    (by decide)⟩

set_option maxRecDepth 100000 in
theorem jAfter_reversed : ∀ n, n < 192 → jAfter 1 (n + 1) 7 = 8 * ((n / 16 + 1) / 2) + n % 16 / 2 := by
  decide

theorem assetAfter_normal_hud (m : ByteTable) (a : Mem) (k : Nat) (hk : 48 ≤ k) :
    ∀ n, n ≤ 192 → assetAfter 0 m 255 n a k = a k := by
  intro n
  induction n with
  | zero => intro _; rfl
  | succ n ih =>
    intro hn
    rw [assetAfter_succ_apply, jAfter_normal n (by omega), if_neg (by omega), ih (by omega)]

theorem entry_point_hud_row (c : Consts) (hP : c.NAMETABLE_UPDATE_PREFIX_LENGTH = 3)
    (nt att hud : Nat) (g : Globals) :
    ∃ p, ((draw_current_map_to_nametable c nt att 0
        { clear_asset_table hud g with xScrollPosition := -1 }).flushed.drop g.flushed.length)[12]? =
        some p ∧
      ∀ k, 48 ≤ k → k < 56 →
        p (c.NAMETABLE_UPDATE_PREFIX_LENGTH + k) = if hud = 0 then 0x00 else 0xFF := by
  have h := (draw_flushed_get c hP nt att 0 { clear_asset_table hud g with xScrollPosition := -1 }).2.2
  rw [clear_asset_table_eq] at h ⊢
  refine ⟨_, h, fun k h1 h2 => ?_⟩
  rw [attributePacket_apply c hP, hP, if_neg (by omega), if_neg (by omega), if_neg (by omega),
    if_neg (by omega), if_pos (by omega), draw_assetTable]
  have e : 3 + k - 3 = k := by omega
  rw [e]
  show assetAfter 0 g.currentMap 255 192 (clearedTable hud g.assetTable) k % 256 = _
  rw [assetAfter_normal_hud _ _ k h1 192 (Nat.le_refl _)]
  unfold clearedTable
  rw [if_neg (by omega), if_pos h2]
  split_ifs <;> rfl

/-- C16: a normal-polarity pass never writes attribute bytes 48 to 55, so after
`draw_current_map_to_a` the last 8 payload bytes of the flushed attribute packet are all
`0xFF`, and after `draw_current_map_to_b`, `_c` or `_d` they are all `0x00`. -/
theorem normal_pass_keeps_hud_row (c : Consts) (hP : c.NAMETABLE_UPDATE_PREFIX_LENGTH = 3)
    (g : Globals) :
    (∀ nt att k, 48 ≤ k → (draw_current_map_to_nametable c nt att 0 g).assetTable k = g.assetTable k) ∧
    (∃ p, ((draw_current_map_to_a c g).flushed.drop g.flushed.length)[12]? = some p ∧
      ∀ k, 48 ≤ k → k < 56 → p (c.NAMETABLE_UPDATE_PREFIX_LENGTH + k) = 0xFF) ∧
    (∃ p, ((draw_current_map_to_b c g).flushed.drop g.flushed.length)[12]? = some p ∧
      ∀ k, 48 ≤ k → k < 56 → p (c.NAMETABLE_UPDATE_PREFIX_LENGTH + k) = 0x00) ∧
    (∃ p, ((draw_current_map_to_c c g).flushed.drop g.flushed.length)[12]? = some p ∧
      ∀ k, 48 ≤ k → k < 56 → p (c.NAMETABLE_UPDATE_PREFIX_LENGTH + k) = 0x00) ∧
    (∃ p, ((draw_current_map_to_d c g).flushed.drop g.flushed.length)[12]? = some p ∧
      ∀ k, 48 ≤ k → k < 56 → p (c.NAMETABLE_UPDATE_PREFIX_LENGTH + k) = 0x00) := by
  refine ⟨fun nt att k hk => ?_, entry_point_hud_row c hP _ _ 1 g, entry_point_hud_row c hP _ _ 0 g,
    entry_point_hud_row c hP _ _ 0 g, entry_point_hud_row c hP _ _ 0 g⟩
  rw [draw_assetTable]
  exact assetAfter_normal_hud _ _ k hk 192 (Nat.le_refl _)

theorem normal_pass_keeps_hud_row_witness :
    kit.NAMETABLE_UPDATE_PREFIX_LENGTH = 3 ∧
    (draw_current_map_to_nametable kit 0x2000 0x23C0 0 sampleDrawGlobals).assetTable 50 =
      sampleDrawGlobals.assetTable 50 :=
  ⟨rfl, (normal_pass_keeps_hud_row kit rfl sampleDrawGlobals).1 0x2000 0x23C0 50 (by decide)⟩

theorem tileTurns_j (c : Consts) (nt rev : Nat) (g : Globals) (n : Nat) (hn : n ≤ 192) :
    (tileTurns c nt rev n (drawEntry rev g)).j = jAfter rev n (if rev = 0 then 255 else 7) := by
  rw [tileTurns_eq c nt rev _ rfl rfl n hn]
  rfl

theorem tileTurns_assetTable (c : Consts) (nt rev : Nat) (g : Globals) (n : Nat) (hn : n ≤ 192) :
    (tileTurns c nt rev n (drawEntry rev g)).assetTable =
      assetAfter rev g.currentMap (if rev = 0 then 255 else 7) n g.assetTable := by
  rw [tileTurns_eq c nt rev _ rfl rfl n hn]
  rfl

/-- C18: the attribute index under which tile `i` is accumulated is `8 * (i / 32) + (i mod
16) / 2` in normal polarity (`j` starts at 255, drops by 8 at `i mod 32 = 16`) and
`8 * ((i / 16 + 1) / 2) + (i mod 16) / 2` in reversed polarity (`j` starts at 7, drops by 8
at `i mod 32 = 0`); `j` is incremented on every even `i`, the table changes at that index
only, and the index is at most 55. -/
theorem attribute_cursor (c : Consts) (nt : Nat) (g : Globals) (i : Nat) (hi : i < 192) :
    (tileTurns c nt 0 (i + 1) (drawEntry 0 g)).j = 8 * (i / 32) + i % 16 / 2 ∧
    (tileTurns c nt 1 (i + 1) (drawEntry 1 g)).j = 8 * ((i / 16 + 1) / 2) + i % 16 / 2 ∧
    (tileTurns c nt 0 0 (drawEntry 0 g)).j = 255 ∧ (tileTurns c nt 1 0 (drawEntry 1 g)).j = 7 ∧
    (tileTurns c nt 0 (i + 1) (drawEntry 0 g)).j =
      ((if i % 32 = 16 then ((tileTurns c nt 0 i (drawEntry 0 g)).j + 248) % 256
        else (tileTurns c nt 0 i (drawEntry 0 g)).j) + (if i % 2 = 0 then 1 else 0)) % 256 ∧
    (tileTurns c nt 1 (i + 1) (drawEntry 1 g)).j =
      ((if i % 32 = 0 then ((tileTurns c nt 1 i (drawEntry 1 g)).j + 248) % 256
        else (tileTurns c nt 1 i (drawEntry 1 g)).j) + (if i % 2 = 0 then 1 else 0)) % 256 ∧
    (∀ rev, rev ≤ 1 →
      (tileTurns c nt rev (i + 1) (drawEntry rev g)).j ≤ 55 ∧
      ∀ k, k ≠ (tileTurns c nt rev (i + 1) (drawEntry rev g)).j →
        (tileTurns c nt rev (i + 1) (drawEntry rev g)).assetTable k =
          (tileTurns c nt rev i (drawEntry rev g)).assetTable k) := by
  have h0 := jAfter_normal i hi
  have h1 := jAfter_reversed i hi
  have hb0 : ∀ n, n ≤ 192 → jAfter 0 n 255 < 256 := by
    intro n hn
    cases n with
    | zero => decide
    | succ n => rw [jAfter_normal n (by omega)]; omega
  have hb1 : ∀ n, n ≤ 192 → jAfter 1 n 7 < 256 := by
    intro n hn
    cases n with
    | zero => decide
    | succ n => rw [jAfter_reversed n (by omega)]; omega
  refine ⟨?_, ?_, rfl, rfl, ?_, ?_, fun rev hrev => ?_⟩
  · rw [tileTurns_j c nt 0 g _ (by omega)]; exact h0
  · rw [tileTurns_j c nt 1 g _ (by omega)]; exact h1
  · rw [tileTurns_j c nt 0 g _ (by omega), tileTurns_j c nt 0 g _ (by omega)]
    have hb := hb0 i (by omega)
    simp only [if_pos, jAfter, nextJ, ne_eq, not_true_eq_false, if_false] at hb ⊢
    split_ifs <;> omega
  · rw [tileTurns_j c nt 1 g _ (by omega), tileTurns_j c nt 1 g _ (by omega)]
    have hb := hb1 i (by omega)
    simp only [jAfter, nextJ, ne_eq, one_ne_zero, not_false_eq_true, if_true, if_false] at hb ⊢
    split_ifs <;> omega
  · have hr : rev = 0 ∨ rev = 1 := by omega
    rcases hr with rfl | rfl
    · rw [tileTurns_j c nt 0 g _ (by omega), tileTurns_assetTable c nt 0 g _ (by omega),
        tileTurns_assetTable c nt 0 g _ (by omega)]
      refine ⟨by rw [if_pos rfl, h0]; omega, fun k hk => ?_⟩
      rw [assetAfter_succ_apply, if_neg hk]
    · rw [tileTurns_j c nt 1 g _ (by omega), tileTurns_assetTable c nt 1 g _ (by omega),
        tileTurns_assetTable c nt 1 g _ (by omega)]
      refine ⟨by rw [if_neg (by decide), h1]; omega, fun k hk => ?_⟩
      rw [assetAfter_succ_apply, if_neg hk]

theorem attribute_cursor_witness :
    100 < 192 ∧ (tileTurns kit 0x2000 0 (100 + 1) (drawEntry 0 sampleDrawGlobals)).j =
      8 * (100 / 32) + 100 % 16 / 2 :=
  ⟨by decide, (attribute_cursor kit 0x2000 sampleDrawGlobals 100 (by decide)).1⟩

theorem paletteBits_weight (rev : Nat) (m : ByteTable) (n : Nat) :
    paletteBits rev n (m n).val = fieldWeight rev n * palette m n := by
  obtain ⟨h6, h4, h2, h0, _⟩ := palette_shifts (m n)
  unfold paletteBits palette fieldWeight
  simp only [h6, h4, h2, h0]
  split_ifs <;> omega

theorem cursor_eq_slot (rev : Nat) (hrev : rev ≤ 1) (i : Nat) (hi : i < 192) :
    cursor rev i = attributeSlot rev i := by
  have hr : rev = 0 ∨ rev = 1 := by omega
  rcases hr with rfl | rfl
  · exact jAfter_normal i hi
  · exact jAfter_reversed i hi

theorem attributeSlot_le (rev i : Nat) (hi : i < 192) : attributeSlot rev i ≤ 55 := by
  unfold attributeSlot
  split_ifs <;> omega

set_option maxRecDepth 1000000 in
theorem weightSum_normal : ∀ b, b < 56 → weightSum 0 192 b ≤ 85 := by
  decide

set_option maxRecDepth 1000000 in
theorem weightSum_reversed : ∀ b, b < 56 → weightSum 1 192 b ≤ 85 := by
  decide

theorem accumulated_le (rev : Nat) (hrev : rev ≤ 1) (m : ByteTable) (b : Nat) :
    ∀ n, n ≤ 192 → accumulated rev m n b ≤ 3 * weightSum rev n b := by
  intro n
  induction n with
  | zero => intro _; exact Nat.le_refl _
  | succ n ih =>
    intro hn
    have h := ih (by omega)
    have hp := palette_lt m n
    rw [accumulated, weightSum, cursor_eq_slot rev hrev n (by omega), paletteBits_weight]
    by_cases hb : b = attributeSlot rev n
    · rw [if_pos hb, if_pos hb]
      have : fieldWeight rev n * palette m n ≤ fieldWeight rev n * 3 :=
        Nat.mul_le_mul_left _ (by omega)
      omega
    · rw [if_neg hb, if_neg hb]
      omega

theorem accumulated_ge (rev : Nat) (m : ByteTable) (t : Nat) :
    ∀ n, t < n → paletteBits rev t (m t).val ≤ accumulated rev m n (cursor rev t) := by
  intro n
  induction n with
  | zero => intro h; omega
  | succ n ih =>
    intro hn
    rw [accumulated]
    by_cases e : t = n
    · subst e
      rw [if_pos rfl]
      omega
    · have := ih (by omega)
      omega

theorem assetAfter_accumulated (rev : Nat) (m : ByteTable) (a : Mem) (b : Nat) (hb : a b < 256) :
    ∀ n, assetAfter rev m (if rev = 0 then 255 else 7) n a b = (a b + accumulated rev m n b) % 256 := by
  intro n
  induction n with
  | zero => rw [assetAfter, accumulated]; omega
  | succ n ih =>
    rw [assetAfter_succ_apply, ih, accumulated]
    by_cases e : b = cursor rev n
    · rw [if_pos e, if_pos (by rw [e]; rfl)]
      omega
    · rw [if_neg e, if_neg (by intro h; exact e h)]
      rfl

theorem clearedTable_lt (hud : Nat) (a : Mem) (b : Nat) (hb : b < 56) : clearedTable hud a b < 256 := by
  unfold clearedTable
  split_ifs <;> omega

/-- C17: accumulation is additive.  When some tile has a non-zero palette selector, a second
pass with no clear in between leaves a table that differs from the table of one pass after a
clear; a byte that the clear had set to zero is doubled modulo 256. -/
theorem second_pass_corrupts (c : Consts) (nt att rev hud : Nat) (hrev : rev ≤ 1) (g : Globals)
    (t : Nat) (ht : t < 192) (hsel : (g.currentMap t).val &&& 0xC0 ≠ 0) :
    let once := draw_current_map_to_nametable c nt att rev (clear_asset_table hud g)
    let twice := draw_current_map_to_nametable c nt att rev once
    (∃ b, b < 56 ∧ twice.assetTable b ≠ once.assetTable b) ∧
    (∀ b, b < 56 → (clear_asset_table hud g).assetTable b = 0 →
      twice.assetTable b = (2 * once.assetTable b) % 256) := by
  intro once twice
  have hmap : once.currentMap = g.currentMap := by
    show (draw_current_map_to_nametable c nt att rev (clear_asset_table hud g)).currentMap = _
    rw [draw_currentMap, clear_asset_table_eq]
  have hclr : (clear_asset_table hud g).assetTable = clearedTable hud g.assetTable := by
    rw [clear_asset_table_eq]
  have honce : ∀ b, b < 56 → once.assetTable b =
      (clearedTable hud g.assetTable b + accumulated rev g.currentMap 192 b) % 256 := by
    intro b hb
    show (draw_current_map_to_nametable c nt att rev (clear_asset_table hud g)).assetTable b = _
    rw [draw_assetTable, clear_asset_table_eq]
    exact assetAfter_accumulated rev g.currentMap _ b (clearedTable_lt hud _ b hb) 192
  have htwice : ∀ b, b < 56 → twice.assetTable b =
      (once.assetTable b + accumulated rev g.currentMap 192 b) % 256 := by
    intro b hb
    show (draw_current_map_to_nametable c nt att rev once).assetTable b = _
    rw [draw_assetTable, hmap]
    exact assetAfter_accumulated rev g.currentMap _ b (by rw [honce b hb]; omega) 192
  refine ⟨⟨cursor rev t, ?_, ?_⟩, fun b hb h0 => ?_⟩
  · rw [cursor_eq_slot rev hrev t ht]
    have := attributeSlot_le rev t ht
    omega
  · have hb : cursor rev t < 56 := by
      rw [cursor_eq_slot rev hrev t ht]
      have := attributeSlot_le rev t ht
      omega
    have hle := accumulated_le rev hrev g.currentMap (cursor rev t) 192 (Nat.le_refl _)
    have hw : weightSum rev 192 (cursor rev t) ≤ 85 := by
      have hr : rev = 0 ∨ rev = 1 := by omega
      rcases hr with rfl | rfl
      · exact weightSum_normal _ hb
      · exact weightSum_reversed _ hb
    have hge := accumulated_ge rev g.currentMap t 192 ht
    have hpos : 0 < paletteBits rev t (g.currentMap t).val := by
      rw [paletteBits_weight]
      obtain ⟨h6, _, _, _, _⟩ := palette_shifts (g.currentMap t)
      have hp : 0 < palette g.currentMap t := by
        unfold palette
        rw [← h6]
        have hm : (g.currentMap t).val &&& 0xC0 = 64 * ((g.currentMap t).val >>> 6) := by
          have := (palette_shifts (g.currentMap t)).2.2.2.1
          simpa using this
        rw [h6]
        omega
      have hwpos : 0 < fieldWeight rev t := by
        unfold fieldWeight
        split_ifs <;> omega
      exact Nat.mul_pos hwpos hp
    rw [htwice _ hb, honce _ hb]
    omega
  · rw [htwice b hb, honce b hb]
    rw [hclr] at h0
    rw [h0]
    omega

theorem second_pass_corrupts_witness :
    (1 : Nat) ≤ 1 ∧ 0 < 192 ∧ (sampleDrawGlobals.currentMap 9).val &&& 0xC0 ≠ 0 ∧
    ∃ b, b < 56 ∧
      (draw_current_map_to_nametable kit 0x2000 0x23C0 1
        (draw_current_map_to_nametable kit 0x2000 0x23C0 1
          (clear_asset_table 0 sampleDrawGlobals))).assetTable b ≠
      (draw_current_map_to_nametable kit 0x2000 0x23C0 1
        (clear_asset_table 0 sampleDrawGlobals)).assetTable b :=
  ⟨by decide, by decide, by decide,
    (second_pass_corrupts kit 0x2000 0x23C0 1 0 (by decide) sampleDrawGlobals 9 (by decide)
      (by decide)).1⟩

theorem tileTurns_currentValue (c : Consts) (nt rev : Nat) (g : Globals) (i : Nat) (hi : i < 192) :
    (tileTurns c nt rev (i + 1) (drawEntry rev g)).currentValue =
      paletteBits rev i (g.currentMap i).val := by
  rw [tileTurns_eq c nt rev _ rfl rfl (i + 1) (by omega)]
  rfl

/-- C19: with reversed polarity the attribute placement matches the hardware geometry of a
map drawn six tile rows down.  The top-left tile of block `i` goes to nametable offset
`p = 6 * 32 + 64 * (i / 16) + 2 * (i mod 16)` of the bank (tile row `t = p / 32`, column
`p mod 32`); the attribute byte accumulated into, `8 + j`, is `8 * (t / 4) + col / 4`, the
selector is added at bit `2 * (2 * ((t mod 4) / 2) + (col mod 4) / 2)`, and the 56-byte
packet at `attrs + 8` stays inside the 64-byte attribute table. -/
theorem reversed_pass_geometry (c : Consts) (hP : c.NAMETABLE_UPDATE_PREFIX_LENGTH = 3)
    (bank attrs : Nat) (g : Globals) (i : Nat) (hi : i < 192) :
    let p := 6 * 32 + 64 * (i / 16) + 2 * (i % 16)
    let t := p / 32
    let col := p % 32
    let before := tileTurns c (bank + 32 * 6) 1 i (drawEntry 1 g)
    let s := tileTurns c (bank + 32 * 6) 1 (i + 1) (drawEntry 1 g)
    8 + s.j = 8 * (t / 4) + col / 4 ∧
    s.currentValue = ((g.currentMap i).val >>> 6) <<< (2 * (2 * ((t % 4) / 2) + (col % 4) / 2)) ∧
    s.assetTable s.j = (before.assetTable s.j + s.currentValue) % 256 ∧
    8 + s.j < 64 ∧ 8 + 56 ≤ 64 ∧
    ∃ packet,
      ((draw_current_map_to_nametable c (bank + 32 * 6) (attrs + 8) 1 g).flushed.drop
        g.flushed.length)[i / 16]? = some packet ∧
      packet 0 = (MSB ((bank + 32 * 6 + 64 * (i / 16)) % 65536) ||| c.NT_UPD_HORZ) % 256 ∧
      packet 1 = LSB ((bank + 32 * 6 + 64 * (i / 16)) % 65536) % 256 ∧
      packet (c.NAMETABLE_UPDATE_PREFIX_LENGTH + 2 * (i % 16)) = tileBase (g.currentMap i).val ∧
      bank + 32 * 6 + 64 * (i / 16) + 2 * (i % 16) = bank + p := by
  intro p t col before s
  have hj : s.j = 8 * ((i / 16 + 1) / 2) + i % 16 / 2 :=
    (attribute_cursor c (bank + 32 * 6) g i hi).2.1
  have hv : s.currentValue = paletteBits 1 i (g.currentMap i).val :=
    tileTurns_currentValue c _ 1 g i hi
  have ha : s.assetTable = assetAfter 1 g.currentMap 7 (i + 1) g.assetTable :=
    tileTurns_assetTable c _ 1 g (i + 1) (by omega)
  have hb : before.assetTable = assetAfter 1 g.currentMap 7 i g.assetTable :=
    tileTurns_assetTable c _ 1 g i (by omega)
  have hjj : s.j = jAfter 1 (i + 1) 7 := tileTurns_j c _ 1 g (i + 1) (by omega)
  obtain ⟨h6, h4, h2, h0, _⟩ := palette_shifts (g.currentMap i)
  refine ⟨?_, ?_, ?_, ?_, by decide, ?_⟩
  · rw [hj]
    show _ = 8 * ((6 * 32 + 64 * (i / 16) + 2 * (i % 16)) / 32 / 4) +
      (6 * 32 + 64 * (i / 16) + 2 * (i % 16)) % 32 / 4
    omega
  · rw [hv]
    show _ = ((g.currentMap i).val >>> 6) <<<
      (2 * (2 * (((6 * 32 + 64 * (i / 16) + 2 * (i % 16)) / 32 % 4) / 2) +
        ((6 * 32 + 64 * (i / 16) + 2 * (i % 16)) % 32 % 4) / 2))
    unfold paletteBits
    have hcases : (i % 2 = 0 ∨ i % 2 = 1) ∧ (i / 16 % 2 = 0 ∨ i / 16 % 2 = 1) := by omega
    obtain ⟨hx | hx, hy | hy⟩ := hcases
    · have e : 2 * (2 * (((6 * 32 + 64 * (i / 16) + 2 * (i % 16)) / 32 % 4) / 2) +
          ((6 * 32 + 64 * (i / 16) + 2 * (i % 16)) % 32 % 4) / 2) = 4 := by omega
      rw [e, if_pos hx, if_neg (by omega), h2, Nat.shiftLeft_eq]
      omega
    · have e : 2 * (2 * (((6 * 32 + 64 * (i / 16) + 2 * (i % 16)) / 32 % 4) / 2) +
          ((6 * 32 + 64 * (i / 16) + 2 * (i % 16)) % 32 % 4) / 2) = 0 := by omega
      rw [e, if_pos hx, if_pos hy, h6, Nat.shiftLeft_eq]
      omega
    · have e : 2 * (2 * (((6 * 32 + 64 * (i / 16) + 2 * (i % 16)) / 32 % 4) / 2) +
          ((6 * 32 + 64 * (i / 16) + 2 * (i % 16)) % 32 % 4) / 2) = 6 := by omega
      rw [e, if_neg (by omega), if_neg (by omega), h0, Nat.shiftLeft_eq]
      omega
    · have e : 2 * (2 * (((6 * 32 + 64 * (i / 16) + 2 * (i % 16)) / 32 % 4) / 2) +
          ((6 * 32 + 64 * (i / 16) + 2 * (i % 16)) % 32 % 4) / 2) = 2 := by omega
      rw [e, if_neg (by omega), if_pos hy, h4, Nat.shiftLeft_eq]
      omega
  · rw [ha, hb, hv, hjj, assetAfter_succ_apply, if_pos rfl]
  · rw [hj]
    omega
  · obtain ⟨a1, _, _, _⟩ := tilePacket_tile c (bank + 32 * 6) g.currentMap g.mapScreenBuffer i
    refine ⟨_, (draw_flushed_get c hP _ _ 1 g).2.1 (i / 16) (by omega), ?_, ?_, ?_, ?_⟩
    · unfold tilePacket; rw [if_pos rfl]
    · unfold tilePacket; rw [if_neg (by omega), if_pos rfl]
    · rw [hP, a1]
      have := (tileBase_eq (g.currentMap i).val)
      exact Nat.mod_eq_of_lt (by omega)
    · show _ = bank + (6 * 32 + 64 * (i / 16) + 2 * (i % 16))
      omega

theorem reversed_pass_geometry_witness :
    kit.NAMETABLE_UPDATE_PREFIX_LENGTH = 3 ∧ 53 < 192 ∧
    8 + (tileTurns kit (0x2400 + 32 * 6) 1 (53 + 1) (drawEntry 1 sampleDrawGlobals)).j =
      8 * ((6 * 32 + 64 * (53 / 16) + 2 * (53 % 16)) / 32 / 4) +
        (6 * 32 + 64 * (53 / 16) + 2 * (53 % 16)) % 32 / 4 :=
  ⟨rfl, by decide,
    (reversed_pass_geometry kit rfl 0x2400 0x27C0 sampleDrawGlobals 53 (by decide)).1⟩

theorem nextJ_shift (i0 n j : Nat) (h : i0 % 32 = 0) : nextJ 0 (i0 + n) j = nextJ 0 n j := by
  unfold nextJ
  have e1 : (i0 + n) % 32 = n % 32 := by omega
  have e2 : (i0 + n) % 2 = n % 2 := by omega
  rw [e1, e2]

theorem paletteBits_shift (i0 n t : Nat) (h : i0 % 32 = 0) :
    paletteBits 0 (i0 + n) t = paletteBits 0 n t := by
  unfold paletteBits
  have e1 : (i0 + n) / 16 % 2 = n / 16 % 2 := by omega
  have e2 : (i0 + n) % 2 = n % 2 := by omega
  rw [e1, e2]

theorem rowAfter_zero (c : Consts) (nt att oli : Nat) (g : Globals) (hb : g.bufferIndex = 0) :
    rowAfter c nt att oli 0 g = g := by
  apply Globals.ext <;> simp [rowAfter, jAfter, valueAfter, locationAfter, assetAfter,
    rowBufferAfter, rowFlushedAfter, hb]

/-- One turn of the row loop takes the state after `n` turns to the state after `n + 1`. -/
theorem row_tile_step (c : Consts) (nt att oli n : Nat) (g : Globals) (hn : n < 32)
    (hi : g.i % 32 = 0) (hi2 : g.i + 32 < 256) (hv : g.vramUpdate = false) :
    row_tile c nt att oli (rowAfter c nt att oli n g) = rowAfter c nt att oli (n + 1) g := by
  have hmod : (g.i + n + 1) % 256 = g.i + (n + 1) := by omega
  have hloc : (nt + ((g.i + n) / 16) <<< 6 + ((g.i + n) % 16) <<< 1) % 65536 =
      (nt + 64 * (g.i / 16) + (n / 16) <<< 6 + (n % 16) <<< 1) % 65536 := by
    simp only [Nat.shiftLeft_eq]
    congr 1
    omega
  have hsj := nextJ_shift g.i n (jAfter 0 n g.j) hi
  have hsp := paletteBits_shift g.i n (g.currentMap (g.i + n)).val hi
  by_cases hf : (n % 16 + 1) % 256 = 16
  · have h0 : ¬ n % 16 = 0 := by omega
    have h8 : ¬ (n % 16 + 1) % 256 = 8 := by omega
    have h1 : (n + 1) % 16 = 0 := by omega
    have h2 : ¬ n + 1 < 16 := by omega
    have h3 : (n + 1 + 8) / 16 = (n + 8) / 16 := by omega
    have h4 : (8 ≤ n + 1) = (8 ≤ n) := by
      apply propext; constructor <;> intro h <;> omega
    apply Globals.ext <;>
      simp [rowAfter, row_tile, jAfter, valueAfter, locationAfter, assetAfter, rowBufferAfter,
        rowFlushedAfter, set_vram_update, ppu_wait_nmi, shiftMap, hf, h0, h1, h2, h3, h4, h8,
        hmod, hsj, hsp, hv]
  · by_cases h8 : (n % 16 + 1) % 256 = 8
    · have h1 : (n + 1) % 16 = 8 := by omega
      have h2 : (n + 1 < 16) = (n < 16) := by
        apply propext; constructor <;> intro h <;> omega
      have h4 : 8 ≤ n + 1 := by omega
      have h6 : n % 16 ≠ 0 := by omega
      by_cases hx : g.xScrollPosition = -1
      · apply Globals.ext <;>
          simp [rowAfter, row_tile, jAfter, valueAfter, locationAfter, assetAfter, rowBufferAfter,
            rowFlushedAfter, ppu_wait_nmi, shiftMap, hf, h1, h2, h4, h6, h8, hmod,
            hsj, hsp, hloc, hx, hv]
      · have h7 : ((if 8 ≤ n then (g.otherLoopIndex + (n + 8) / 16 * oli) % 256
            else g.otherLoopIndex) + oli) % 256 =
            (g.otherLoopIndex + (n + 1 + 8) / 16 * oli) % 256 := by
          have hq : n = 7 ∨ n = 23 := by omega
          rcases hq with rfl | rfl
          · simp
          · simp
            omega
        apply Globals.ext <;>
          simp [rowAfter, row_tile, jAfter, valueAfter, locationAfter, assetAfter, rowBufferAfter,
            rowFlushedAfter, ppu_wait_nmi, shiftMap, hf, h1, h2, h4, h6, h7, h8, hmod,
            hsj, hsp, hloc, hx, hv]
    · have h1 : (n + 1) % 16 = (n % 16 + 1) % 256 := by omega
      have h2 : (n + 1 < 16) = (n < 16) := by
        apply propext; constructor <;> intro h <;> omega
      have h3 : (n + 1 + 8) / 16 = (n + 8) / 16 := by omega
      have h4 : (8 ≤ n + 1) = (8 ≤ n) := by
        apply propext; constructor <;> intro h <;> omega
      apply Globals.ext <;>
        simp [rowAfter, row_tile, jAfter, valueAfter, locationAfter, assetAfter, rowBufferAfter,
          rowFlushedAfter, shiftMap, hf, h1, h2, h3, h4, h8, hmod, hsj, hsp, hloc]

/-- The row loop started after `n < 32` turns runs on to the end of the row pair. -/
theorem draw_individual_row_loop_spec (c : Consts) (nt att oli : Nat) (g : Globals)
    (hi : g.i % 32 = 0) (hi2 : g.i + 32 < 256) (hv : g.vramUpdate = false) :
    ∀ (fuel n : Nat), n < 32 → 32 - n ≤ fuel →
      draw_individual_row_loop c nt att oli fuel (rowAfter c nt att oli n g) =
        rowAfter c nt att oli 32 g := by
  intro fuel
  induction fuel with
  | zero => intro n hn hf; omega
  | succ f ih =>
    intro n hn hf
    rw [draw_individual_row_loop, row_tile_step c nt att oli n g hn hi hi2 hv]
    have e : (rowAfter c nt att oli (n + 1) g).i = g.i + (n + 1) := rfl
    rw [e]
    by_cases h : n + 1 = 32
    · rw [if_pos (by omega), h]
    · rw [if_neg (by omega)]
      exact ih (n + 1) (by omega) (by omega)

/-- A call of the row streamer in closed form. -/
theorem draw_individual_row_eq (c : Consts) (nt att oli : Nat) (g : Globals)
    (hi : g.i % 32 = 0) (hi2 : g.i + 32 < 256) (hb : g.bufferIndex = 0)
    (hv : g.vramUpdate = false) :
    draw_individual_row c nt att oli g = rowAfter c nt att oli 32 g := by
  have h := draw_individual_row_loop_spec c nt att oli g hi hi2 hv 256 0 (by omega) (by omega)
  rw [rowAfter_zero c nt att oli g hb] at h
  exact h

/-- Thirty-two turns at polarity 0 move the cursor `j` on by eight. -/
theorem jAfter_row (j : Nat) : jAfter 0 32 j = (j + 8) % 256 := by
  simp only [jAfter, nextJ]
  norm_num
  omega

/-- The two buffers a call of the row streamer hands over. -/
theorem rowFlushedAfter_row (c : Consts) (nt att : Nat) (m : ByteTable) (i0 j : Nat) (a : Mem)
    (l : Nat) (b : Mem) :
    rowFlushedAfter c nt att m i0 j a l 32 b =
      [rowBufferAfter c nt att m i0 j a l 16 b, rowBufferAfter c nt att m i0 j a l 32 b] := by
  simp [rowFlushedAfter]

/-- The cursor after a whole number of row pairs and `n` more turns. -/
theorem jAfter_split (i0 j : Nat) (h : i0 % 32 = 0) :
    ∀ n, jAfter 0 (i0 + n) j = jAfter 0 n (jAfter 0 i0 j) := by
  intro n
  induction n with
  | zero => rfl
  | succ n ih =>
    show nextJ 0 (i0 + n) (jAfter 0 (i0 + n) j) = nextJ 0 n (jAfter 0 n (jAfter 0 i0 j))
    rw [nextJ_shift i0 n _ h, ih]

/-- The table after a whole number of row pairs and `n` more turns. -/
theorem assetAfter_split (m : ByteTable) (i0 j : Nat) (a : Mem) (h : i0 % 32 = 0) :
    ∀ n, assetAfter 0 m j (i0 + n) a =
      assetAfter 0 (shiftMap m i0) (jAfter 0 i0 j) n (assetAfter 0 m j i0 a) := by
  intro n
  induction n with
  | zero => rfl
  | succ n ih =>
    have e : jAfter 0 (i0 + n + 1) j = jAfter 0 (n + 1) (jAfter 0 i0 j) :=
      jAfter_split i0 j h (n + 1)
    show poke (assetAfter 0 m j (i0 + n) a) (jAfter 0 (i0 + n + 1) j)
        (assetAfter 0 m j (i0 + n) a (jAfter 0 (i0 + n + 1) j) +
          paletteBits 0 (i0 + n) (m (i0 + n)).val) = _
    rw [ih, e, paletteBits_shift i0 n _ h]
    rfl

theorem poke_of_ne (m : Mem) (a v k : Nat) (h : k ≠ a) : poke m a v k = m k := by
  rw [poke_apply, if_neg h]

/-- Below index 68 the row streamer writes the header of the full streamer. -/
theorem rowPacket_low (c : Consts) (hP : c.NAMETABLE_UPDATE_PREFIX_LENGTH = 3)
    (l att j : Nat) (a b : Mem) (idx : Nat) (h : idx < 68) :
    rowPacket c l att j a b idx = tileHeader c l b idx := by
  unfold rowPacket tileHeader
  simp only [hP]
  simp (disch := omega) only [poke_of_ne]

theorem bufferTile_congr (c : Consts) (k v : Nat) (b b' : Mem) (idx : Nat) (h : b idx = b' idx) :
    bufferTile c k v b idx = bufferTile c k v b' idx := by
  unfold bufferTile
  simp only [poke_apply, h]

theorem tileHeader_congr (c : Consts) (l : Nat) (b b' : Mem) (idx : Nat) (h : b idx = b' idx) :
    tileHeader c l b idx = tileHeader c l b' idx := by
  unfold tileHeader
  simp only [poke_apply, h]

/-- Below index 68 a call of the row streamer fills the buffer as the full streamer does on
the map seen from the entry tile. -/
theorem rowBufferAfter_low (c : Consts) (hP : c.NAMETABLE_UPDATE_PREFIX_LENGTH = 3)
    (nt att : Nat) (m : ByteTable) (i0 j : Nat) (a : Mem) (l : Nat) (b : Mem) (idx : Nat)
    (h : idx < 68) :
    ∀ n, rowBufferAfter c nt att m i0 j a l n b idx =
      bufferAfter c (nt + 64 * (i0 / 16)) (shiftMap m i0) l n b idx := by
  intro n
  induction n with
  | zero => rfl
  | succ n ih =>
    rw [rowBufferAfter, bufferAfter]
    by_cases hf : (n % 16 + 1) % 256 = 16
    · rw [if_pos hf, if_pos hf, rowPacket_low c hP _ _ _ _ _ idx h]
      exact tileHeader_congr c _ _ _ idx (bufferTile_congr c _ _ _ _ idx ih)
    · rw [if_neg hf, if_neg hf]
      exact bufferTile_congr c _ _ _ _ idx ih

/-- The header and the tile bytes of a packet of the shifted map are those of the packet
further down the whole map. -/
theorem tilePacket_shift (c : Consts) (nt : Nat) (m : ByteTable) (r : Nat) (b b' : Mem)
    (k idx : Nat) (h : idx < 67) :
    tilePacket c (nt + 64 * (32 * r / 16)) (shiftMap m (32 * r)) b k idx =
      tilePacket c nt m b' (2 * r + k) idx := by
  have e1 : nt + 64 * (32 * r / 16) + 64 * k = nt + 64 * (2 * r + k) := by omega
  have e2 : 32 * r + (16 * k + (idx - 3) % 32 / 2) = 16 * (2 * r + k) + (idx - 3) % 32 / 2 := by
    omega
  unfold tilePacket shiftMap
  rw [e1, e2]
  split_ifs <;> first | rfl | omega

/-- The buffer at the two flushes of a call, below index 67. -/
theorem rowBufferAfter_tiles (c : Consts) (hP : c.NAMETABLE_UPDATE_PREFIX_LENGTH = 3)
    (nt att : Nat) (m : ByteTable) (r j : Nat) (a : Mem) (l : Nat) (b b' : Mem) (k idx : Nat)
    (h : idx < 67) :
    rowBufferAfter c nt att m (32 * r) j a l (16 * (k + 1)) b idx =
      tilePacket c nt m b' (2 * r + k) idx := by
  rw [rowBufferAfter_low c hP nt att m (32 * r) j a l b idx (by omega), bufferAfter_chunk c hP,
    tilePacket_shift c nt m r b b' k idx h]

/-- The state after `k ≤ 6` consecutive calls of the row streamer from the top of the map:
the cursors and the table are those of the full streamer after `32 * k` tiles, and the
`2 * k` buffers flushed carry the headers and tile bytes of its first `2 * k` packets. -/
theorem rowCalls_spec (c : Consts) (hP : c.NAMETABLE_UPDATE_PREFIX_LENGTH = 3)
    (nt att oli : Nat) (g : Globals) (hi : g.i = 0) (hj : g.j = 255) (hb : g.bufferIndex = 0)
    (hv : g.vramUpdate = false) :
    ∀ k, k ≤ 6 →
      (rowCalls c nt att oli k g).i = 32 * k ∧
      (rowCalls c nt att oli k g).j = jAfter 0 (32 * k) 255 ∧
      (rowCalls c nt att oli k g).bufferIndex = 0 ∧
      (rowCalls c nt att oli k g).vramUpdate = false ∧
      (rowCalls c nt att oli k g).currentMap = g.currentMap ∧
      (rowCalls c nt att oli k g).assetTable = assetAfter 0 g.currentMap 255 (32 * k) g.assetTable ∧
      ∃ out, (rowCalls c nt att oli k g).flushed = g.flushed ++ out ∧ out.length = 2 * k ∧
        ∀ q p, out[q]? = some p → ∀ idx, idx < 67 →
          p idx = tilePacket c nt g.currentMap g.mapScreenBuffer q idx := by
  intro k
  induction k with
  | zero =>
    intro _
    refine ⟨hi, hj, hb, hv, rfl, rfl, [], by simp [rowCalls], rfl, ?_⟩
    intro q p h
    simp at h
  | succ k ih =>
    intro hk
    obtain ⟨si, sj, sb, sv, sm, sa, out, sf, sl, sp⟩ := ih (by omega)
    have e : rowCalls c nt att oli (k + 1) g =
        rowAfter c nt att oli 32 (rowCalls c nt att oli k g) :=
      draw_individual_row_eq c nt att oli _ (by omega) (by omega) sb sv
    have e32 : 32 * (k + 1) = 32 * k + 32 := by omega
    have hjn : (rowAfter c nt att oli 32 (rowCalls c nt att oli k g)).j =
        jAfter 0 32 (rowCalls c nt att oli k g).j := rfl
    have han : (rowAfter c nt att oli 32 (rowCalls c nt att oli k g)).assetTable =
        assetAfter 0 (shiftMap (rowCalls c nt att oli k g).currentMap (rowCalls c nt att oli k g).i)
          (rowCalls c nt att oli k g).j 32 (rowCalls c nt att oli k g).assetTable := rfl
    have hfn : (rowAfter c nt att oli 32 (rowCalls c nt att oli k g)).flushed =
        (rowCalls c nt att oli k g).flushed ++
          rowFlushedAfter c nt att (rowCalls c nt att oli k g).currentMap
            (rowCalls c nt att oli k g).i (rowCalls c nt att oli k g).j
            (rowCalls c nt att oli k g).assetTable (rowCalls c nt att oli k g).currentMemoryLocation
            32 (rowCalls c nt att oli k g).mapScreenBuffer := rfl
    rw [e]
    refine ⟨?_, ?_, rfl, sv, sm, ?_, ?_⟩
    · show (rowCalls c nt att oli k g).i + 32 = 32 * (k + 1)
      omega
    · rw [hjn, sj, e32, jAfter_split (32 * k) 255 (by omega) 32]
    · rw [han, sm, si, sj, sa, e32, assetAfter_split g.currentMap (32 * k) 255 g.assetTable (by omega) 32]
    · rw [hfn, rowFlushedAfter_row, sf, sm, si, List.append_assoc]
      refine ⟨_, rfl, ?_, ?_⟩
      · rw [List.length_append, sl]
        simp only [List.length_cons, List.length_nil]
        omega
      · intro q p hq idx hidx
        by_cases hlt : q < out.length
        · rw [List.getElem?_append_left hlt] at hq
          exact sp q p hq idx hidx
        · rw [List.getElem?_append_right (by omega)] at hq
          have hc : q - out.length = 0 ∨ q - out.length = 1 ∨ 2 ≤ q - out.length := by omega
          rcases hc with h0 | h1 | h2
          · rw [h0] at hq
            have hp : p = _ := (Option.some.inj hq).symm
            have eq : q = 2 * k + 0 := by omega
            rw [hp, eq]
            exact rowBufferAfter_tiles c hP nt att g.currentMap k _ _ _ _ _ 0 idx hidx
          · rw [h1] at hq
            have hp : p = _ := (Option.some.inj hq).symm
            have eq : q = 2 * k + 1 := by omega
            rw [hp, eq]
            exact rowBufferAfter_tiles c hP nt att g.currentMap k _ _ _ _ _ 1 idx hidx
          · rw [List.getElem?_eq_none (by simpa using h2)] at hq
            exact absurd hq (by simp)

/-- Six calls of the row streamer from the top of the map, set against one call of the full
streamer at polarity 0 from the same state. -/
theorem rowCalls_full (c : Consts) (hP : c.NAMETABLE_UPDATE_PREFIX_LENGTH = 3)
    (nt att d : Nat) (s : Globals) (hv : s.vramUpdate = false) :
    (((rowCalls c nt att d 6 { s with i := 0, j := 255, bufferIndex := 0 }).flushed.drop
        s.flushed.length).length = 12) ∧
    (∀ q, q < 12 → ∃ p full,
      ((rowCalls c nt att d 6 { s with i := 0, j := 255, bufferIndex := 0 }).flushed.drop
          s.flushed.length)[q]? = some p ∧
      ((draw_current_map_to_nametable c nt att 0 s).flushed.drop s.flushed.length)[q]? =
        some full ∧
      p 0 = full 0 ∧ p 1 = full 1 ∧ p 2 = full 2 ∧
      ∀ idx, 3 ≤ idx → idx < 67 → p idx = full idx) ∧
    (∀ b, b < 56 →
      (rowCalls c nt att d 6 { s with i := 0, j := 255, bufferIndex := 0 }).assetTable b =
      (draw_current_map_to_nametable c nt att 0 s).assetTable b) ∧
    (rowCalls c nt att d 6 { s with i := 0, j := 255, bufferIndex := 0 }).i = 192 := by
  obtain ⟨si, _, _, _, _, sa, out, sf, sl, sp⟩ := rowCalls_spec c hP nt att d
    { s with i := 0, j := 255, bufferIndex := 0 } rfl rfl rfl hv 6 (by omega)
  obtain ⟨_, ft, _⟩ := draw_flushed_get c hP nt att 0 s
  simp only [] at sf sa sp
  rw [sf, List.drop_left]
  refine ⟨sl, ?_, ?_, si⟩
  · intro q hq
    have hlen : q < out.length := by omega
    refine ⟨out[q], _, List.getElem?_eq_getElem hlen, ft q hq, ?_, ?_, ?_, ?_⟩
    · exact sp q _ (List.getElem?_eq_getElem hlen) 0 (by omega)
    · exact sp q _ (List.getElem?_eq_getElem hlen) 1 (by omega)
    · exact sp q _ (List.getElem?_eq_getElem hlen) 2 (by omega)
    · intro idx _ h
      exact sp q _ (List.getElem?_eq_getElem hlen) idx h
  · intro b _
    have e : (if (0 : Nat) = 0 then 255 else 7) = 255 := rfl
    rw [sa, draw_assetTable, e]

/-- C20, amended: started on a table cleared by `clear_asset_table(0)` with `i = 0`,
`j = 255` (the byte of -1) and `bufferIndex = 0`, while no update list is pending, six
consecutive calls of
`draw_individual_row` flush twelve buffers; the buffer number `q` carries the address bytes,
the length byte and the 64 tile bytes of the tile packet number `q` that one call of
`draw_current_map_to_nametable` at polarity 0 flushes on the same map, and the calls leave
the table, in particular its 56 attribute bytes, as that one call leaves it. -/
theorem row_streamer_refines (c : Consts) (hP : c.NAMETABLE_UPDATE_PREFIX_LENGTH = 3)
    (nt att d : Nat) (g : Globals) (hv : g.vramUpdate = false) :
    (((rowCalls c nt att d 6
      { clear_asset_table 0 g with i := 0, j := 255, bufferIndex := 0 }).flushed.drop
        g.flushed.length).length = 12) ∧
    (∀ q, q < 12 → ∃ p full,
      ((rowCalls c nt att d 6
        { clear_asset_table 0 g with i := 0, j := 255, bufferIndex := 0 }).flushed.drop
          g.flushed.length)[q]? = some p ∧
      ((draw_current_map_to_nametable c nt att 0 (clear_asset_table 0 g)).flushed.drop
          g.flushed.length)[q]? = some full ∧
      p 0 = full 0 ∧ p 1 = full 1 ∧ p 2 = full 2 ∧
      ∀ idx, 3 ≤ idx → idx < 67 → p idx = full idx) ∧
    (∀ b, b < 56 →
      (rowCalls c nt att d 6
        { clear_asset_table 0 g with i := 0, j := 255, bufferIndex := 0 }).assetTable b =
      (draw_current_map_to_nametable c nt att 0 (clear_asset_table 0 g)).assetTable b) ∧
    (rowCalls c nt att d 6
      { clear_asset_table 0 g with i := 0, j := 255, bufferIndex := 0 }).i = 192 := by
  have hc := clear_asset_table_eq 0 g
  have hfl : (clear_asset_table 0 g).flushed = g.flushed := by rw [hc]
  have hvr : (clear_asset_table 0 g).vramUpdate = false := by rw [hc]; exact hv
  clear hc
  generalize clear_asset_table 0 g = s at hfl hvr ⊢
  rw [← hfl]
  have h := rowCalls_full c hP nt att d s hvr
  dsimp only at h ⊢
  exact h

theorem row_streamer_refines_witness :
    sampleDrawGlobals.vramUpdate = false ∧
    (rowCalls kit 0x2400 0x27C0 2 6
      { clear_asset_table 0 sampleDrawGlobals with i := 0, j := 255, bufferIndex := 0 }).i = 192 :=
  ⟨rfl, (row_streamer_refines kit rfl 0x2400 0x27C0 2 sampleDrawGlobals rfl).2.2.2⟩

/-- One turn of the warp-door loop on slot `g.i`: a door slot gives the player its position
and loses its tile id; any other slot changes nothing but the index temporary. -/
theorem warp_door_step_spec (c : Consts) (h : SpriteLayout c) (g : Globals)
    (hi : g.i < c.MAP_MAX_SPRITES) :
    (warp_door_step c g).playerXPosition =
      (if doorAt c g.currentMapSpriteData g.i then slotX c g.currentMapSpriteData g.i
       else g.playerXPosition) ∧
    (warp_door_step c g).playerYPosition =
      (if doorAt c g.currentMapSpriteData g.i then slotY c g.currentMapSpriteData g.i
       else g.playerYPosition) ∧
    (∀ a, (warp_door_step c g).currentMapSpriteData a =
      if a = 16 * g.i + c.MAP_SPRITE_DATA_POS_TILE_ID ∧ doorAt c g.currentMapSpriteData g.i then
        c.SPRITE_TILE_ID_OFFSCREEN % 256
      else g.currentMapSpriteData a) ∧
    (warp_door_step c g).i = g.i := by
  have e := slot_index c h g.i hi
  unfold warp_door_step
  simp only [e]
  by_cases hd : doorAt c g.currentMapSpriteData g.i
  · have hd2 : g.currentMapSpriteData (16 * g.i + c.MAP_SPRITE_DATA_POS_TYPE) =
        c.SPRITE_TYPE_WARP_DOOR := hd
    rw [if_pos hd2, if_pos hd, if_pos hd]
    refine ⟨rfl, rfl, fun a => ?_, rfl⟩
    simp only [poke_apply, hd, and_true]
  · have hd2 : ¬ g.currentMapSpriteData (16 * g.i + c.MAP_SPRITE_DATA_POS_TYPE) =
        c.SPRITE_TYPE_WARP_DOOR := hd
    rw [if_neg hd2, if_neg hd, if_neg hd]
    refine ⟨rfl, rfl, fun a => ?_, rfl⟩
    simp only [hd, and_false, if_false]

/-- The tile-id offset differs from the offsets the warp-door loop reads. -/
theorem SpriteLayout.tile_id_apart {c : Consts} (h : SpriteLayout c) :
    c.MAP_SPRITE_DATA_POS_TILE_ID ≠ c.MAP_SPRITE_DATA_POS_X ∧
    c.MAP_SPRITE_DATA_POS_TILE_ID ≠ c.MAP_SPRITE_DATA_POS_X + 1 ∧
    c.MAP_SPRITE_DATA_POS_TILE_ID ≠ c.MAP_SPRITE_DATA_POS_Y ∧
    c.MAP_SPRITE_DATA_POS_TILE_ID ≠ c.MAP_SPRITE_DATA_POS_Y + 1 ∧
    c.MAP_SPRITE_DATA_POS_TILE_ID ≠ c.MAP_SPRITE_DATA_POS_TYPE := by
  have hn : (slotOffsets c).Nodup := h.2.2.2.2
  have key : ∀ (p q : Nat) (hp : p < (slotOffsets c).length) (hq : q < (slotOffsets c).length),
      p ≠ q → (slotOffsets c)[p] ≠ (slotOffsets c)[q] := by
    intro p q hp hq hpq he
    exact hpq ((List.Nodup.getElem_inj_iff hn).mp he)
  have hl : (slotOffsets c).length = 12 := rfl
  exact ⟨key 4 0 (by omega) (by omega) (by decide), key 4 1 (by omega) (by omega) (by decide),
    key 4 2 (by omega) (by omega) (by decide), key 4 3 (by omega) (by omega) (by decide),
    key 4 5 (by omega) (by omega) (by decide)⟩

/-- Hiding the tile id of one slot leaves every slot's type and stored position as they were. -/
theorem hide_keeps_doors (c : Consts) (h : SpriteLayout c) (d d' : Mem) (s : Nat)
    (hd : ∀ a, a ≠ 16 * s + c.MAP_SPRITE_DATA_POS_TILE_ID → d' a = d a) (k : Nat) :
    (doorAt c d' k ↔ doorAt c d k) ∧ slotX c d' k = slotX c d k ∧ slotY c d' k = slotY c d k := by
  have hb := h.bounds
  obtain ⟨n1, n2, n3, n4, n5⟩ := h.tile_id_apart
  unfold doorAt slotX slotY slotByte
  rw [hd _ (by omega), hd (16 * k + c.MAP_SPRITE_DATA_POS_X) (by omega),
    hd (16 * k + (c.MAP_SPRITE_DATA_POS_X + 1)) (by omega),
    hd (16 * k + c.MAP_SPRITE_DATA_POS_Y) (by omega),
    hd (16 * k + (c.MAP_SPRITE_DATA_POS_Y + 1)) (by omega)]
  exact ⟨Iff.rfl, rfl, rfl⟩

/-- The warp-door loop, characterised from the slot it still has to visit: every door slot
from there on loses its tile id, the player lands on the last door slot, and without a door
nothing moves. -/
theorem warp_door_loop_spec (c : Consts) (h : SpriteLayout c) :
    ∀ (fuel : Nat) (g : Globals), g.i ≤ c.MAP_MAX_SPRITES → c.MAP_MAX_SPRITES - g.i ≤ fuel →
      (∀ a, (warp_door_loop c fuel g).currentMapSpriteData a =
        if g.i ≤ a / 16 ∧ a / 16 < c.MAP_MAX_SPRITES ∧ a % 16 = c.MAP_SPRITE_DATA_POS_TILE_ID ∧
            doorAt c g.currentMapSpriteData (a / 16) then c.SPRITE_TILE_ID_OFFSCREEN % 256
        else g.currentMapSpriteData a) ∧
      (∀ k, g.i ≤ k → k < c.MAP_MAX_SPRITES → doorAt c g.currentMapSpriteData k →
        (∀ k', k < k' → k' < c.MAP_MAX_SPRITES → ¬ doorAt c g.currentMapSpriteData k') →
        (warp_door_loop c fuel g).playerXPosition = slotX c g.currentMapSpriteData k ∧
        (warp_door_loop c fuel g).playerYPosition = slotY c g.currentMapSpriteData k) ∧
      ((∀ k, g.i ≤ k → k < c.MAP_MAX_SPRITES → ¬ doorAt c g.currentMapSpriteData k) →
        (warp_door_loop c fuel g).playerXPosition = g.playerXPosition ∧
        (warp_door_loop c fuel g).playerYPosition = g.playerYPosition) ∧
      (warp_door_loop c fuel g).currentMap = g.currentMap ∧
      (warp_door_loop c fuel g).assetTable = g.assetTable ∧
      (warp_door_loop c fuel g).mapScreenBuffer = g.mapScreenBuffer ∧
      (warp_door_loop c fuel g).flushed = g.flushed := by
  have hmax : c.MAP_MAX_SPRITES ≤ 16 := h.2.1
  have hb := h.bounds
  have stop : ∀ (g : Globals), g.i = c.MAP_MAX_SPRITES →
      (∀ a, g.currentMapSpriteData a =
        if g.i ≤ a / 16 ∧ a / 16 < c.MAP_MAX_SPRITES ∧ a % 16 = c.MAP_SPRITE_DATA_POS_TILE_ID ∧
            doorAt c g.currentMapSpriteData (a / 16) then c.SPRITE_TILE_ID_OFFSCREEN % 256
        else g.currentMapSpriteData a) ∧
      (∀ k, g.i ≤ k → k < c.MAP_MAX_SPRITES → doorAt c g.currentMapSpriteData k →
        (∀ k', k < k' → k' < c.MAP_MAX_SPRITES → ¬ doorAt c g.currentMapSpriteData k') →
        g.playerXPosition = slotX c g.currentMapSpriteData k ∧
        g.playerYPosition = slotY c g.currentMapSpriteData k) ∧
      ((∀ k, g.i ≤ k → k < c.MAP_MAX_SPRITES → ¬ doorAt c g.currentMapSpriteData k) →
        g.playerXPosition = g.playerXPosition ∧ g.playerYPosition = g.playerYPosition) ∧
      g.currentMap = g.currentMap ∧ g.assetTable = g.assetTable ∧
      g.mapScreenBuffer = g.mapScreenBuffer ∧ g.flushed = g.flushed := by
    intro g e
    refine ⟨fun a => ?_, fun k h1 h2 => ?_, fun _ => ⟨rfl, rfl⟩, rfl, rfl, rfl, rfl⟩
    · rw [if_neg (by omega)]
    · omega
  intro fuel
  induction fuel with
  | zero =>
    intro g h1 h2
    exact stop g (by omega)
  | succ fuel ih =>
    intro g h1 h2
    by_cases e : g.i = c.MAP_MAX_SPRITES
    · have hl : warp_door_loop c (fuel + 1) g = g := by
        rw [warp_door_loop, if_neg (by simpa using e)]
      rw [hl]
      exact stop g e
    · have hlt : g.i < c.MAP_MAX_SPRITES := by omega
      obtain ⟨sx, sy, sd, si⟩ := warp_door_step_spec c h g hlt
      obtain ⟨g', hg'⟩ : ∃ g' : Globals, g' = { warp_door_step c g with i := (g.i + 1) % 256 } :=
        ⟨_, rfl⟩
      have hl : warp_door_loop c (fuel + 1) g = warp_door_loop c fuel g' := by
        rw [warp_door_loop, if_pos e, hg']
      have hi' : g'.i = g.i + 1 := by
        rw [hg']
        show (g.i + 1) % 256 = g.i + 1
        omega
      have hd' : ∀ a, g'.currentMapSpriteData a =
          if a = 16 * g.i + c.MAP_SPRITE_DATA_POS_TILE_ID ∧ doorAt c g.currentMapSpriteData g.i then
            c.SPRITE_TILE_ID_OFFSCREEN % 256
          else g.currentMapSpriteData a := by
        rw [hg']
        exact sd
      have hx' : g'.playerXPosition = (warp_door_step c g).playerXPosition := by rw [hg']
      have hy' : g'.playerYPosition = (warp_door_step c g).playerYPosition := by rw [hg']
      have fm : g'.currentMap = g.currentMap := by
        rw [hg']; unfold warp_door_step; dsimp only; split <;> rfl
      have fa : g'.assetTable = g.assetTable := by
        rw [hg']; unfold warp_door_step; dsimp only; split <;> rfl
      have fb : g'.mapScreenBuffer = g.mapScreenBuffer := by
        rw [hg']; unfold warp_door_step; dsimp only; split <;> rfl
      have ff : g'.flushed = g.flushed := by
        rw [hg']; unfold warp_door_step; dsimp only; split <;> rfl
      clear hg'
      have keep := hide_keeps_doors c h g.currentMapSpriteData g'.currentMapSpriteData g.i
        (fun a ha => by rw [hd' a, if_neg (fun hc => ha hc.1)])
      obtain ⟨rd, rdoor, rnone, rm, ra, rb, rf⟩ := ih g' (by rw [hi']; omega) (by rw [hi']; omega)
      rw [hl]
      rw [hi'] at rd rdoor rnone
      refine ⟨fun a => ?_, fun k h3 h4 hdk hlast => ?_, fun hno => ?_, rm.trans fm, ra.trans fa,
        rb.trans fb, rf.trans ff⟩
      · rw [rd a, hd' a]
        simp only [(keep (a / 16)).1]
        by_cases hA : g.i + 1 ≤ a / 16 ∧ a / 16 < c.MAP_MAX_SPRITES ∧
            a % 16 = c.MAP_SPRITE_DATA_POS_TILE_ID ∧ doorAt c g.currentMapSpriteData (a / 16)
        · have hC : g.i ≤ a / 16 ∧ a / 16 < c.MAP_MAX_SPRITES ∧
              a % 16 = c.MAP_SPRITE_DATA_POS_TILE_ID ∧ doorAt c g.currentMapSpriteData (a / 16) :=
            ⟨by omega, hA.2.1, hA.2.2.1, hA.2.2.2⟩
          rw [if_pos hA, if_pos hC]
        · rw [if_neg hA]
          by_cases hB : a = 16 * g.i + c.MAP_SPRITE_DATA_POS_TILE_ID ∧
              doorAt c g.currentMapSpriteData g.i
          · have hq : a / 16 = g.i := by omega
            have hC : g.i ≤ a / 16 ∧ a / 16 < c.MAP_MAX_SPRITES ∧
                a % 16 = c.MAP_SPRITE_DATA_POS_TILE_ID ∧ doorAt c g.currentMapSpriteData (a / 16) :=
              ⟨by omega, by omega, by omega, by rw [hq]; exact hB.2⟩
            rw [if_pos hB, if_pos hC]
          · have hC : ¬ (g.i ≤ a / 16 ∧ a / 16 < c.MAP_MAX_SPRITES ∧
                a % 16 = c.MAP_SPRITE_DATA_POS_TILE_ID ∧ doorAt c g.currentMapSpriteData (a / 16)) := by
              intro hx
              by_cases hs : a / 16 = g.i
              · exact hB ⟨by omega, by rw [← hs]; exact hx.2.2.2⟩
              · exact hA ⟨by omega, hx.2.1, hx.2.2.1, hx.2.2.2⟩
            rw [if_neg hB, if_neg hC]
      · by_cases hs : k = g.i
        · have hno : ∀ k', g.i + 1 ≤ k' → k' < c.MAP_MAX_SPRITES →
              ¬ doorAt c g'.currentMapSpriteData k' :=
            fun k' a1 a2 a3 => hlast k' (by omega) a2 ((keep k').1.mp a3)
          obtain ⟨px, py⟩ := rnone hno
          rw [hs] at hdk
          rw [px, py, hs, hx', hy', sx, sy, if_pos hdk, if_pos hdk]
          exact ⟨rfl, rfl⟩
        · obtain ⟨px, py⟩ := rdoor k (by omega) h4 ((keep k).1.mpr hdk)
            (fun k' a1 a2 a3 => hlast k' a1 a2 ((keep k').1.mp a3))
          rw [px, py, (keep k).2.1, (keep k).2.2]
          exact ⟨rfl, rfl⟩
      · have hno' : ∀ k', g.i + 1 ≤ k' → k' < c.MAP_MAX_SPRITES →
            ¬ doorAt c g'.currentMapSpriteData k' :=
          fun k' a1 a2 a3 => hno k' (by omega) a2 ((keep k').1.mp a3)
        obtain ⟨px, py⟩ := rnone hno'
        rw [px, py, hx', hy', sx, sy, if_neg (hno g.i (Nat.le_refl _) hlt),
          if_neg (hno g.i (Nat.le_refl _) hlt)]
        exact ⟨rfl, rfl⟩

theorem load_sprite_frame (c : Consts) (g : Globals) :
    (load_sprite c g).gameState = g.gameState ∧
    (load_sprite c g).playerXPosition = g.playerXPosition ∧
    (load_sprite c g).playerYPosition = g.playerYPosition := by
  unfold load_sprite
  dsimp only
  split <;> exact ⟨rfl, rfl, rfl⟩

/-- The sprite loop leaves the game state and the player's position alone. -/
theorem load_sprites_loop_frame (c : Consts) :
    ∀ (fuel : Nat) (g : Globals),
      (load_sprites_loop c fuel g).gameState = g.gameState ∧
      (load_sprites_loop c fuel g).playerXPosition = g.playerXPosition ∧
      (load_sprites_loop c fuel g).playerYPosition = g.playerYPosition := by
  intro fuel
  induction fuel with
  | zero => intro g; exact ⟨rfl, rfl, rfl⟩
  | succ fuel ih =>
    intro g
    rw [load_sprites_loop]
    by_cases e : g.i ≠ c.MAP_MAX_SPRITES
    · rw [if_pos e]
      obtain ⟨a1, a2, a3⟩ := ih { load_sprite c g with i := (g.i + 1) % 256 }
      obtain ⟨b1, b2, b3⟩ := load_sprite_frame c g
      exact ⟨a1.trans b1, a2.trans b2, a3.trans b3⟩
    · rw [if_neg e]
      exact ⟨rfl, rfl, rfl⟩

/-- The full streamer leaves the sprite data and the player's position alone. -/
theorem draw_frame (c : Consts) (nt att rev : Nat) (g : Globals) :
    (draw_current_map_to_nametable c nt att rev g).currentMapSpriteData = g.currentMapSpriteData ∧
    (draw_current_map_to_nametable c nt att rev g).playerXPosition = g.playerXPosition ∧
    (draw_current_map_to_nametable c nt att rev g).playerYPosition = g.playerYPosition ∧
    (draw_current_map_to_nametable c nt att rev g).vramUpdate = false ∧
    (draw_current_map_to_nametable c nt att rev g).currentMap = g.currentMap := by
  rw [draw_current_map_to_nametable_eq]
  exact ⟨rfl, rfl, rfl, rfl, rfl⟩

/-- The repositioning step in a world transition, on any state: the player lands on the
last door slot, every door slot loses its tile id, nothing else in the sprite data changes,
and without a door the player stays. -/
theorem fade_reposition_spec (c : Consts) (h : SpriteLayout c)
    (hne : c.GAME_STATE_WORLD_TRANSITION ≠ c.GAME_STATE_SCREEN_SCROLL) (s : Globals)
    (hw : s.gameState = c.GAME_STATE_WORLD_TRANSITION) :
    (∀ k, k < c.MAP_MAX_SPRITES → doorAt c s.currentMapSpriteData k →
      (∀ k', k < k' → k' < c.MAP_MAX_SPRITES → ¬ doorAt c s.currentMapSpriteData k') →
      (fade_reposition c s).playerXPosition = slotX c s.currentMapSpriteData k ∧
      (fade_reposition c s).playerYPosition = slotY c s.currentMapSpriteData k) ∧
    ((∃ k, k < c.MAP_MAX_SPRITES ∧ doorAt c s.currentMapSpriteData k) →
      ∃ k, k < c.MAP_MAX_SPRITES ∧ doorAt c s.currentMapSpriteData k ∧
        (fade_reposition c s).playerXPosition = slotX c s.currentMapSpriteData k ∧
        (fade_reposition c s).playerYPosition = slotY c s.currentMapSpriteData k) ∧
    (∀ k, k < c.MAP_MAX_SPRITES → doorAt c s.currentMapSpriteData k →
      slotByte (fade_reposition c s).currentMapSpriteData k c.MAP_SPRITE_DATA_POS_TILE_ID =
        c.SPRITE_TILE_ID_OFFSCREEN % 256) ∧
    (∀ a, ¬ (a / 16 < c.MAP_MAX_SPRITES ∧ a % 16 = c.MAP_SPRITE_DATA_POS_TILE_ID ∧
        doorAt c s.currentMapSpriteData (a / 16)) →
      (fade_reposition c s).currentMapSpriteData a = s.currentMapSpriteData a) ∧
    ((∀ k, k < c.MAP_MAX_SPRITES → ¬ doorAt c s.currentMapSpriteData k) →
      (fade_reposition c s).playerXPosition = s.playerXPosition ∧
      (fade_reposition c s).playerYPosition = s.playerYPosition ∧
      (fade_reposition c s).currentMapSpriteData = s.currentMapSpriteData) := by
  have hb := h.bounds
  have hrep : fade_reposition c s = warp_door_loop c 256 { s with i := 0 } := by
    rw [fade_reposition, if_neg (by rw [hw]; exact hne), if_pos hw]
  obtain ⟨rd, rdoor, rnone, _⟩ := warp_door_loop_spec c h 256 { s with i := 0 } (Nat.zero_le _)
    (by have := h.2.1; simp only; omega)
  simp only [] at rd rdoor rnone
  rw [hrep]
  have last : ∀ k, k < c.MAP_MAX_SPRITES → doorAt c s.currentMapSpriteData k →
      (∀ k', k < k' → k' < c.MAP_MAX_SPRITES → ¬ doorAt c s.currentMapSpriteData k') →
      (warp_door_loop c 256 { s with i := 0 }).playerXPosition = slotX c s.currentMapSpriteData k ∧
      (warp_door_loop c 256 { s with i := 0 }).playerYPosition = slotY c s.currentMapSpriteData k :=
    fun k hk hd hl => rdoor k (Nat.zero_le _) hk hd hl
  refine ⟨last, ?_, ?_, ?_, ?_⟩
  · rintro ⟨k1, hk1, hd1⟩
    have hspec := Nat.findGreatest_spec
      (P := fun k => k < c.MAP_MAX_SPRITES ∧ doorAt c s.currentMapSpriteData k)
      (Nat.le_of_lt hk1) ⟨hk1, hd1⟩
    refine ⟨_, hspec.1, hspec.2, last _ hspec.1 hspec.2 ?_⟩
    intro k' h1 h2 h3
    exact Nat.findGreatest_is_greatest h1 (Nat.le_of_lt h2) ⟨h2, h3⟩
  · intro k hk hd
    unfold slotByte
    have hq : (16 * k + c.MAP_SPRITE_DATA_POS_TILE_ID) / 16 = k := by omega
    have hr : (16 * k + c.MAP_SPRITE_DATA_POS_TILE_ID) % 16 = c.MAP_SPRITE_DATA_POS_TILE_ID := by
      omega
    rw [rd, if_pos ⟨Nat.zero_le _, by rw [hq]; exact hk, hr, by rw [hq]; exact hd⟩]
  · intro a ha
    rw [rd, if_neg (fun hx => ha hx.2)]
  · intro hno
    obtain ⟨px, py⟩ := rnone (fun k _ hk => hno k hk)
    refine ⟨px, py, ?_⟩
    funext a
    rw [rd, if_neg (fun hx => hno _ hx.2.1 hx.2.2.2)]

/-- The state before the repositioning step of `do_fade_screen_transition`, and the fields
the final redraw passes on. -/
theorem fade_fields (c : Consts) (newMap : ByteTable) (g : Globals) :
    (clear_asset_table 1 (load_sprites c (load_map newMap g))).gameState = g.gameState ∧
    (clear_asset_table 1 (load_sprites c (load_map newMap g))).playerXPosition = g.playerXPosition ∧
    (clear_asset_table 1 (load_sprites c (load_map newMap g))).playerYPosition = g.playerYPosition ∧
    (clear_asset_table 1 (load_sprites c (load_map newMap g))).currentMapSpriteData =
      (load_sprites c (load_map newMap g)).currentMapSpriteData ∧
    (do_fade_screen_transition c newMap g).currentMapSpriteData =
      (fade_reposition c (clear_asset_table 1
        (load_sprites c (load_map newMap g)))).currentMapSpriteData ∧
    (do_fade_screen_transition c newMap g).playerXPosition =
      (fade_reposition c (clear_asset_table 1
        (load_sprites c (load_map newMap g)))).playerXPosition ∧
    (do_fade_screen_transition c newMap g).playerYPosition =
      (fade_reposition c (clear_asset_table 1
        (load_sprites c (load_map newMap g)))).playerYPosition := by
  obtain ⟨l1, l2, l3⟩ := load_sprites_loop_frame c 256 { load_map newMap g with i := 0 }
  obtain ⟨d1, d2, d3, _, _⟩ := draw_frame c c.NAMETABLE_A c.NAMETABLE_A_ATTRS 0
    (fade_reposition c (clear_asset_table 1 (load_sprites c (load_map newMap g))))
  refine ⟨?_, ?_, ?_, ?_, ?_, ?_, ?_⟩
  · rw [clear_asset_table_eq]
    exact l1
  · rw [clear_asset_table_eq]
    exact l2
  · rw [clear_asset_table_eq]
    exact l3
  · rw [clear_asset_table_eq]
  · unfold do_fade_screen_transition
    dsimp only
    exact d1
  · unfold do_fade_screen_transition
    dsimp only
    exact d2
  · unfold do_fade_screen_transition
    dsimp only
    exact d3

/-- The position `load_sprites` stores for a populated slot, read back as the warp-door loop
reads it. -/
theorem load_sprites_slot_position (c : Consts) (h : SpriteLayout c) (hv : PositionFits c)
    (g : Globals) (k : Nat) (hk : k < c.MAP_MAX_SPRITES)
    (hpos : recordPosition c g.currentMap k ≠ 255) (hbit : persistenceBit c g k = 0) :
    slotX c (load_sprites c g).currentMapSpriteData k =
      (recordPosition c g.currentMap k &&& 0x0F) <<< 8 ∧
    slotY c (load_sprites c g).currentMapSpriteData k =
      ((recordPosition c g.currentMap k &&& 0xF0) <<< 4) + verticalOffset c := by
  obtain ⟨a1, a2, a3, a4, _⟩ := load_sprites_active_data c h g k hk hpos hbit
  have hb := nibble_bounds (recordPosition c g.currentMap k)
  have hfit := hv.2
  have hx : (recordPosition c g.currentMap k &&& 0x0f) <<< 8 < 65536 := by omega
  have hy : ((recordPosition c g.currentMap k &&& 0xf0) <<< 4) + verticalOffset c < 65536 := by
    omega
  have ex := le16_decode (((recordPosition c g.currentMap k &&& 0x0f) <<< 8) % 65536)
    (Nat.mod_lt _ (by decide))
  have ey := le16_decode ((((recordPosition c g.currentMap k &&& 0xf0) <<< 4) + verticalOffset c) % 65536)
    (Nat.mod_lt _ (by decide))
  rw [Nat.mod_eq_of_lt hx] at ex a1 a2
  rw [Nat.mod_eq_of_lt hy] at ey a3 a4
  have hshift : ∀ t : Nat, t <<< 8 = 256 * t := by
    intro t
    rw [Nat.shiftLeft_eq]
    omega
  unfold slotX slotY
  rw [a1, a2, a3, a4, hshift (((recordPosition c g.currentMap k &&& 0x0f) <<< 8 >>> 8) % 256),
    hshift ((((recordPosition c g.currentMap k &&& 0xf0) <<< 4 + verticalOffset c) >>> 8) % 256),
    ex, ey, Nat.mod_eq_of_lt hx, Nat.mod_eq_of_lt hy]
  exact ⟨rfl, rfl⟩

/-- C14: in `do_fade_screen_transition` entered with `gameState` at the world-transition
value (which differs from the screen-scroll value): the player's position becomes the
position stored, low byte first, in the highest-indexed slot whose type after `load_sprites`
is `SPRITE_TYPE_WARP_DOOR`, so that with at least one such slot the player stands on one of
them; the tile id of every such slot becomes `SPRITE_TILE_ID_OFFSCREEN` and no other byte of
the sprite data changes; without such a slot the player's position and the sprite data stay
as `load_sprites` left them.  For a populated slot the position read back is the one
`load_sprites` decoded from the slot's position byte. -/
theorem fade_places_player_on_door (c : Consts) (h : SpriteLayout c)
    (hne : c.GAME_STATE_WORLD_TRANSITION ≠ c.GAME_STATE_SCREEN_SCROLL) (newMap : ByteTable)
    (g : Globals) (hw : g.gameState = c.GAME_STATE_WORLD_TRANSITION) :
    (∀ k, k < c.MAP_MAX_SPRITES →
      doorAt c (load_sprites c (load_map newMap g)).currentMapSpriteData k →
      (∀ k', k < k' → k' < c.MAP_MAX_SPRITES →
        ¬ doorAt c (load_sprites c (load_map newMap g)).currentMapSpriteData k') →
      (do_fade_screen_transition c newMap g).playerXPosition =
        slotX c (load_sprites c (load_map newMap g)).currentMapSpriteData k ∧
      (do_fade_screen_transition c newMap g).playerYPosition =
        slotY c (load_sprites c (load_map newMap g)).currentMapSpriteData k) ∧
    ((∃ k, k < c.MAP_MAX_SPRITES ∧
        doorAt c (load_sprites c (load_map newMap g)).currentMapSpriteData k) →
      ∃ k, k < c.MAP_MAX_SPRITES ∧
        doorAt c (load_sprites c (load_map newMap g)).currentMapSpriteData k ∧
        (do_fade_screen_transition c newMap g).playerXPosition =
          slotX c (load_sprites c (load_map newMap g)).currentMapSpriteData k ∧
        (do_fade_screen_transition c newMap g).playerYPosition =
          slotY c (load_sprites c (load_map newMap g)).currentMapSpriteData k) ∧
    (∀ k, k < c.MAP_MAX_SPRITES →
      doorAt c (load_sprites c (load_map newMap g)).currentMapSpriteData k →
      slotByte (do_fade_screen_transition c newMap g).currentMapSpriteData k
        c.MAP_SPRITE_DATA_POS_TILE_ID = c.SPRITE_TILE_ID_OFFSCREEN % 256) ∧
    (∀ a, ¬ (a / 16 < c.MAP_MAX_SPRITES ∧ a % 16 = c.MAP_SPRITE_DATA_POS_TILE_ID ∧
        doorAt c (load_sprites c (load_map newMap g)).currentMapSpriteData (a / 16)) →
      (do_fade_screen_transition c newMap g).currentMapSpriteData a =
        (load_sprites c (load_map newMap g)).currentMapSpriteData a) ∧
    ((∀ k, k < c.MAP_MAX_SPRITES →
        ¬ doorAt c (load_sprites c (load_map newMap g)).currentMapSpriteData k) →
      (do_fade_screen_transition c newMap g).playerXPosition = g.playerXPosition ∧
      (do_fade_screen_transition c newMap g).playerYPosition = g.playerYPosition ∧
      (do_fade_screen_transition c newMap g).currentMapSpriteData =
        (load_sprites c (load_map newMap g)).currentMapSpriteData) ∧
    (PositionFits c → ∀ k, k < c.MAP_MAX_SPRITES → recordPosition c newMap k ≠ 255 →
      persistenceBit c g k = 0 →
      slotX c (load_sprites c (load_map newMap g)).currentMapSpriteData k =
        (recordPosition c newMap k &&& 0x0F) <<< 8 ∧
      slotY c (load_sprites c (load_map newMap g)).currentMapSpriteData k =
        ((recordPosition c newMap k &&& 0xF0) <<< 4) + verticalOffset c) := by
  obtain ⟨e1, e2, e3, e4, f1, f2, f3⟩ := fade_fields c newMap g
  have key := fade_reposition_spec c h hne
    (clear_asset_table 1 (load_sprites c (load_map newMap g))) (e1.trans hw)
  rw [← f1, ← f2, ← f3, e2, e3, e4] at key
  obtain ⟨k1, k2, k3, k4, k5⟩ := key
  exact ⟨k1, k2, k3, k4, k5, fun hv k hk hpos hbit =>
    load_sprites_slot_position c h hv (load_map newMap g) k hk hpos hbit⟩

theorem fade_places_player_on_door_witness :
    SpriteLayout doorKit ∧ doorKit.GAME_STATE_WORLD_TRANSITION ≠ doorKit.GAME_STATE_SCREEN_SCROLL ∧
    sampleDoorGlobals.gameState = doorKit.GAME_STATE_WORLD_TRANSITION ∧
    slotX doorKit (load_sprites doorKit (load_map sampleSpriteMap sampleDoorGlobals)).currentMapSpriteData 2 =
      (recordPosition doorKit sampleSpriteMap 2 &&& 0x0F) <<< 8 :=
  ⟨by decide, by decide, rfl,
    ((fade_places_player_on_door doorKit (by decide) (by decide) sampleSpriteMap sampleDoorGlobals
      rfl).2.2.2.2.2 (by decide) 2 (by decide) (by decide) (by decide)).1⟩

theorem ppu_wait_nmi_frame (g : Globals) :
    (ppu_wait_nmi g).i = g.i ∧ (ppu_wait_nmi g).playerXPosition = g.playerXPosition ∧
    (ppu_wait_nmi g).playerDirection = g.playerDirection ∧
    (ppu_wait_nmi g).xScrollPosition = g.xScrollPosition ∧
    (ppu_wait_nmi g).vramUpdate = g.vramUpdate ∧ (ppu_wait_nmi g).currentMap = g.currentMap := by
  unfold ppu_wait_nmi
  split <;> exact ⟨rfl, rfl, rfl, rfl, rfl, rfl⟩

/-- One turn of the right loop: the counter moves on by the increment, the player's X
position goes down by the shifted increment, modulo 2^16. -/
theorem scroll_right_turn_spec (c : Consts) (g : Globals) :
    (scroll_right_turn c g).i = (g.i + c.SCREEN_SCROLL_LOOP_INCREMENT) % 256 ∧
    (scroll_right_turn c g).playerXPosition =
      (g.playerXPosition + 65536 -
        (c.SCREEN_SCROLL_LOOP_INCREMENT <<< c.PLAYER_POSITION_SHIFT) % 65536) % 65536 := by
  unfold scroll_right_turn
  dsimp only
  split
  · exact ⟨congrArg (fun t => (t + c.SCREEN_SCROLL_LOOP_INCREMENT) % 256) (ppu_wait_nmi_frame _).1,
      (ppu_wait_nmi_frame _).2.1⟩
  · exact ⟨rfl, rfl⟩

/-- The loop counter after `n` turns of the right loop entered with `i = 0`. -/
theorem scrollRightTurns_i (c : Consts) (g : Globals) (hi : g.i = 0) :
    ∀ n, n * c.SCREEN_SCROLL_LOOP_INCREMENT < 256 →
      (scrollRightTurns c n g).i = n * c.SCREEN_SCROLL_LOOP_INCREMENT := by
  intro n
  induction n with
  | zero => intro _; rw [scrollRightTurns, hi]; omega
  | succ n ih =>
    intro hn
    have e : (n + 1) * c.SCREEN_SCROLL_LOOP_INCREMENT =
        n * c.SCREEN_SCROLL_LOOP_INCREMENT + c.SCREEN_SCROLL_LOOP_INCREMENT := Nat.succ_mul _ _
    rw [scrollRightTurns, (scroll_right_turn_spec c _).1, ih (by omega), e]
    omega

/-- With an increment of 1 or 2 the right loop ends, after `254 / increment` turns. -/
theorem scroll_right_loop_spec (c : Consts)
    (hI : c.SCREEN_SCROLL_LOOP_INCREMENT = 1 ∨ c.SCREEN_SCROLL_LOOP_INCREMENT = 2) (g : Globals)
    (hi : g.i = 0) :
    ∀ (fuel n : Nat), n ≤ 254 / c.SCREEN_SCROLL_LOOP_INCREMENT →
      254 / c.SCREEN_SCROLL_LOOP_INCREMENT - n < fuel →
      scroll_right_loop c fuel (scrollRightTurns c n g) =
        some (scrollRightTurns c (254 / c.SCREEN_SCROLL_LOOP_INCREMENT) g) := by
  intro fuel
  induction fuel with
  | zero => intro n _ hf; omega
  | succ fuel ih =>
    intro n hn hf
    have hN : 254 / c.SCREEN_SCROLL_LOOP_INCREMENT * c.SCREEN_SCROLL_LOOP_INCREMENT = 254 := by
      rcases hI with e | e <;> rw [e]
    have hle : n * c.SCREEN_SCROLL_LOOP_INCREMENT ≤
        254 / c.SCREEN_SCROLL_LOOP_INCREMENT * c.SCREEN_SCROLL_LOOP_INCREMENT :=
      Nat.mul_le_mul_right _ hn
    have hin := scrollRightTurns_i c g hi n (by omega)
    rw [scroll_right_loop]
    by_cases e : n = 254 / c.SCREEN_SCROLL_LOOP_INCREMENT
    · rw [if_neg (by rw [hin, e, hN]; simp), e]
    · have hne : n * c.SCREEN_SCROLL_LOOP_INCREMENT ≠ 254 := by
        rcases hI with e1 | e1 <;> rw [e1] at e ⊢ <;> omega
      rw [if_pos (by rw [hin]; exact hne)]
      exact ih (n + 1) (by omega) (by omega)

/-- The player's X position along the right loop, read as a signed `int`: from 120 it goes
down by the shifted increment in every turn, without wrapping. -/
theorem scrollRightTurns_x (c : Consts)
    (hI : c.SCREEN_SCROLL_LOOP_INCREMENT = 1 ∨ c.SCREEN_SCROLL_LOOP_INCREMENT = 2)
    (hS : c.PLAYER_POSITION_SHIFT ≤ 7) (g : Globals) (hx : g.playerXPosition = 120) :
    ∀ n, n ≤ 254 / c.SCREEN_SCROLL_LOOP_INCREMENT →
      (scrollRightTurns c n g).playerXPosition < 65536 ∧
      toInt16 (scrollRightTurns c n g).playerXPosition =
        120 - ((n * (c.SCREEN_SCROLL_LOOP_INCREMENT <<< c.PLAYER_POSITION_SHIFT) : Nat) : Int) := by
  have hP : 2 ^ c.PLAYER_POSITION_SHIFT ≤ 2 ^ 7 := Nat.pow_le_pow_right (by decide) hS
  have hstep : 254 / c.SCREEN_SCROLL_LOOP_INCREMENT *
      (c.SCREEN_SCROLL_LOOP_INCREMENT <<< c.PLAYER_POSITION_SHIFT) ≤ 32512 := by
    rw [Nat.shiftLeft_eq]
    rcases hI with e | e <;> rw [e] <;> omega
  intro n
  induction n with
  | zero =>
    intro _
    rw [scrollRightTurns, hx, Nat.zero_mul]
    exact ⟨by decide, by decide⟩
  | succ n ih =>
    intro hn
    obtain ⟨h1, h2⟩ := ih (by omega)
    have hmul : (n + 1) * (c.SCREEN_SCROLL_LOOP_INCREMENT <<< c.PLAYER_POSITION_SHIFT) ≤
        254 / c.SCREEN_SCROLL_LOOP_INCREMENT *
          (c.SCREEN_SCROLL_LOOP_INCREMENT <<< c.PLAYER_POSITION_SHIFT) :=
      Nat.mul_le_mul_right _ hn
    have e : (n + 1) * (c.SCREEN_SCROLL_LOOP_INCREMENT <<< c.PLAYER_POSITION_SHIFT) =
        n * (c.SCREEN_SCROLL_LOOP_INCREMENT <<< c.PLAYER_POSITION_SHIFT) +
          c.SCREEN_SCROLL_LOOP_INCREMENT <<< c.PLAYER_POSITION_SHIFT := Nat.succ_mul _ _
    rw [scrollRightTurns, (scroll_right_turn_spec c _).2, e]
    rw [e] at hmul
    unfold toInt16 at h2 ⊢
    refine ⟨Nat.mod_lt _ (by decide), ?_⟩
    split_ifs at h2 ⊢ <;> omega

/-- The state in which the side branches enter their loop. -/
theorem scroll_side_entry_spec (c : Consts) (newMap : ByteTable) (g : Globals) :
    (scroll_side_entry c newMap g).i = 0 ∧
    (scroll_side_entry c newMap g).playerXPosition = g.playerXPosition := by
  obtain ⟨_, d2, _⟩ := draw_frame c c.NAMETABLE_B c.NAMETABLE_B_ATTRS 0
    (clear_asset_table 1 (load_map newMap g))
  unfold scroll_side_entry
  dsimp only
  refine ⟨rfl, ?_⟩
  rw [d2, clear_asset_table_eq]
  rfl

/-- The end of the transition: the split position and the game state are reset, the player
stays where the branch left them. -/
theorem scroll_epilogue_spec (c : Consts) (b : Globals) :
    (scroll_epilogue c b).xScrollPosition = -1 ∧
    (scroll_epilogue c b).gameState = c.GAME_STATE_RUNNING ∧
    (scroll_epilogue c b).playerXPosition = b.playerXPosition := by
  obtain ⟨_, d2, _⟩ := draw_frame c c.NAMETABLE_A c.NAMETABLE_A_ATTRS 0 (clear_asset_table 1 b)
  unfold scroll_epilogue
  dsimp only
  refine ⟨rfl, rfl, ?_⟩
  rw [d2, clear_asset_table_eq]

/-- The right branch in closed form: the loop ends, the branch parks the split position at
256, and the function then runs the epilogue on that state. -/
theorem scroll_right_eq (c : Consts)
    (hI : c.SCREEN_SCROLL_LOOP_INCREMENT = 1 ∨ c.SCREEN_SCROLL_LOOP_INCREMENT = 2)
    (newMap : ByteTable) (g : Globals) (hd : g.playerDirection = c.SPRITE_DIRECTION_RIGHT)
    (fuel : Nat) (hf : 254 / c.SCREEN_SCROLL_LOOP_INCREMENT < fuel) :
    scroll_right_loop c fuel
        (scroll_side_entry c newMap (ppu_wait_nmi { g with xScrollPosition := -1 })) =
      some (scrollRightTurns c (254 / c.SCREEN_SCROLL_LOOP_INCREMENT)
        (scroll_side_entry c newMap (ppu_wait_nmi { g with xScrollPosition := -1 }))) ∧
    ∃ b, scroll_branch c newMap fuel g = some b ∧ b.xScrollPosition = 256 ∧
      b.playerXPosition = (scrollRightTurns c (254 / c.SCREEN_SCROLL_LOOP_INCREMENT)
        (scroll_side_entry c newMap (ppu_wait_nmi { g with xScrollPosition := -1 }))).playerXPosition ∧
      do_scroll_screen_transition c newMap fuel g = some (scroll_epilogue c b) := by
  have hloop := scroll_right_loop_spec c hI
    (scroll_side_entry c newMap (ppu_wait_nmi { g with xScrollPosition := -1 }))
    (scroll_side_entry_spec c newMap _).1 fuel 0 (Nat.zero_le _) (by rw [Nat.sub_zero]; exact hf)
  rw [scrollRightTurns] at hloop
  have hdir : (ppu_wait_nmi { g with xScrollPosition := -1 }).playerDirection =
      c.SPRITE_DIRECTION_RIGHT := (ppu_wait_nmi_frame _).2.2.1.trans hd
  have hbr : scroll_branch c newMap fuel g =
      (scroll_right_loop c fuel
        (scroll_side_entry c newMap (ppu_wait_nmi { g with xScrollPosition := -1 }))).map
        (fun s => { s with xScrollPosition := 256 }) := by
    unfold scroll_branch
    dsimp only
    rw [if_pos hdir]
  refine ⟨hloop, ?_⟩
  rw [hloop] at hbr
  refine ⟨_, hbr, rfl, rfl, ?_⟩
  unfold do_scroll_screen_transition
  rw [hbr]
  rfl

/-- C13, the claim as worded fails: a transition to the right started with the player at
x = 120 returns, but with `xScrollPosition` at -1, not at 256. -/
theorem scroll_right_returns_reset :
    sampleScrollGlobals.playerDirection = kit.SPRITE_DIRECTION_RIGHT ∧
    sampleScrollGlobals.playerXPosition = 120 ∧
    ∃ s, do_scroll_screen_transition kit sampleTileMap 128 sampleScrollGlobals = some s ∧
      s.xScrollPosition = -1 ∧ s.xScrollPosition ≠ 256 := by
  obtain ⟨_, b, _, _, _, hr⟩ := scroll_right_eq kit (Or.inr rfl) sampleTileMap sampleScrollGlobals
    rfl 128 (by decide)
  have hx := (scroll_epilogue_spec kit b).1
  refine ⟨rfl, rfl, _, hr, hx, ?_⟩
  rw [hx]
  decide

/-- C13, amended: with a loop increment of 1 or 2 and a position shift of at most 7, a
transition to the right started with the player's X position at 120 runs its loop for
`254 / increment` turns; the branch ends with `xScrollPosition` at 256, and the function
returns, after the final redraw, with `xScrollPosition` reset to -1 and the game state
running.  In every turn of the loop the player's X position, read as a signed `int`, goes
down by exactly `SCREEN_SCROLL_LOOP_INCREMENT << PLAYER_POSITION_SHIFT`, without wrapping. -/
theorem scroll_right_parks_then_resets (c : Consts)
    (hI : c.SCREEN_SCROLL_LOOP_INCREMENT = 1 ∨ c.SCREEN_SCROLL_LOOP_INCREMENT = 2)
    (hS : c.PLAYER_POSITION_SHIFT ≤ 7) (newMap : ByteTable) (g : Globals)
    (hd : g.playerDirection = c.SPRITE_DIRECTION_RIGHT) (hx : g.playerXPosition = 120)
    (fuel : Nat) (hf : 254 / c.SCREEN_SCROLL_LOOP_INCREMENT < fuel) :
    (∃ b, scroll_branch c newMap fuel g = some b ∧ b.xScrollPosition = 256 ∧
      b.playerXPosition = (scrollRightTurns c (254 / c.SCREEN_SCROLL_LOOP_INCREMENT)
        (scroll_side_entry c newMap (ppu_wait_nmi { g with xScrollPosition := -1 }))).playerXPosition ∧
      do_scroll_screen_transition c newMap fuel g = some (scroll_epilogue c b) ∧
      (scroll_epilogue c b).xScrollPosition = -1 ∧
      (scroll_epilogue c b).gameState = c.GAME_STATE_RUNNING ∧
      (scroll_epilogue c b).playerXPosition = b.playerXPosition) ∧
    scroll_right_loop c fuel
        (scroll_side_entry c newMap (ppu_wait_nmi { g with xScrollPosition := -1 })) =
      some (scrollRightTurns c (254 / c.SCREEN_SCROLL_LOOP_INCREMENT)
        (scroll_side_entry c newMap (ppu_wait_nmi { g with xScrollPosition := -1 }))) ∧
    (∀ n, n < 254 / c.SCREEN_SCROLL_LOOP_INCREMENT →
      toInt16 (scrollRightTurns c (n + 1)
        (scroll_side_entry c newMap (ppu_wait_nmi { g with xScrollPosition := -1 }))).playerXPosition =
      toInt16 (scrollRightTurns c n
        (scroll_side_entry c newMap (ppu_wait_nmi { g with xScrollPosition := -1 }))).playerXPosition -
        ((c.SCREEN_SCROLL_LOOP_INCREMENT <<< c.PLAYER_POSITION_SHIFT : Nat) : Int)) ∧
    (∀ n, n ≤ 254 / c.SCREEN_SCROLL_LOOP_INCREMENT →
      toInt16 (scrollRightTurns c n
        (scroll_side_entry c newMap (ppu_wait_nmi { g with xScrollPosition := -1 }))).playerXPosition =
      120 - ((n * (c.SCREEN_SCROLL_LOOP_INCREMENT <<< c.PLAYER_POSITION_SHIFT) : Nat) : Int)) := by
  obtain ⟨hloop, b, hb, b256, bx, hr⟩ := scroll_right_eq c hI newMap g hd fuel hf
  obtain ⟨e1, e2, e3⟩ := scroll_epilogue_spec c b
  have hx0 : (scroll_side_entry c newMap (ppu_wait_nmi { g with xScrollPosition := -1 })).playerXPosition =
      120 := by
    rw [(scroll_side_entry_spec c newMap _).2, (ppu_wait_nmi_frame _).2.1]
    exact hx
  have tr := scrollRightTurns_x c hI hS _ hx0
  refine ⟨⟨b, hb, b256, bx, hr, e1, e2, e3⟩, hloop, ?_, fun n hn => (tr n hn).2⟩
  intro n hn
  rw [(tr (n + 1) (by omega)).2, (tr n (by omega)).2, Nat.succ_mul]
  push_cast
  omega

theorem scroll_right_parks_then_resets_witness :
    (kit.SCREEN_SCROLL_LOOP_INCREMENT = 1 ∨ kit.SCREEN_SCROLL_LOOP_INCREMENT = 2) ∧
    kit.PLAYER_POSITION_SHIFT ≤ 7 ∧
    sampleScrollGlobals.playerDirection = kit.SPRITE_DIRECTION_RIGHT ∧
    sampleScrollGlobals.playerXPosition = 120 ∧ 254 / kit.SCREEN_SCROLL_LOOP_INCREMENT < 128 ∧
    toInt16 (scrollRightTurns kit 127
      (scroll_side_entry kit sampleTileMap
        (ppu_wait_nmi { sampleScrollGlobals with xScrollPosition := -1 }))).playerXPosition =
      120 - ((127 * (kit.SCREEN_SCROLL_LOOP_INCREMENT <<< kit.PLAYER_POSITION_SHIFT) : Nat) : Int) :=
  ⟨Or.inr rfl, by decide, rfl, rfl, by decide,
    (scroll_right_parks_then_resets kit (Or.inr rfl) (by decide) sampleTileMap sampleScrollGlobals
      rfl rfl 128 (by decide)).2.2.2 127 (by decide)⟩

theorem rowAfterAny_zero (c : Consts) (nt att oli : Nat) (g : Globals) (hb : g.bufferIndex = 0) :
    rowAfterAny c nt att oli 0 g = g := by
  apply Globals.ext <;> simp [rowAfterAny, rowAfter, jAfter, valueAfter, locationAfter, assetAfter,
    rowBufferAfter, rowFlushedAny, hb]

set_option maxHeartbeats 4000000 in
/-- One turn of the row loop, for any entry state. -/
theorem row_tile_step_any (c : Consts) (nt att oli n : Nat) (g : Globals) (hn : n < 32)
    (hi : g.i % 32 = 0) (hi2 : g.i + 32 < 256) :
    row_tile c nt att oli (rowAfterAny c nt att oli n g) = rowAfterAny c nt att oli (n + 1) g := by
  have hmod : (g.i + n + 1) % 256 = g.i + (n + 1) := by omega
  have hloc : (nt + ((g.i + n) / 16) <<< 6 + ((g.i + n) % 16) <<< 1) % 65536 =
      (nt + 64 * (g.i / 16) + (n / 16) <<< 6 + (n % 16) <<< 1) % 65536 := by
    simp only [Nat.shiftLeft_eq]
    congr 1
    omega
  have hsj := nextJ_shift g.i n (jAfter 0 n g.j) hi
  have hsp := paletteBits_shift g.i n (g.currentMap (g.i + n)).val hi
  by_cases hf : (n % 16 + 1) % 256 = 16
  · have h0 : ¬ n % 16 = 0 := by omega
    have h8 : ¬ (n % 16 + 1) % 256 = 8 := by omega
    have h1 : (n + 1) % 16 = 0 := by omega
    have h2 : ¬ n + 1 < 16 := by omega
    have h3 : (n + 1 + 8) / 16 = (n + 8) / 16 := by omega
    have h4 : (8 ≤ n + 1) = (8 ≤ n) := by
      apply propext; constructor <;> intro h <;> omega
    apply Globals.ext <;>
      simp [rowAfterAny, rowAfter, row_tile, jAfter, valueAfter, locationAfter, assetAfter,
        rowBufferAfter, rowFlushedAny, set_vram_update, ppu_wait_nmi, shiftMap, hf, h0, h1, h2,
        h3, h4, h8, hmod, hsj, hsp]
  · by_cases h8 : (n % 16 + 1) % 256 = 8
    · have h1 : (n + 1) % 16 = 8 := by omega
      have h2 : (n + 1 < 16) = (n < 16) := by
        apply propext; constructor <;> intro h <;> omega
      have h4 : 8 ≤ n + 1 := by omega
      have h6 : n % 16 ≠ 0 := by omega
      have hq : n = 7 ∨ n = 23 := by omega
      have h7 : ((if 8 ≤ n then (g.otherLoopIndex + (n + 8) / 16 * oli) % 256
          else g.otherLoopIndex) + oli) % 256 =
          (g.otherLoopIndex + (n + 1 + 8) / 16 * oli) % 256 := by
        rcases hq with rfl | rfl
        · simp
        · simp
          omega
      by_cases hn7 : n = 7
      · have k1 : (n = 7) = True := eq_true hn7
        have k2 : (n < 16) = True := eq_true (by omega)
        by_cases hx : g.xScrollPosition = -1
        · by_cases hv : g.vramUpdate = true
          · apply Globals.ext <;>
              simp [rowAfterAny, rowAfter, row_tile, jAfter, valueAfter, locationAfter, assetAfter,
                rowBufferAfter, rowFlushedAny, ppu_wait_nmi, shiftMap, hf, h1, h2, h4, h6, h8,
                hmod, hsj, hsp, hloc, hx, hv, k1, k2]
          · have hv' : g.vramUpdate = false := by simpa using hv
            apply Globals.ext <;>
              simp [rowAfterAny, rowAfter, row_tile, jAfter, valueAfter, locationAfter, assetAfter,
                rowBufferAfter, rowFlushedAny, ppu_wait_nmi, shiftMap, hf, h1, h2, h4, h6, h8,
                hmod, hsj, hsp, hloc, hx, hv', k1, k2]
        · by_cases hv : g.vramUpdate = true
          · apply Globals.ext <;>
              simp [rowAfterAny, rowAfter, row_tile, jAfter, valueAfter, locationAfter, assetAfter,
                rowBufferAfter, rowFlushedAny, ppu_wait_nmi, shiftMap, hf, h1, h2, h4, h6, h7, h8,
                hmod, hsj, hsp, hloc, hx, hv, k1, k2]
          · have hv' : g.vramUpdate = false := by simpa using hv
            apply Globals.ext <;>
              simp [rowAfterAny, rowAfter, row_tile, jAfter, valueAfter, locationAfter, assetAfter,
                rowBufferAfter, rowFlushedAny, ppu_wait_nmi, shiftMap, hf, h1, h2, h4, h6, h7, h8,
                hmod, hsj, hsp, hloc, hx, hv', k1, k2]
      · have k1 : (n = 7) = False := eq_false hn7
        have k2 : (n < 16) = False := eq_false (by omega)
        by_cases hx : g.xScrollPosition = -1
        · apply Globals.ext <;>
            simp [rowAfterAny, rowAfter, row_tile, jAfter, valueAfter, locationAfter, assetAfter,
              rowBufferAfter, rowFlushedAny, ppu_wait_nmi, shiftMap, hf, h1, h2, h4, h6, h8,
              hmod, hsj, hsp, hloc, hx, k1, k2]
        · apply Globals.ext <;>
            simp [rowAfterAny, rowAfter, row_tile, jAfter, valueAfter, locationAfter, assetAfter,
              rowBufferAfter, rowFlushedAny, ppu_wait_nmi, shiftMap, hf, h1, h2, h4, h6, h7, h8,
              hmod, hsj, hsp, hloc, hx, k1, k2]
    · have h1 : (n + 1) % 16 = (n % 16 + 1) % 256 := by omega
      have h2 : (n + 1 < 16) = (n < 16) := by
        apply propext; constructor <;> intro h <;> omega
      have h3 : (n + 1 + 8) / 16 = (n + 8) / 16 := by omega
      have h4 : (8 ≤ n + 1) = (8 ≤ n) := by
        apply propext; constructor <;> intro h <;> omega
      have h9 : n ≠ 7 := by omega
      apply Globals.ext <;>
        simp [rowAfterAny, rowAfter, row_tile, jAfter, valueAfter, locationAfter, assetAfter,
          rowBufferAfter, rowFlushedAny, shiftMap, hf, h1, h2, h3, h4, h8, h9, hmod, hsj, hsp, hloc]

/-- The row loop started after `n < 32` turns runs on to the end of the row pair, for any
entry state. -/
theorem draw_individual_row_loop_any (c : Consts) (nt att oli : Nat) (g : Globals)
    (hi : g.i % 32 = 0) (hi2 : g.i + 32 < 256) :
    ∀ (fuel n : Nat), n < 32 → 32 - n ≤ fuel →
      draw_individual_row_loop c nt att oli fuel (rowAfterAny c nt att oli n g) =
        rowAfterAny c nt att oli 32 g := by
  intro fuel
  induction fuel with
  | zero => intro n hn hf; omega
  | succ f ih =>
    intro n hn hf
    rw [draw_individual_row_loop, row_tile_step_any c nt att oli n g hn hi hi2]
    have e : (rowAfterAny c nt att oli (n + 1) g).i = g.i + (n + 1) := rfl
    rw [e]
    by_cases h : n + 1 = 32
    · rw [if_pos (by omega), h]
    · rw [if_neg (by omega)]
      exact ih (n + 1) (by omega) (by omega)

/-- A call of the row streamer in closed form, for any entry state at a row pair. -/
theorem draw_individual_row_any_eq (c : Consts) (nt att oli : Nat) (g : Globals)
    (hi : g.i % 32 = 0) (hi2 : g.i + 32 < 256) (hb : g.bufferIndex = 0) :
    draw_individual_row c nt att oli g = rowAfterAny c nt att oli 32 g := by
  have h := draw_individual_row_loop_any c nt att oli g hi hi2 256 0 (by omega) (by omega)
  rw [rowAfterAny_zero c nt att oli g hb] at h
  exact h

/-- The first `n ≤ 32` turns of a call in closed form, for any entry state. -/
theorem rowTurns_any_eq (c : Consts) (nt att oli : Nat) (g : Globals)
    (hi : g.i % 32 = 0) (hi2 : g.i + 32 < 256) (hb : g.bufferIndex = 0) :
    ∀ n, n ≤ 32 → rowTurns c nt att oli n g = rowAfterAny c nt att oli n g := by
  intro n
  induction n with
  | zero => intro _; exact (rowAfterAny_zero c nt att oli g hb).symm
  | succ n ih =>
    intro hn
    rw [rowTurns, ih (by omega), row_tile_step_any c nt att oli n g (by omega) hi hi2]

/-- The buffers a call transfers: its own two, after the pending one if there was one. -/
theorem rowFlushedAny_row (c : Consts) (nt att : Nat) (m : ByteTable) (i0 j : Nat) (a : Mem)
    (l : Nat) (b : Mem) :
    rowFlushedAny c nt att m i0 j a l false 32 b =
      [rowBufferAfter c nt att m i0 j a l 16 b, rowBufferAfter c nt att m i0 j a l 32 b] ∧
    rowFlushedAny c nt att m i0 j a l true 32 b =
      [rowBufferAfter c nt att m i0 j a l 8 b, rowBufferAfter c nt att m i0 j a l 16 b,
        rowBufferAfter c nt att m i0 j a l 32 b] ∧
    rowFlushedAny c nt att m i0 j a l true 7 b = [] ∧
    rowFlushedAny c nt att m i0 j a l true 8 b = [rowBufferAfter c nt att m i0 j a l 8 b] := by
  refine ⟨?_, ?_, ?_, ?_⟩ <;> simp [rowFlushedAny]

/-- What one call at a row pair does to the cursors and to the flush log, for any entry
state. -/
theorem row_call_count (c : Consts) (nt att oli : Nat) (g : Globals)
    (hi : g.i % 32 = 0) (hi2 : g.i + 32 < 256) (hb : g.bufferIndex = 0) :
    (draw_individual_row c nt att oli g).i = g.i + 32 ∧
    (draw_individual_row c nt att oli g).bufferIndex = 0 ∧
    (draw_individual_row c nt att oli g).vramUpdate = false ∧
    (draw_individual_row c nt att oli g).flushed.length =
      g.flushed.length + 2 + (if g.vramUpdate = true then 1 else 0) := by
  rw [draw_individual_row_any_eq c nt att oli g hi hi2 hb]
  have hf : (rowAfterAny c nt att oli 32 g).flushed =
      g.flushed ++ rowFlushedAny c nt att g.currentMap g.i g.j g.assetTable
        g.currentMemoryLocation g.vramUpdate 32 g.mapScreenBuffer := rfl
  obtain ⟨f0, f1, _, _⟩ := rowFlushedAny_row c nt att g.currentMap g.i g.j g.assetTable
    g.currentMemoryLocation g.mapScreenBuffer
  refine ⟨rfl, rfl, rfl, ?_⟩
  rw [hf, List.length_append]
  by_cases hv : g.vramUpdate = true
  · rw [hv, f1, if_pos rfl]
    rfl
  · have hv' : g.vramUpdate = false := by simpa using hv
    rw [hv', f0, if_neg (by decide)]
    rfl

/-- The cursors and the length of the flush log after `k` calls from the top of the map, for
any entry state. -/
theorem rowCalls_count (c : Consts) (nt att oli : Nat) (g : Globals) (hi : g.i = 0)
    (hb : g.bufferIndex = 0) :
    ∀ k, k ≤ 6 →
      (rowCalls c nt att oli k g).i = 32 * k ∧ (rowCalls c nt att oli k g).bufferIndex = 0 ∧
      (0 < k → (rowCalls c nt att oli k g).vramUpdate = false) ∧
      (rowCalls c nt att oli k g).flushed.length =
        g.flushed.length + 2 * k + (if 0 < k ∧ g.vramUpdate = true then 1 else 0) := by
  intro k
  induction k with
  | zero =>
    intro _
    refine ⟨hi, hb, fun h => absurd h (by decide), ?_⟩
    rw [if_neg (fun h => absurd h.1 (by decide))]
    rfl
  | succ k ih =>
    intro hk
    obtain ⟨si, sb, sv, sl⟩ := ih (by omega)
    obtain ⟨c1, c2, c3, c4⟩ := row_call_count c nt att oli (rowCalls c nt att oli k g)
      (by omega) (by omega) sb
    rw [rowCalls]
    refine ⟨by omega, c2, fun _ => c3, ?_⟩
    rw [c4, sl]
    by_cases h0 : k = 0
    · have e0 : (rowCalls c nt att oli 0 g).vramUpdate = g.vramUpdate := rfl
      rw [h0, e0]
      by_cases hv : g.vramUpdate = true <;> simp [hv]
    · have hvk := sv (by omega)
      have hk0 : 0 < k := by omega
      rw [hvk]
      by_cases hv : g.vramUpdate = true <;> simp [hv, hk0] <;> omega

/-- C11, the claim as worded fails: entered with `i = 64`, `bufferIndex = 0` and an update
list still pending, a call of `draw_individual_row` flushes three buffers, not two. -/
theorem row_call_flushes_three :
    samplePendingGlobals.i = 32 * 2 ∧ samplePendingGlobals.bufferIndex = 0 ∧
    ((draw_individual_row kit 0x2400 0x27C0 2 samplePendingGlobals).flushed.drop
      samplePendingGlobals.flushed.length).length = 3 := by
  refine ⟨rfl, rfl, ?_⟩
  rw [List.length_drop,
    (row_call_count kit 0x2400 0x27C0 2 samplePendingGlobals (by decide) (by decide) rfl).2.2.2]
  rfl

/-- C11, amended: a call of `draw_individual_row` entered with the tile cursor `i` at a
multiple of 32 between 0 and 160 and with `bufferIndex = 0` returns, whatever else the entry
state holds, with `i` advanced by 32, the cursor `j` advanced by 8 modulo 256 (so 255, the byte
of -1, becomes 7) and `bufferIndex` back at 0.  When no update list is pending on entry
exactly two buffers are flushed; when one is pending exactly three are, the first of them in
the turn of the eighth tile, before the two flushes of the call itself. -/
theorem row_call_advances (c : Consts) (nt att oli : Nat) (g : Globals) (r : Nat) (hr : r ≤ 5)
    (hi : g.i = 32 * r) (hb : g.bufferIndex = 0) :
    (draw_individual_row c nt att oli g).i = g.i + 32 ∧
    (draw_individual_row c nt att oli g).j = (g.j + 8) % 256 ∧
    (g.j = 255 → (draw_individual_row c nt att oli g).j = 7) ∧
    (draw_individual_row c nt att oli g).bufferIndex = 0 ∧
    (draw_individual_row c nt att oli g).currentMap = g.currentMap ∧
    (g.vramUpdate = false →
      ∃ first second, (draw_individual_row c nt att oli g).flushed = g.flushed ++ [first, second]) ∧
    (g.vramUpdate = true →
      ∃ stale first second,
        (draw_individual_row c nt att oli g).flushed = g.flushed ++ [stale, first, second] ∧
        (rowTurns c nt att oli 7 g).flushed = g.flushed ∧
        (rowTurns c nt att oli 8 g).flushed = g.flushed ++ [stale]) := by
  have h32 : g.i % 32 = 0 := by omega
  have h256 : g.i + 32 < 256 := by omega
  rw [draw_individual_row_any_eq c nt att oli g h32 h256 hb,
    rowTurns_any_eq c nt att oli g h32 h256 hb 7 (by omega),
    rowTurns_any_eq c nt att oli g h32 h256 hb 8 (by omega)]
  have hj : (rowAfterAny c nt att oli 32 g).j = (g.j + 8) % 256 := jAfter_row g.j
  obtain ⟨f0, f1, f7, f8⟩ := rowFlushedAny_row c nt att g.currentMap g.i g.j g.assetTable
    g.currentMemoryLocation g.mapScreenBuffer
  have hf : ∀ n, (rowAfterAny c nt att oli n g).flushed =
      g.flushed ++ rowFlushedAny c nt att g.currentMap g.i g.j g.assetTable
        g.currentMemoryLocation g.vramUpdate n g.mapScreenBuffer := fun _ => rfl
  refine ⟨rfl, hj, ?_, rfl, rfl, ?_, ?_⟩
  · intro h
    rw [hj, h]
  · intro hv
    rw [hf 32, hv, f0]
    exact ⟨_, _, rfl⟩
  · intro hv
    rw [hf 32, hf 7, hf 8, hv, f1, f7, f8, List.append_nil]
    exact ⟨_, _, _, rfl, rfl, rfl⟩

theorem row_call_advances_witness :
    2 ≤ 5 ∧ samplePendingGlobals.i = 32 * 2 ∧ samplePendingGlobals.bufferIndex = 0 ∧
    (draw_individual_row kit 0x2400 0x27C0 2 samplePendingGlobals).i = samplePendingGlobals.i + 32 ∧
    (draw_individual_row kit 0x2400 0x27C0 2 samplePendingGlobals).j =
      (samplePendingGlobals.j + 8) % 256 ∧
    (draw_individual_row kit 0x2400 0x27C0 2 samplePendingGlobals).bufferIndex = 0 ∧
    ∃ stale first second,
      (draw_individual_row kit 0x2400 0x27C0 2 samplePendingGlobals).flushed =
        samplePendingGlobals.flushed ++ [stale, first, second] :=
  have h := row_call_advances kit 0x2400 0x27C0 2 samplePendingGlobals 2 (by decide) rfl rfl
  ⟨by decide, rfl, rfl, h.1, h.2.1, h.2.2.2.1,
    (h.2.2.2.2.2.2 rfl).elim fun stale h1 => h1.elim fun first h2 => h2.elim fun second h3 =>
      ⟨stale, first, second, h3.1⟩⟩

/-- Six calls from the top of the map with an update list pending on entry. -/
theorem rowCalls_pending (c : Consts) (nt att d : Nat) (s : Globals)
    (hv : s.vramUpdate = true) :
    ((rowCalls c nt att d 6 { s with i := 0, j := 255, bufferIndex := 0 }).flushed.drop
      s.flushed.length).length = 13 := by
  obtain ⟨_, _, _, hl⟩ := rowCalls_count c nt att d { s with i := 0, j := 255, bufferIndex := 0 }
    rfl rfl 6 (by omega)
  simp only [] at hl
  rw [List.length_drop, hl, hv, if_pos ⟨by decide, rfl⟩]
  omega

/-- The four tile stores stay above the header. -/
theorem bufferTile_head (c : Consts) (hP : c.NAMETABLE_UPDATE_PREFIX_LENGTH = 3) (k v : Nat)
    (b : Mem) (idx : Nat) (h : idx < 3) : bufferTile c k v b idx = b idx := by
  unfold bufferTile
  simp only [hP]
  simp (disch := omega) only [poke_of_ne]

/-- Before its first flush a call leaves the header bytes of the buffer as it found them. -/
theorem rowBufferAfter_head (c : Consts) (hP : c.NAMETABLE_UPDATE_PREFIX_LENGTH = 3)
    (nt att : Nat) (m : ByteTable) (i0 j : Nat) (a : Mem) (l : Nat) (b : Mem) (idx : Nat)
    (h : idx < 3) : ∀ n, n ≤ 15 → rowBufferAfter c nt att m i0 j a l n b idx = b idx := by
  intro n
  induction n with
  | zero => intro _; rfl
  | succ n ih =>
    intro hn
    rw [rowBufferAfter, if_neg (by omega), bufferTile_head c hP _ _ _ idx h, ih (by omega)]

/-- The flush log of later calls extends the log of the first call. -/
theorem rowCalls_extends (c : Consts) (nt att oli : Nat) (g : Globals) (hi : g.i = 0)
    (hb : g.bufferIndex = 0) :
    ∀ k, k + 1 ≤ 6 → ∃ rest, (rowCalls c nt att oli (k + 1) g).flushed =
      (draw_individual_row c nt att oli g).flushed ++ rest := by
  intro k
  induction k with
  | zero => intro _; exact ⟨[], (List.append_nil _).symm⟩
  | succ k ih =>
    intro hk
    obtain ⟨rest, hrest⟩ := ih (by omega)
    obtain ⟨si, sb, _, _⟩ := rowCalls_count c nt att oli g hi hb (k + 1) (by omega)
    have e : rowCalls c nt att oli (k + 1 + 1) g =
        rowAfterAny c nt att oli 32 (rowCalls c nt att oli (k + 1) g) :=
      draw_individual_row_any_eq c nt att oli _ (by omega) (by omega) sb
    have hf : (rowAfterAny c nt att oli 32 (rowCalls c nt att oli (k + 1) g)).flushed =
        (rowCalls c nt att oli (k + 1) g).flushed ++
          rowFlushedAny c nt att (rowCalls c nt att oli (k + 1) g).currentMap
            (rowCalls c nt att oli (k + 1) g).i (rowCalls c nt att oli (k + 1) g).j
            (rowCalls c nt att oli (k + 1) g).assetTable
            (rowCalls c nt att oli (k + 1) g).currentMemoryLocation
            (rowCalls c nt att oli (k + 1) g).vramUpdate 32
            (rowCalls c nt att oli (k + 1) g).mapScreenBuffer := rfl
    rw [e, hf, hrest, List.append_assoc]
    exact ⟨_, rfl⟩

/-- Six calls from the top of the map with an update list pending on entry: thirteen
buffers, the first of them with the header bytes the buffer had on entry. -/
theorem rowCalls_stale_first (c : Consts) (hP : c.NAMETABLE_UPDATE_PREFIX_LENGTH = 3)
    (nt att d : Nat) (g : Globals) (hi : g.i = 0) (hb : g.bufferIndex = 0)
    (hv : g.vramUpdate = true) :
    ((rowCalls c nt att d 6 g).flushed.drop g.flushed.length).length = 13 ∧
    ∃ p, ((rowCalls c nt att d 6 g).flushed.drop g.flushed.length)[0]? = some p ∧
      p 2 = g.mapScreenBuffer 2 := by
  obtain ⟨_, _, _, hl⟩ := rowCalls_count c nt att d g hi hb 6 (by omega)
  obtain ⟨rest, hrest⟩ := rowCalls_extends c nt att d g hi hb 5 (by omega)
  have e1 := draw_individual_row_any_eq c nt att d g (by omega) (by omega) hb
  have hf : (rowAfterAny c nt att d 32 g).flushed =
      g.flushed ++ rowFlushedAny c nt att g.currentMap g.i g.j g.assetTable g.currentMemoryLocation
        g.vramUpdate 32 g.mapScreenBuffer := rfl
  obtain ⟨_, f1, _, _⟩ := rowFlushedAny_row c nt att g.currentMap g.i g.j g.assetTable
    g.currentMemoryLocation g.mapScreenBuffer
  rw [e1, hf, hv, f1, List.append_assoc] at hrest
  refine ⟨?_, ?_⟩
  · rw [List.length_drop, hl, hv, if_pos ⟨by decide, rfl⟩]
    omega
  · rw [hrest, List.drop_left]
    exact ⟨_, rfl, rowBufferAfter_head c hP nt att g.currentMap g.i g.j g.assetTable
      g.currentMemoryLocation g.mapScreenBuffer 2 (by decide) 8 (by decide)⟩

/-- C20, the claim as worded fails: started on a table cleared by `clear_asset_table(0)` with
`i = 0`, `j = 255` and `bufferIndex = 0`, but with an update list still pending, six calls of
`draw_individual_row` flush thirteen buffers, not twelve, and the first of them carries the
length byte 2 where the first tile packet of the full streamer carries 65. -/
theorem six_calls_flush_thirteen :
    ((rowCalls kit 0x2400 0x27C0 2 6
      { clear_asset_table 0 samplePendingGlobals with i := 0, j := 255, bufferIndex := 0 }).flushed.drop
        samplePendingGlobals.flushed.length).length = 13 ∧
    (∃ p, ((rowCalls kit 0x2400 0x27C0 2 6
      { clear_asset_table 0 samplePendingGlobals with i := 0, j := 255, bufferIndex := 0 }).flushed.drop
        samplePendingGlobals.flushed.length)[0]? = some p ∧ p 2 = 2) ∧
    ∃ full, ((draw_current_map_to_nametable kit 0x2400 0x27C0 0
      (clear_asset_table 0 samplePendingGlobals)).flushed.drop
        samplePendingGlobals.flushed.length)[0]? = some full ∧ full 2 = 65 := by
  have hc := clear_asset_table_eq 0 samplePendingGlobals
  have hfl : (clear_asset_table 0 samplePendingGlobals).flushed = samplePendingGlobals.flushed := by
    rw [hc]
  have hvr : (clear_asset_table 0 samplePendingGlobals).vramUpdate = true := by
    rw [hc]
    rfl
  have hbuf : (clear_asset_table 0 samplePendingGlobals).mapScreenBuffer 2 = 2 := by
    rw [hc]
    rfl
  clear hc
  generalize clear_asset_table 0 samplePendingGlobals = s at hfl hvr hbuf ⊢
  rw [← hfl]
  obtain ⟨h1, p, h2, h3⟩ := rowCalls_stale_first kit rfl 0x2400 0x27C0 2
    { s with i := 0, j := 255, bufferIndex := 0 } rfl rfl hvr
  obtain ⟨_, ft, _⟩ := draw_flushed_get kit rfl 0x2400 0x27C0 0 s
  dsimp only at h1 h2 h3 ⊢
  exact ⟨h1, ⟨p, h2, h3.trans hbuf⟩, _, ft 0 (by decide), rfl⟩

end NesMap
